import Mathlib

/-!
# RAJA Performance Suite kernels: a shallow embedding

The development embeds the kernels `ADD`, `FIR`, `PRESSURE`, `DEL_DOT_VEC_2D`,
`REDUCE3_INT`, `TRAP_INT` and `POLYBENCH_2MM` together with the harness every
`runKernel` repeats (variant dispatch, timer, repetition loop), and proves
properties of them.

Conventions.
* `Index_type` values (sizes, loop counters, array subscripts) are integers.
* `Int_type` values are exact integers; `Real_type` values are elements of a
  type `α` carrying the arithmetic the kernel uses (exact arithmetic).
* A numeric buffer is a `List`; `load` and `store` are the subscript
  expressions `buf[i]` as r-value and l-value.
* A kernel object is a `Kernel C D`: the members inherited from `KernelBase`
  plus the kernel's private members `D`.
-/

set_option autoImplicit false

namespace rajaperf

/-! ## Variant identifiers and build configuration -/

/-- Variant identifiers: the `case` labels that occur in the kernels' `switch (vid)`
statements (`Baseline_*` and `RAJALike_OpenMP` are the labels of `ADD.cpp`), and
`other n` for every identifier that none of the sources names. -/
inductive VariantID where
  | Base_Seq
  | RAJA_Seq
  | Base_OpenMP
  | RAJA_OpenMP
  | Base_OpenMPTarget
  | RAJA_OpenMPTarget
  | Base_CUDA
  | RAJA_CUDA
  | Baseline_Seq
  | Baseline_OpenMP
  | RAJALike_OpenMP
  | Baseline_CUDA
  | other (n : Nat)
  deriving DecidableEq, Repr

/-- The preprocessor symbols that guard `case` labels (`OPENMP` stands for `_OPENMP`). -/
structure BuildConfig where
  RAJA_ENABLE_OPENMP : Bool
  RAJA_ENABLE_TARGET_OPENMP : Bool
  RAJA_ENABLE_CUDA : Bool
  OPENMP : Bool
  deriving DecidableEq, Repr

/-! ## The kernel base object -/

/-- Observable calls a kernel makes, in program order.  `sweep irep` is a marker
recorded at the head of iteration `irep` of a repetition loop; the other events
are calls to the timer, to `std::cout` and to the buffer utility (tagged with
the name of the pointer variable). -/
inductive Event where
  | startTimer
  | stopTimer
  | sweep (irep : Int)
  | cout (msg : String) (vid : VariantID)
  | allocAndInitData (buf : String)
  | deallocData (buf : String)
  | allocAndInitCudaDeviceData (buf : String)
  | deallocCudaDeviceData (buf : String)
  deriving DecidableEq, Repr

/-- Modelled from the spec: the members of `KernelBase` (common/KernelBase.hpp) that
the kernels use: the run size (`getRunSize()`), the run repetition count
(`getRunReps()`, called `getRunSamples()` in `ADD.cpp`), the per-variant cumulative
checksum map, and the record of calls made so far; `data` holds the members of the
derived kernel class. -/
structure Kernel (C D : Type) where
  run_size : Int
  run_reps : Int
  checksum : VariantID → C
  trace : List Event
  data : D

/-- Data effect of the variants other than the baseline sequential one.  These run
their sweeps through RAJA, OpenMP or a device; the embedding does not interpret
them and takes their effect on the kernel's members as a parameter: `stage`
before the timed loop (device and offload variants), `sweep` once per
repetition, `unstage` after the loop (device and offload variants). -/
structure Runtime (D : Type) where
  stage : VariantID → D → D
  sweep : VariantID → D → D
  unstage : VariantID → D → D

section Harness

variable {C D σ α : Type}

/-- Iterations `i, i+1, ...` of a loop body, `n` of them. -/
def forLoopAux (body : Int → σ → σ) : Nat → Int → σ → σ
  | 0, _, s => s
  | n + 1, i, s => forLoopAux body n (i + 1) (body i s)

/-- The statement `for (Index_type i = ibegin; i < iend; ++i) body`. -/
def forLoop (ibegin iend : Int) (body : Int → σ → σ) (s : σ) : σ :=
  forLoopAux body (iend - ibegin).toNat ibegin s

/-- The r-value `buf[i]`; a subscript outside the buffer reads `0`. -/
def load [Zero α] (buf : List α) (i : Int) : α :=
  if 0 ≤ i then buf.getD i.toNat 0 else 0

/-- The assignment `buf[i] = v`; a subscript outside the buffer stores nothing. -/
def store (buf : List α) (i : Int) (v : α) : List α :=
  if 0 ≤ i then buf.set i.toNat v else buf

/-- Appends one event to the kernel's record. -/
def Kernel.log (e : Event) (k : Kernel C D) : Kernel C D :=
  { k with trace := k.trace ++ [e] }

/-- The call `startTimer()`. -/
def startTimer (k : Kernel C D) : Kernel C D := k.log Event.startTimer

/-- The call `stopTimer()`. -/
def stopTimer (k : Kernel C D) : Kernel C D := k.log Event.stopTimer

/-- The timed repetition loop of a `case` block:
`startTimer(); for (irep = 0; irep < run_reps; ++irep) { sweep } stopTimer();`. -/
def timedReps (run_reps : Int) (sweep : D → D) (k : Kernel C D) : Kernel C D :=
  stopTimer
    (forLoop 0 run_reps
      (fun irep s => { s.log (Event.sweep irep) with data := sweep s.data })
      (startTimer k))

/-- The `default` block: `std::cout << msg << vid << std::endl;`. -/
def unknownVariant (msg : String) (vid : VariantID) (k : Kernel C D) : Kernel C D :=
  k.log (Event.cout msg vid)

/-- A device or offload `case` block: stage the data, run the timed loop, unstage. -/
def stagedReps (rt : Runtime D) (vid : VariantID) (run_reps : Int)
    (k : Kernel C D) : Kernel C D :=
  let k1 : Kernel C D := { k with data := rt.stage vid k.data }
  let k2 := timedReps run_reps (rt.sweep vid) k1
  { k2 with data := rt.unstage vid k2.data }

/-- Appends a list of events to the kernel's record. -/
def Kernel.logs (es : List Event) (k : Kernel C D) : Kernel C D :=
  { k with trace := k.trace ++ es }

/-- The repetition indices recorded by `sweep` markers, in order. -/
def sweepsOf : List Event → List Int
  | [] => []
  | Event.sweep irep :: es => irep :: sweepsOf es
  | _ :: es => sweepsOf es

/-- The indices `0, 1, ..., R - 1`. -/
def repIndices (R : Int) : List Int := (List.range R.toNat).map Int.ofNat

/-- The number of timer calls in a record. -/
def timerCalls (t : List Event) : Nat :=
  (t.filter (fun e => decide (e = Event.startTimer ∨ e = Event.stopTimer))).length

/-- Case labels shared by `FIR`, `PRESSURE`, `DEL_DOT_VEC_2D`, `REDUCE3_INT`,
`TRAP_INT` and `POLYBENCH_2MM` that the preprocessor keeps under `cfg`. -/
def caseLabel (cfg : BuildConfig) : VariantID → Bool
  | VariantID.Base_Seq => true
  | VariantID.RAJA_Seq => true
  | VariantID.Base_OpenMP => cfg.RAJA_ENABLE_OPENMP
  | VariantID.RAJA_OpenMP => cfg.RAJA_ENABLE_OPENMP
  | VariantID.Base_OpenMPTarget => cfg.RAJA_ENABLE_OPENMP && cfg.RAJA_ENABLE_TARGET_OPENMP
  | VariantID.RAJA_OpenMPTarget => cfg.RAJA_ENABLE_OPENMP && cfg.RAJA_ENABLE_TARGET_OPENMP
  | VariantID.Base_CUDA => cfg.RAJA_ENABLE_CUDA
  | VariantID.RAJA_CUDA => cfg.RAJA_ENABLE_CUDA
  | _ => false

/-- The `switch (vid)` statement of `runKernel` in `FIR`, `PRESSURE`,
`DEL_DOT_VEC_2D`, `REDUCE3_INT`, `TRAP_INT` and `POLYBENCH_2MM`.  `baseSeq` is one
iteration of the `Base_Seq` repetition loop; `baseCuda` and `rajaCuda` name the device buffers the
`Base_CUDA` and `RAJA_CUDA` blocks acquire (`allocAndInitCudaDeviceData`) before
the timer starts and release (`deallocCudaDeviceData`) after it stops; `msg` is
the text the `default` block prints. -/
def dispatch (cfg : BuildConfig) (rt : Runtime D) (msg : String) (run_reps : Int)
    (baseSeq : D → D) (baseCuda rajaCuda : List String × List String)
    (vid : VariantID) (k : Kernel C D) : Kernel C D :=
  let dflt := unknownVariant msg vid k
  match vid with
  | VariantID.Base_Seq => timedReps run_reps baseSeq k
  | VariantID.RAJA_Seq => timedReps run_reps (rt.sweep vid) k
  | VariantID.Base_OpenMP =>
    if cfg.RAJA_ENABLE_OPENMP then timedReps run_reps (rt.sweep vid) k else dflt
  | VariantID.RAJA_OpenMP =>
    if cfg.RAJA_ENABLE_OPENMP then timedReps run_reps (rt.sweep vid) k else dflt
  | VariantID.Base_OpenMPTarget =>
    if cfg.RAJA_ENABLE_OPENMP && cfg.RAJA_ENABLE_TARGET_OPENMP then
      stagedReps rt vid run_reps k
    else dflt
  | VariantID.RAJA_OpenMPTarget =>
    if cfg.RAJA_ENABLE_OPENMP && cfg.RAJA_ENABLE_TARGET_OPENMP then
      stagedReps rt vid run_reps k
    else dflt
  | VariantID.Base_CUDA =>
    if cfg.RAJA_ENABLE_CUDA then
      Kernel.logs (baseCuda.2.map Event.deallocCudaDeviceData)
        (stagedReps rt vid run_reps
          (Kernel.logs (baseCuda.1.map Event.allocAndInitCudaDeviceData) k))
    else dflt
  | VariantID.RAJA_CUDA =>
    if cfg.RAJA_ENABLE_CUDA then
      Kernel.logs (rajaCuda.2.map Event.deallocCudaDeviceData)
        (stagedReps rt vid run_reps
          (Kernel.logs (rajaCuda.1.map Event.allocAndInitCudaDeviceData) k))
    else dflt
  | _ => dflt

end Harness

/-! ## REDUCE3_INT -/

/-- Modelled from the spec: `Int_type` is the 32-bit `int` (common/RPTypes.hpp);
this is `std::numeric_limits<Int_type>::max()`. -/
def Int_type_max : Int := 2147483647

/-- Modelled from the spec: `std::numeric_limits<Int_type>::min()` for the 32-bit `int`. -/
def Int_type_min : Int := -2147483648

/-- The macro `RAJA_MIN(a, b)`: the lesser of its arguments. -/
def RAJA_MIN (a b : Int) : Int := if b < a then b else a

/-- The macro `RAJA_MAX(a, b)`: the greater of its arguments. -/
def RAJA_MAX (a b : Int) : Int := if b > a then b else a

namespace REDUCE3_INT

/-- Private members of class `REDUCE3_INT`. -/
structure Data where
  m_vec : List Int
  m_vsum : Int
  m_vsum_init : Int
  m_vmin : Int
  m_vmin_init : Int
  m_vmax : Int
  m_vmax_init : Int
  deriving DecidableEq, Repr

/-- The locals `vsum`, `vmin`, `vmax` of one repetition. -/
structure Acc where
  vsum : Int
  vmin : Int
  vmax : Int
  deriving DecidableEq, Repr

/-- The macro `REDUCE3_INT_BODY` at index `i`. -/
def REDUCE3_INT_BODY (vec : List Int) (i : Int) (r : Acc) : Acc :=
  { vsum := r.vsum + load vec i
    vmin := RAJA_MIN r.vmin (load vec i)
    vmax := RAJA_MAX r.vmax (load vec i) }

/-- The inner loop of one `Base_Seq` repetition, started from the `*_init` members. -/
def reduce (iend : Int) (d : Data) : Acc :=
  forLoop 0 iend (REDUCE3_INT_BODY d.m_vec)
    { vsum := d.m_vsum_init, vmin := d.m_vmin_init, vmax := d.m_vmax_init }

/-- One iteration of the `Base_Seq` repetition loop. -/
def sweep (iend : Int) (d : Data) : Data :=
  let r := reduce iend d
  { d with
    m_vsum := d.m_vsum + r.vsum
    m_vmin := RAJA_MIN d.m_vmin r.vmin
    m_vmax := RAJA_MAX d.m_vmax r.vmax }

/-- The method `REDUCE3_INT::setUp`; `allocAndInitData len vid` is the content the
buffer utility gives a fresh buffer of `len` elements. -/
def setUp (allocAndInitData : Int → VariantID → List Int) (vid : VariantID)
    (k : Kernel Int Data) : Kernel Int Data :=
  { k.log (Event.allocAndInitData "m_vec") with
    data :=
      { m_vec := allocAndInitData k.run_size vid
        m_vsum := 0
        m_vsum_init := 0
        m_vmin := Int_type_max
        m_vmin_init := Int_type_max
        m_vmax := Int_type_min
        m_vmax_init := Int_type_min } }

/-- The method `REDUCE3_INT::runKernel`.  The repetition count is the constant the
source assigns to `run_reps`, not `getRunReps()`. -/
def runKernel (cfg : BuildConfig) (rt : Runtime Data) (vid : VariantID)
    (k : Kernel Int Data) : Kernel Int Data :=
  let run_reps : Int := 100
  let iend : Int := k.run_size
  dispatch cfg rt "\n  REDUCE3_INT : Unknown variant id = " run_reps (sweep iend)
    (["vec", "vsum", "vmin", "vmax"], ["vec", "vsum"]) (["vec"], ["vec"])
    vid k

/-- The method `REDUCE3_INT::updateChecksum`: three successive `+=`. -/
def updateChecksum (vid : VariantID) (k : Kernel Int Data) : Kernel Int Data :=
  let c1 := Function.update k.checksum vid (k.checksum vid + k.data.m_vsum)
  let c2 := Function.update c1 vid (c1 vid + k.data.m_vmin)
  let c3 := Function.update c2 vid (c2 vid + k.data.m_vmax)
  { k with checksum := c3 }

/-- The method `REDUCE3_INT::tearDown`: `deallocData(m_vec)` leaves no buffer. -/
def tearDown (_vid : VariantID) (k : Kernel Int Data) : Kernel Int Data :=
  { k.log (Event.deallocData "m_vec") with data := { k.data with m_vec := [] } }

end REDUCE3_INT

/-! ## FIR -/

namespace FIR

variable {α C : Type}

/-- The macro `COEFFLEN`. -/
def COEFFLEN : Int := 16

/-- The array `coeff_array` the macro `FIR_COEFF` declares. -/
def coeff_array [Ring α] : List α :=
  [3, -1, -1, -1, -1, 3, -1, -1, -1, -1, 3, -1, -1, -1, -1, 3]

/-- Private members of class `FIR`. -/
structure Data (α : Type) where
  m_in : List α
  m_out : List α
  m_coefflen : Int
  deriving DecidableEq, Repr

/-- The inner loop of `FIR_BODY`: `sum = 0.0; for (j ...) sum += coeff[j]*in[i+j];`. -/
def firSum [Ring α] (coeff in_ : List α) (coefflen i : Int) : α :=
  forLoop 0 coefflen (fun j sum => sum + load coeff j * load in_ (i + j)) 0

/-- The macro `FIR_BODY` at index `i`. -/
def FIR_BODY [Ring α] (coeff in_ : List α) (coefflen i : Int) (out : List α) : List α :=
  store out i (firSum coeff in_ coefflen i)

/-- One iteration of the `Base_Seq` repetition loop (`coeff` is the copy of
`coeff_array` that `FIR_DATA` makes). -/
def sweep [Ring α] (iend : Int) (d : Data α) : Data α :=
  { d with m_out := forLoop 0 iend (FIR_BODY coeff_array d.m_in d.m_coefflen) d.m_out }

/-- The method `FIR::getItsPerRep`. -/
def getItsPerRep (k : Kernel C (Data α)) : Int :=
  k.run_size - k.data.m_coefflen

/-- The method `FIR::setUp`. -/
def setUp (allocAndInitData : String → Int → VariantID → List α) (vid : VariantID)
    (k : Kernel C (Data α)) : Kernel C (Data α) :=
  { Kernel.logs [Event.allocAndInitData "m_in", Event.allocAndInitData "m_out"] k with
    data :=
      { k.data with
        m_in := allocAndInitData "m_in" k.run_size vid
        m_out := allocAndInitData "m_out" k.run_size vid } }

/-- The method `FIR::runKernel` (with `USE_CONSTANT_MEMORY` defined, as in the source). -/
def runKernel [Ring α] (cfg : BuildConfig) (rt : Runtime (Data α)) (vid : VariantID)
    (k : Kernel C (Data α)) : Kernel C (Data α) :=
  let run_reps : Int := k.run_reps
  let iend : Int := k.run_size - k.data.m_coefflen
  dispatch cfg rt "\n  FIR : Unknown variant id = " run_reps (sweep iend)
    (["in", "out"], ["in", "out"]) (["in", "out"], ["in", "out"])
    vid k

/-- The method `FIR::updateChecksum`; `calcChecksum` is the buffer utility's checksum. -/
def updateChecksum [Add C] (calcChecksum : List α → Int → C) (vid : VariantID)
    (k : Kernel C (Data α)) : Kernel C (Data α) :=
  { k with
    checksum :=
      Function.update k.checksum vid (k.checksum vid + calcChecksum k.data.m_out k.run_size) }

/-- The method `FIR::tearDown`. -/
def tearDown (_vid : VariantID) (k : Kernel C (Data α)) : Kernel C (Data α) :=
  { Kernel.logs [Event.deallocData "m_in", Event.deallocData "m_out"] k with
    data := { k.data with m_in := [], m_out := [] } }

end FIR

section Checked

variable {σ α : Type}

/-- The loop `forLoopAux` for a body that can fail. -/
def forLoopAuxChecked (body : Int → σ → Option σ) : Nat → Int → σ → Option σ
  | 0, _, s => some s
  | n + 1, i, s => (body i s).bind (forLoopAuxChecked body n (i + 1))

/-- The statement `for (Index_type i = ibegin; i < iend; ++i) body` for a body that can fail. -/
def forLoopChecked (ibegin iend : Int) (body : Int → σ → Option σ) (s : σ) : Option σ :=
  forLoopAuxChecked body (iend - ibegin).toNat ibegin s

/-- The r-value `buf[i]`; fails when the subscript is outside the buffer. -/
def loadChecked (buf : List α) (i : Int) : Option α :=
  if 0 ≤ i then buf.get? i.toNat else none

/-- The assignment `buf[i] = v`; fails when the subscript is outside the buffer. -/
def storeChecked (buf : List α) (i : Int) (v : α) : Option (List α) :=
  if 0 ≤ i ∧ i.toNat < buf.length then some (buf.set i.toNat v) else none

end Checked

namespace FIR

variable {α C : Type}

/-- The inner loop of `FIR_BODY` with every subscript checked. -/
def firSumChecked [Ring α] (coeff in_ : List α) (coefflen i : Int) : Option α :=
  forLoopChecked 0 coefflen
    (fun j sum =>
      (loadChecked coeff j).bind fun c =>
      (loadChecked in_ (i + j)).bind fun x =>
      some (sum + c * x))
    0

/-- The macro `FIR_BODY` with every subscript checked. -/
def FIR_BODY_checked [Ring α] (coeff in_ : List α) (coefflen i : Int) (out : List α) :
    Option (List α) :=
  (firSumChecked coeff in_ coefflen i).bind fun sum => storeChecked out i sum

/-- One iteration of the `Base_Seq` repetition loop with every subscript checked. -/
def sweepChecked [Ring α] (iend : Int) (d : Data α) : Option (Data α) :=
  (forLoopChecked 0 iend (FIR_BODY_checked coeff_array d.m_in d.m_coefflen) d.m_out).map
    fun out => { d with m_out := out }

/-- The `Base_Seq` block of `FIR::runKernel` with every subscript checked. -/
def runBaseSeqChecked [Ring α] (k : Kernel C (Data α)) : Option (Kernel C (Data α)) :=
  let run_reps : Int := k.run_reps
  let iend : Int := k.run_size - k.data.m_coefflen
  (forLoopChecked 0 run_reps
    (fun irep s =>
      (sweepChecked iend s.data).map fun d => { s.log (Event.sweep irep) with data := d })
    (startTimer k)).map stopTimer

/-- The macro `FIR_BODY` at index `i`, recording next to the output buffer the
subscript `i` of its assignment `out[i] = sum`. -/
def FIR_BODY_logged [Ring α] (coeff in_ : List α) (coefflen i : Int)
    (s : List α × List Int) : List α × List Int :=
  (FIR_BODY coeff in_ coefflen i s.1, s.2 ++ [i])

/-- The subscripts at which one iteration of the `Base_Seq` repetition loop assigns
to `out`, in program order. -/
def sweepStores [Ring α] (iend : Int) (d : Data α) : List Int :=
  (forLoop 0 iend (FIR_BODY_logged coeff_array d.m_in d.m_coefflen) (d.m_out, [])).2

end FIR

/-! ## ADD -/

namespace ADD

variable {α C : Type}

/-- Private members of class `ADD`. -/
structure Data (α : Type) where
  m_a : List α
  m_b : List α
  m_c : List α
  deriving DecidableEq, Repr

/-- The macro `ADD_BODY` at index `i`. -/
def ADD_BODY [Zero α] [Add α] (a b : List α) (i : Int) (c : List α) : List α :=
  store c i (load a i + load b i)

/-- One iteration of the `Baseline_Seq` sample loop. -/
def sweep [Zero α] [Add α] (iend : Int) (d : Data α) : Data α :=
  { d with m_c := forLoop 0 iend (ADD_BODY d.m_a d.m_b) d.m_c }

/-- Case labels of `ADD::runKernel` that the preprocessor keeps under `cfg`. -/
def caseLabel (cfg : BuildConfig) : VariantID → Bool
  | VariantID.Baseline_Seq => true
  | VariantID.RAJA_Seq => true
  | VariantID.Baseline_OpenMP => cfg.OPENMP
  | VariantID.RAJALike_OpenMP => cfg.OPENMP
  | VariantID.RAJA_OpenMP => cfg.OPENMP
  | VariantID.Baseline_CUDA => cfg.RAJA_ENABLE_CUDA
  | VariantID.RAJA_CUDA => cfg.RAJA_ENABLE_CUDA
  | _ => false

/-- Case labels of `ADD::runKernel` whose block runs the timed sample loop: all the
kept labels but `RAJALike_OpenMP`, whose block is empty. -/
def supported (cfg : BuildConfig) (vid : VariantID) : Bool :=
  caseLabel cfg vid && decide (vid ≠ VariantID.RAJALike_OpenMP)

/-- The method `ADD::setUp`. -/
def setUp (allocAndInitData : String → Int → VariantID → List α) (vid : VariantID)
    (k : Kernel C (Data α)) : Kernel C (Data α) :=
  { Kernel.logs
      [Event.allocAndInitData "m_a", Event.allocAndInitData "m_b",
       Event.allocAndInitData "m_c"] k with
    data :=
      { m_a := allocAndInitData "m_a" k.run_size vid
        m_b := allocAndInitData "m_b" k.run_size vid
        m_c := allocAndInitData "m_c" k.run_size vid } }

/-- The method `ADD::runKernel`. -/
def runKernel [Zero α] [Add α] (cfg : BuildConfig) (rt : Runtime (Data α)) (vid : VariantID)
    (k : Kernel C (Data α)) : Kernel C (Data α) :=
  let run_samples : Int := k.run_reps
  let iend : Int := k.run_size
  let dflt := unknownVariant "\n  Unknown variant id = " vid k
  let cudaSetup := ["a", "b", "c"].map Event.allocAndInitCudaDeviceData
  let cudaTeardown := ["a", "b", "c"].map Event.deallocCudaDeviceData
  match vid with
  | VariantID.Baseline_Seq => timedReps run_samples (sweep iend) k
  | VariantID.RAJA_Seq => timedReps run_samples (rt.sweep vid) k
  | VariantID.Baseline_OpenMP =>
    if cfg.OPENMP then timedReps run_samples (rt.sweep vid) k else dflt
  | VariantID.RAJALike_OpenMP =>
    if cfg.OPENMP then k else dflt
  | VariantID.RAJA_OpenMP =>
    if cfg.OPENMP then timedReps run_samples (rt.sweep vid) k else dflt
  | VariantID.Baseline_CUDA =>
    if cfg.RAJA_ENABLE_CUDA then
      Kernel.logs cudaTeardown (stagedReps rt vid run_samples (Kernel.logs cudaSetup k))
    else dflt
  | VariantID.RAJA_CUDA =>
    if cfg.RAJA_ENABLE_CUDA then
      Kernel.logs cudaTeardown (stagedReps rt vid run_samples (Kernel.logs cudaSetup k))
    else dflt
  | _ => dflt

/-- The method `ADD::updateChecksum`; `calcChecksum` is the buffer utility's checksum. -/
def updateChecksum [Add C] (calcChecksum : List α → Int → C) (vid : VariantID)
    (k : Kernel C (Data α)) : Kernel C (Data α) :=
  { k with
    checksum :=
      Function.update k.checksum vid (k.checksum vid + calcChecksum k.data.m_c k.run_size) }

/-- The method `ADD::tearDown`. -/
def tearDown (_vid : VariantID) (k : Kernel C (Data α)) : Kernel C (Data α) :=
  { Kernel.logs
      [Event.deallocData "m_a", Event.deallocData "m_b", Event.deallocData "m_c"] k with
    data := { m_a := [], m_b := [], m_c := [] } }

end ADD

/-! ## PRESSURE -/

namespace PRESSURE

variable {α C : Type}

/-- Private members of class `PRESSURE`. -/
structure Data (α : Type) where
  m_compression : List α
  m_bvc : List α
  m_p_new : List α
  m_e_old : List α
  m_vnewc : List α
  m_cls : α
  m_p_cut : α
  m_pmin : α
  m_eosvmax : α
  deriving DecidableEq, Repr

/-- The macro `PRESSURE_BODY1` at index `i`. -/
def PRESSURE_BODY1 [LinearOrderedField α] (compression : List α) (cls : α) (i : Int)
    (bvc : List α) : List α :=
  store bvc i (cls * (load compression i + 1))

/-- The macro `PRESSURE_BODY2` at index `i`: one assignment and three guarded ones. -/
def PRESSURE_BODY2 [LinearOrderedField α] (bvc e_old vnewc : List α) (p_cut eosvmax pmin : α)
    (i : Int) (p_new : List α) : List α :=
  let p1 := store p_new i (load bvc i * load e_old i)
  let p2 := if abs (load p1 i) < p_cut then store p1 i 0 else p1
  let p3 := if load vnewc i ≥ eosvmax then store p2 i 0 else p2
  if load p3 i < pmin then store p3 i pmin else p3

/-- One iteration of the `Base_Seq` repetition loop: the two loops in sequence. -/
def sweep [LinearOrderedField α] (iend : Int) (d : Data α) : Data α :=
  let bvc := forLoop 0 iend (PRESSURE_BODY1 d.m_compression d.m_cls) d.m_bvc
  let p_new :=
    forLoop 0 iend (PRESSURE_BODY2 bvc d.m_e_old d.m_vnewc d.m_p_cut d.m_eosvmax d.m_pmin)
      d.m_p_new
  { d with m_bvc := bvc, m_p_new := p_new }

/-- The method `PRESSURE::setUp`; `initData s` is the value the buffer utility gives
the scalar `s`. -/
def setUp (allocAndInitData : String → Int → VariantID → List α) (initData : String → α)
    (vid : VariantID) (k : Kernel C (Data α)) : Kernel C (Data α) :=
  { Kernel.logs
      [Event.allocAndInitData "m_compression", Event.allocAndInitData "m_bvc",
       Event.allocAndInitData "m_p_new", Event.allocAndInitData "m_e_old",
       Event.allocAndInitData "m_vnewc"] k with
    data :=
      { m_compression := allocAndInitData "m_compression" k.run_size vid
        m_bvc := allocAndInitData "m_bvc" k.run_size vid
        m_p_new := allocAndInitData "m_p_new" k.run_size vid
        m_e_old := allocAndInitData "m_e_old" k.run_size vid
        m_vnewc := allocAndInitData "m_vnewc" k.run_size vid
        m_cls := initData "m_cls"
        m_p_cut := initData "m_p_cut"
        m_pmin := initData "m_pmin"
        m_eosvmax := initData "m_eosvmax" } }

/-- The method `PRESSURE::runKernel`. -/
def runKernel [LinearOrderedField α] (cfg : BuildConfig) (rt : Runtime (Data α))
    (vid : VariantID) (k : Kernel C (Data α)) : Kernel C (Data α) :=
  let run_reps : Int := k.run_reps
  let iend : Int := k.run_size
  let cudaSetup := ["compression", "bvc", "p_new", "e_old", "vnewc"]
  let cudaTeardown := ["compression", "bvc", "p_new", "e_old", "vnewc"]
  dispatch cfg rt "\n  PRESSURE : Unknown variant id = " run_reps (sweep iend)
    (cudaSetup, cudaTeardown) (cudaSetup, cudaTeardown) vid k

/-- The method `PRESSURE::updateChecksum`. -/
def updateChecksum [Add C] (calcChecksum : List α → Int → C) (vid : VariantID)
    (k : Kernel C (Data α)) : Kernel C (Data α) :=
  { k with
    checksum :=
      Function.update k.checksum vid (k.checksum vid + calcChecksum k.data.m_p_new k.run_size) }

/-- The method `PRESSURE::tearDown`. -/
def tearDown (_vid : VariantID) (k : Kernel C (Data α)) : Kernel C (Data α) :=
  { Kernel.logs
      [Event.deallocData "m_compression", Event.deallocData "m_bvc",
       Event.deallocData "m_p_new", Event.deallocData "m_e_old",
       Event.deallocData "m_vnewc"] k with
    data :=
      { k.data with
        m_compression := [], m_bvc := [], m_p_new := [], m_e_old := [], m_vnewc := [] } }

end PRESSURE

/-! ## DEL_DOT_VEC_2D -/

namespace DEL_DOT_VEC_2D

variable {α C : Type}

/-- Modelled from the spec: the members of `ADomain` (apps/AppsData.hpp) the kernel
reads: the array extent `nnalls`, the number of real zones, their indices, and
the stride `jp`. -/
structure ADomain where
  nnalls : Int
  n_real_zones : Int
  real_zones : List Int
  jp : Int
  deriving DecidableEq, Repr

/-- Modelled from the spec: the four strided views `v1, v2, v3, v4` that the macro
`NDSET2D(jp, v, v1, v2, v3, v4)` (apps/AppsData.hpp) makes of one flat buffer `v`,
each given by its offset into `v`. -/
structure Views where
  o1 : Int
  o2 : Int
  o3 : Int
  o4 : Int
  deriving DecidableEq, Repr

/-- Private members of class `DEL_DOT_VEC_2D`. -/
structure Data (α : Type) where
  m_x : List α
  m_y : List α
  m_xdot : List α
  m_ydot : List α
  m_div : List α
  m_ptiny : α
  m_half : α
  m_domain : ADomain
  deriving DecidableEq, Repr

/-- The value `DEL_DOT_VEC_2D_BODY` assigns to `div[i]` for zone `i`. -/
def divValue [Field α] (v : Views) (x y xdot ydot : List α) (ptiny half : α) (i : Int) : α :=
  let x1 := load x (v.o1 + i)
  let x2 := load x (v.o2 + i)
  let x3 := load x (v.o3 + i)
  let x4 := load x (v.o4 + i)
  let y1 := load y (v.o1 + i)
  let y2 := load y (v.o2 + i)
  let y3 := load y (v.o3 + i)
  let y4 := load y (v.o4 + i)
  let fx1 := load xdot (v.o1 + i)
  let fx2 := load xdot (v.o2 + i)
  let fx3 := load xdot (v.o3 + i)
  let fx4 := load xdot (v.o4 + i)
  let fy1 := load ydot (v.o1 + i)
  let fy2 := load ydot (v.o2 + i)
  let fy3 := load ydot (v.o3 + i)
  let fy4 := load ydot (v.o4 + i)
  let xi := half * (x1 + x2 - x3 - x4)
  let xj := half * (x2 + x3 - x4 - x1)
  let yi := half * (y1 + y2 - y3 - y4)
  let yj := half * (y2 + y3 - y4 - y1)
  let fxi := half * (fx1 + fx2 - fx3 - fx4)
  let fxj := half * (fx2 + fx3 - fx4 - fx1)
  let fyi := half * (fy1 + fy2 - fy3 - fy4)
  let fyj := half * (fy2 + fy3 - fy4 - fy1)
  let rarea := 1 / (xi * yj - xj * yi + ptiny)
  let dfxdx := rarea * (fxi * yj - fxj * yi)
  let dfydy := rarea * (fyj * xi - fyi * xj)
  let affine := (fy1 + fy2 + fy3 + fy4) / (y1 + y2 + y3 + y4)
  dfxdx + dfydy + affine

/-- The macro `DEL_DOT_VEC_2D_BODY` at loop index `ii`. -/
def DEL_DOT_VEC_2D_BODY [Field α] (v : Views) (x y xdot ydot : List α) (real_zones : List Int)
    (ptiny half : α) (ii : Int) (div : List α) : List α :=
  let i := load real_zones ii
  store div i (divValue v x y xdot ydot ptiny half i)

/-- One iteration of the `Base_Seq` repetition loop; `NDSET2D jp` gives the views
the macro of that name sets up from `m_domain->jp`. -/
def sweep [Field α] (NDSET2D : Int → Views) (iend : Int) (d : Data α) : Data α :=
  { d with
    m_div :=
      forLoop 0 iend
        (DEL_DOT_VEC_2D_BODY (NDSET2D d.m_domain.jp) d.m_x d.m_y d.m_xdot d.m_ydot
          d.m_domain.real_zones d.m_ptiny d.m_half)
        d.m_div }

/-- The method `DEL_DOT_VEC_2D::getItsPerRep`. -/
def getItsPerRep (k : Kernel C (Data α)) : Int :=
  k.data.m_domain.n_real_zones

/-- The method `DEL_DOT_VEC_2D::setUp`; `ptiny` and `half` are the values of the
literals `1.0e-20` and `0.5`. -/
def setUp (allocAndInitData : String → Int → VariantID → List α) (ptiny half : α)
    (vid : VariantID) (k : Kernel C (Data α)) : Kernel C (Data α) :=
  let max_loop_index : Int := k.data.m_domain.nnalls
  { Kernel.logs
      [Event.allocAndInitData "m_x", Event.allocAndInitData "m_y",
       Event.allocAndInitData "m_xdot", Event.allocAndInitData "m_ydot",
       Event.allocAndInitData "m_div"] k with
    data :=
      { k.data with
        m_x := allocAndInitData "m_x" max_loop_index vid
        m_y := allocAndInitData "m_y" max_loop_index vid
        m_xdot := allocAndInitData "m_xdot" max_loop_index vid
        m_ydot := allocAndInitData "m_ydot" max_loop_index vid
        m_div := allocAndInitData "m_div" max_loop_index vid
        m_ptiny := ptiny
        m_half := half } }

/-- The method `DEL_DOT_VEC_2D::runKernel`. -/
def runKernel [Field α] (NDSET2D : Int → Views) (cfg : BuildConfig) (rt : Runtime (Data α))
    (vid : VariantID) (k : Kernel C (Data α)) : Kernel C (Data α) :=
  let run_reps : Int := k.run_reps
  let iend : Int := k.data.m_domain.n_real_zones
  let cudaSetup := ["x", "y", "xdot", "ydot", "div", "real_zones"]
  let cudaTeardown := ["x", "y", "xdot", "ydot", "div"]
  dispatch cfg rt "\n  DEL_DOT_VEC_2D : Unknown variant id = " run_reps (sweep NDSET2D iend)
    (cudaSetup, cudaTeardown) (cudaSetup, cudaTeardown) vid k

/-- The method `DEL_DOT_VEC_2D::updateChecksum`. -/
def updateChecksum [Add C] (calcChecksum : List α → Int → C) (vid : VariantID)
    (k : Kernel C (Data α)) : Kernel C (Data α) :=
  { k with
    checksum :=
      Function.update k.checksum vid (k.checksum vid + calcChecksum k.data.m_div k.run_size) }

/-- The method `DEL_DOT_VEC_2D::tearDown`. -/
def tearDown (_vid : VariantID) (k : Kernel C (Data α)) : Kernel C (Data α) :=
  { Kernel.logs
      [Event.deallocData "m_x", Event.deallocData "m_y", Event.deallocData "m_xdot",
       Event.deallocData "m_ydot", Event.deallocData "m_div"] k with
    data := { k.data with m_x := [], m_y := [], m_xdot := [], m_ydot := [], m_div := [] } }

end DEL_DOT_VEC_2D

/-! ## TRAP_INT -/

namespace TRAP_INT

variable {α C : Type}

/-- Private members of class `TRAP_INT`. -/
structure Data (α : Type) where
  m_x0 : α
  m_xp : α
  m_y : α
  m_yp : α
  m_h : α
  m_sumx_init : α
  m_sumx : α
  deriving DecidableEq, Repr

/-- The function `trap_int_func`; `sqrt` is the square root of the C library. -/
def trap_int_func [Field α] (sqrt : α → α) (x y xp yp : α) : α :=
  let denom := (x - xp) * (x - xp) + (y - yp) * (y - yp)
  let denom := 1 / sqrt denom
  denom

/-- The macro `TRAP_INT_BODY` at index `i`. -/
def TRAP_INT_BODY [Field α] (sqrt : α → α) (x0 xp y yp h : α) (i : Int) (sumx : α) : α :=
  let x := x0 + (i : α) * h
  sumx + trap_int_func sqrt x y xp yp

/-- One iteration of the `Base_Seq` repetition loop. -/
def sweep [Field α] (sqrt : α → α) (iend : Int) (d : Data α) : Data α :=
  let sumx := forLoop 0 iend (TRAP_INT_BODY sqrt d.m_x0 d.m_xp d.m_y d.m_yp d.m_h) d.m_sumx_init
  { d with m_sumx := d.m_sumx + sumx * d.m_h }

/-- The method `TRAP_INT::setUp`; `initData s vid` is the value the buffer utility
gives the scalar `s`, and `half` is the value of the literal `0.5`. -/
def setUp [Field α] (sqrt : α → α) (initData : String → VariantID → α) (half : α)
    (vid : VariantID) (k : Kernel C (Data α)) : Kernel C (Data α) :=
  let xn := initData "xn" vid
  let x0 := initData "m_x0" vid
  let xp := initData "m_xp" vid
  let y := initData "m_y" vid
  let yp := initData "m_yp" vid
  { k with
    data :=
      { m_x0 := x0
        m_xp := xp
        m_y := y
        m_yp := yp
        m_h := xn - x0
        m_sumx_init := half * (trap_int_func sqrt x0 y xp yp + trap_int_func sqrt xn y xp yp)
        m_sumx := 0 } }

/-- The method `TRAP_INT::runKernel`. -/
def runKernel [Field α] (sqrt : α → α) (cfg : BuildConfig) (rt : Runtime (Data α))
    (vid : VariantID) (k : Kernel C (Data α)) : Kernel C (Data α) :=
  let run_reps : Int := k.run_reps
  let iend : Int := k.run_size
  dispatch cfg rt "\n  TRAP_INT : Unknown variant id = " run_reps (sweep sqrt iend)
    (["sumx"], ["sumx"]) ([], []) vid k

/-- The method `TRAP_INT::updateChecksum`; `c` is the value of the literal `0.00123`. -/
def updateChecksum [Field α] (c : α) (vid : VariantID)
    (k : Kernel α (Data α)) : Kernel α (Data α) :=
  { k with
    checksum :=
      Function.update k.checksum vid
        (k.checksum vid + (k.data.m_sumx + c) / (k.data.m_sumx - c)) }

/-- The method `TRAP_INT::tearDown`. -/
def tearDown (_vid : VariantID) (k : Kernel C (Data α)) : Kernel C (Data α) := k

end TRAP_INT

/-! ## POLYBENCH_2MM -/

/-- The call `memcpy(dst, src, n * sizeof(Real_type))`. -/
def memcpy {α : Type} (dst src : List α) (n : Int) : List α :=
  src.take n.toNat ++ dst.drop n.toNat

namespace POLYBENCH_2MM

variable {α C : Type}

/-- Private members of class `POLYBENCH_2MM`. -/
structure Data (α : Type) where
  m_ni : Int
  m_nj : Int
  m_nk : Int
  m_nl : Int
  m_run_reps : Int
  m_alpha : α
  m_beta : α
  m_tmp : List α
  m_A : List α
  m_B : List α
  m_C : List α
  m_D : List α
  m_DD : List α
  deriving DecidableEq, Repr

/-- The macro `POLYBENCH_2MM_BODY1`. -/
def POLYBENCH_2MM_BODY1 [Zero α] (nj i j : Int) (tmp : List α) : List α :=
  store tmp (i * nj + j) 0

/-- The macro `POLYBENCH_2MM_BODY2`. -/
def POLYBENCH_2MM_BODY2 [Zero α] [Add α] [Mul α] (alpha : α) (A B : List α)
    (nj nk i j k : Int) (tmp : List α) : List α :=
  store tmp (i * nj + j)
    (load tmp (i * nj + j) + alpha * load A (i * nk + k) * load B (k * nj + j))

/-- The macro `POLYBENCH_2MM_BODY3`. -/
def POLYBENCH_2MM_BODY3 [Zero α] [Mul α] (beta : α) (nl i l : Int) (D : List α) : List α :=
  store D (i * nl + l) (load D (i * nl + l) * beta)

/-- The macro `POLYBENCH_2MM_BODY4`. -/
def POLYBENCH_2MM_BODY4 [Zero α] [Add α] [Mul α] (tmp C : List α)
    (nj nl i l j : Int) (D : List α) : List α :=
  store D (i * nl + l)
    (load D (i * nl + l) + load tmp (i * nj + j) * load C (j * nl + l))

/-- The first loop nest of the `Base_Seq` block (loops over `i`, `j`, `k`). -/
def loopNest1 [Zero α] [Add α] [Mul α] (alpha : α) (A B : List α) (ni nj nk : Int)
    (tmp : List α) : List α :=
  forLoop 0 ni
    (fun i tmp =>
      forLoop 0 nj
        (fun j tmp =>
          forLoop 0 nk (fun k tmp => POLYBENCH_2MM_BODY2 alpha A B nj nk i j k tmp)
            (POLYBENCH_2MM_BODY1 nj i j tmp))
        tmp)
    tmp

/-- The second loop nest of the `Base_Seq` block (loops over `i`, `l`, `j`). -/
def loopNest2 [Zero α] [Add α] [Mul α] (beta : α) (tmp C : List α) (ni nj nl : Int)
    (D : List α) : List α :=
  forLoop 0 ni
    (fun i D =>
      forLoop 0 nl
        (fun l D =>
          forLoop 0 nj (fun j D => POLYBENCH_2MM_BODY4 tmp C nj nl i l j D)
            (POLYBENCH_2MM_BODY3 beta nl i l D))
        D)
    D

/-- One iteration of the `Base_Seq` repetition loop: the first nest, the `memcpy`
of `m_DD` into `m_D`, the second nest. -/
def sweep [Zero α] [Add α] [Mul α] (d : Data α) : Data α :=
  let ni := d.m_ni
  let nj := d.m_nj
  let nk := d.m_nk
  let nl := d.m_nl
  let tmp := loopNest1 d.m_alpha d.m_A d.m_B ni nj nk d.m_tmp
  let D0 := memcpy d.m_D d.m_DD (d.m_ni * d.m_nl)
  let D := loopNest2 d.m_beta tmp d.m_C ni nj nl D0
  { d with m_tmp := tmp, m_D := D }

/-- The method `POLYBENCH_2MM::setUp`. -/
def setUp (_vid : VariantID) (k : Kernel C (Data α)) : Kernel C (Data α) := k

/-- The method `POLYBENCH_2MM::runKernel`. -/
def runKernel [Zero α] [Add α] [Mul α] (cfg : BuildConfig) (rt : Runtime (Data α))
    (vid : VariantID) (k : Kernel C (Data α)) : Kernel C (Data α) :=
  let run_reps : Int := k.run_reps
  let cudaSetup := ["tmp", "A", "B", "C", "D"]
  let cudaTeardown := ["tmp", "A", "B", "C", "D"]
  dispatch cfg rt "\n  POLYBENCH_2MM : Unknown variant id = " run_reps sweep
    (cudaSetup, cudaTeardown) (cudaSetup, cudaTeardown) vid k

/-- The method `POLYBENCH_2MM::updateChecksum`. -/
def updateChecksum [Add C] (calcChecksum : List α → Int → C) (vid : VariantID)
    (k : Kernel C (Data α)) : Kernel C (Data α) :=
  { k with
    checksum :=
      Function.update k.checksum vid
        (k.checksum vid + calcChecksum k.data.m_D (k.data.m_ni * k.data.m_nl)) }

/-- The method `POLYBENCH_2MM::tearDown`. -/
def tearDown (_vid : VariantID) (k : Kernel C (Data α)) : Kernel C (Data α) := k

end POLYBENCH_2MM

/-! ## POLYBENCH_2MM: the one-dimensional sweeps -/

namespace POLYBENCH_2MM

variable {α : Type}

/-- The body of `polybench_2mm_cuda_1` for the thread of index `ii`, which is also
the body of the first `forall` of the `RAJA_CUDA` and `RAJA_OpenMPTarget` blocks:
`*(tmp + ii) = 0.0; i = ii/nj; j = ii % nj; for (k ...) POLYBENCH_2MM_BODY2`. -/
def flatBody1 [Zero α] [Add α] [Mul α] (alpha : α) (A B : List α) (nj nk ii : Int)
    (tmp : List α) : List α :=
  let tmp := store tmp ii 0
  let i := Int.tdiv ii nj
  let j := Int.tmod ii nj
  forLoop 0 nk (fun k tmp => POLYBENCH_2MM_BODY2 alpha A B nj nk i j k tmp) tmp

/-- The body of `polybench_2mm_cuda_2` for the thread of index `ii`, which is also
the body of the second `forall` of the `RAJA_CUDA` and `RAJA_OpenMPTarget` blocks:
`*(D + ii) *= beta; i = ii/nl; l = ii % nl; for (j ...) POLYBENCH_2MM_BODY4`. -/
def flatBody2 [Zero α] [Add α] [Mul α] (beta : α) (tmp C : List α) (nj nl ii : Int)
    (D : List α) : List α :=
  let D := store D ii (load D ii * beta)
  let i := Int.tdiv ii nl
  let l := Int.tmod ii nl
  forLoop 0 nj (fun j D => POLYBENCH_2MM_BODY4 tmp C nj nl i l j D) D

/-- The first one-dimensional sweep: `ii` ranges over `[0, ni * nj)` (the guard
`ii < ni * nj` of the device function, the range segment of the `forall`).  The
indices are taken in increasing order. -/
def flatNest1 [Zero α] [Add α] [Mul α] (alpha : α) (A B : List α) (ni nj nk : Int)
    (tmp : List α) : List α :=
  forLoop 0 (ni * nj) (flatBody1 alpha A B nj nk) tmp

/-- The second one-dimensional sweep: `ii` ranges over `[0, ni * nl)`, in increasing
order. -/
def flatNest2 [Zero α] [Add α] [Mul α] (beta : α) (tmp C : List α) (ni nj nl : Int)
    (D : List α) : List α :=
  forLoop 0 (ni * nl) (flatBody2 beta tmp C nj nl) D

/-- One iteration of the repetition loop of the `Base_CUDA` and `RAJA_CUDA` blocks,
on the buffers the sweeps work on: the first sweep, the `memcpy` of `m_DD` into
`m_D` (which `initCudaDeviceData` then copies to the device `D`), the second
sweep. -/
def sweepFlat [Zero α] [Add α] [Mul α] (d : Data α) : Data α :=
  let tmp := flatNest1 d.m_alpha d.m_A d.m_B d.m_ni d.m_nj d.m_nk d.m_tmp
  let D0 := memcpy d.m_D d.m_DD (d.m_ni * d.m_nl)
  let D := flatNest2 d.m_beta tmp d.m_C d.m_ni d.m_nj d.m_nl D0
  { d with m_tmp := tmp, m_D := D }

end POLYBENCH_2MM

/-! ## Derived runs -/

/-- The members of a `REDUCE3_INT` object after `setUp` followed by `N` iterations of
the `Base_Seq` repetition loop. -/
def REDUCE3_INT.afterReps (allocAndInitData : Int → VariantID → List Int) (vid : VariantID)
    (k : Kernel Int REDUCE3_INT.Data) (N : Nat) : REDUCE3_INT.Data :=
  let k0 := REDUCE3_INT.setUp allocAndInitData vid k
  (timedReps (N : Int) (REDUCE3_INT.sweep k0.run_size) k0).data

/-- The four phases a driver runs for one variant of `REDUCE3_INT`:
`setUp(vid); runKernel(vid); updateChecksum(vid); tearDown(vid)`. -/
def REDUCE3_INT.fourPhases (allocAndInitData : Int → VariantID → List Int)
    (cfg : BuildConfig) (rt : Runtime REDUCE3_INT.Data) (vid : VariantID)
    (k : Kernel Int REDUCE3_INT.Data) : Kernel Int REDUCE3_INT.Data :=
  REDUCE3_INT.tearDown vid
    (REDUCE3_INT.updateChecksum vid
      (REDUCE3_INT.runKernel cfg rt vid (REDUCE3_INT.setUp allocAndInitData vid k)))

/-- The object `k2` is `k` with `x` added into the checksum entry of `v` and nothing
else changed: the entries of the other variants, the members, the record of
calls and the run parameters are those of `k`. -/
def AddsToChecksum {C D : Type} [Add C] (v : VariantID) (x : C) (k k2 : Kernel C D) : Prop :=
  k2.checksum v = k.checksum v + x ∧
  (∀ w, w ≠ v → k2.checksum w = k.checksum w) ∧
  k2.data = k.data ∧ k2.trace = k.trace ∧
  k2.run_size = k.run_size ∧ k2.run_reps = k.run_reps

/-! ## REDUCE3_INT: wrapping arithmetic -/

/-- The `Int_type` value that stands for the integer `x` when `Int_type` arithmetic
wraps: the value congruent to `x` modulo `2^32` that lies between
`Int_type_min` and `Int_type_max`. -/
def wrapInt (x : Int) : Int := (x - Int_type_min) % 4294967296 + Int_type_min

/-- The macro `REDUCE3_INT_BODY` at index `i` when the addition wraps. -/
def REDUCE3_INT.REDUCE3_INT_BODY_wrap (vec : List Int) (i : Int) (r : REDUCE3_INT.Acc) :
    REDUCE3_INT.Acc :=
  { vsum := wrapInt (r.vsum + load vec i)
    vmin := RAJA_MIN r.vmin (load vec i)
    vmax := RAJA_MAX r.vmax (load vec i) }

/-- The inner loop of one `Base_Seq` repetition when the addition wraps. -/
def REDUCE3_INT.reduceWrap (iend : Int) (d : REDUCE3_INT.Data) : REDUCE3_INT.Acc :=
  forLoop 0 iend (REDUCE3_INT.REDUCE3_INT_BODY_wrap d.m_vec)
    { vsum := d.m_vsum_init, vmin := d.m_vmin_init, vmax := d.m_vmax_init }

/-! ## Buffer bookkeeping and device staging -/

/-- The number of device buffers held according to a record of calls: each
`allocAndInitCudaDeviceData` counts `+1`, each `deallocCudaDeviceData` counts `-1`. -/
def deviceBuffersHeld : List Event → Int
  | [] => 0
  | Event.allocAndInitCudaDeviceData _ :: es => deviceBuffersHeld es + 1
  | Event.deallocCudaDeviceData _ :: es => deviceBuffersHeld es - 1
  | _ :: es => deviceBuffersHeld es

/-- The device buffers a record of calls leaves unreleased, by name, in the order of
their acquisition. -/
def deviceBuffersLeft (t : List Event) : List String :=
  t.foldl
    (fun held e =>
      match e with
      | Event.allocAndInitCudaDeviceData b => held ++ [b]
      | Event.deallocCudaDeviceData b => held.erase b
      | _ => held)
    []

/-- The number of host buffers held according to a record of calls: each
`allocAndInitData` counts `+1`, each `deallocData` counts `-1`. -/
def hostBuffersHeld : List Event → Int
  | [] => 0
  | Event.allocAndInitData _ :: es => hostBuffersHeld es + 1
  | Event.deallocData _ :: es => hostBuffersHeld es - 1
  | _ :: es => hostBuffersHeld es

/-- Modelled from the spec: `allocAndInitCudaDeviceData(dptr, hptr, len)` of
common/DataUtils reserves a device buffer of `len` elements and stages into it a
copy of the first `len` elements of the host buffer. -/
def allocAndInitCudaDeviceData {α : Type} (hptr : List α) (len : Int) : List α :=
  hptr.take len.toNat

/-- Modelled from the spec: `getCudaDeviceData(hptr, dptr, len)` of common/DataUtils
copies the first `len` elements of the device buffer back into the host buffer. -/
def getCudaDeviceData {α : Type} (hptr dptr : List α) (len : Int) : List α :=
  dptr.take len.toNat ++ hptr.drop len.toNat

namespace DEL_DOT_VEC_2D

variable {α C : Type}

/-- The device buffers the macro `DEL_DOT_VEC_2D_DATA_SETUP_CUDA` declares. -/
structure Device (α : Type) where
  x : List α
  y : List α
  xdot : List α
  ydot : List α
  div : List α
  real_zones : List Int
  deriving DecidableEq, Repr

/-- The macro `DEL_DOT_VEC_2D_DATA_SETUP_CUDA`: six calls of
`allocAndInitCudaDeviceData`. -/
def DEL_DOT_VEC_2D_DATA_SETUP_CUDA (d : Data α) : Device α :=
  { x := allocAndInitCudaDeviceData d.m_x d.m_domain.nnalls
    y := allocAndInitCudaDeviceData d.m_y d.m_domain.nnalls
    xdot := allocAndInitCudaDeviceData d.m_xdot d.m_domain.nnalls
    ydot := allocAndInitCudaDeviceData d.m_ydot d.m_domain.nnalls
    div := allocAndInitCudaDeviceData d.m_div d.m_domain.nnalls
    real_zones := allocAndInitCudaDeviceData d.m_domain.real_zones d.m_domain.n_real_zones }

/-- One launch of the device function `deldotvec2d` (and one `forall` of the
`RAJA_CUDA` block): the thread of index `ii < iend` executes
`DEL_DOT_VEC_2D_BODY` on the device buffers; the threads are taken in increasing
`ii`. -/
def deldotvec2d [Field α] (v : Views) (ptiny half : α) (iend : Int) (dev : Device α) :
    Device α :=
  { dev with
    div :=
      forLoop 0 iend
        (DEL_DOT_VEC_2D_BODY v dev.x dev.y dev.xdot dev.ydot dev.real_zones ptiny half)
        dev.div }

/-- The copy-back of the macro `DEL_DOT_VEC_2D_DATA_TEARDOWN_CUDA`:
`getCudaDeviceData(m_div, div, iend)`. -/
def DEL_DOT_VEC_2D_DATA_TEARDOWN_CUDA (iend : Int) (d : Data α) (dev : Device α) : Data α :=
  { d with m_div := getCudaDeviceData d.m_div dev.div iend }

/-- The `Base_CUDA` block of `DEL_DOT_VEC_2D::runKernel` with host and device buffers
kept apart (the `RAJA_CUDA` block uses the same set-up and tear-down macros and
the same body).  The result pairs the host members after the block with the
device buffers as they were when the block released them. -/
def runBaseCuda [Field α] (NDSET2D : Int → Views) (k : Kernel C (Data α)) :
    Kernel C (Data α × Device α) :=
  let run_reps : Int := k.run_reps
  let iend : Int := k.data.m_domain.n_real_zones
  let k1 : Kernel C (Data α × Device α) :=
    { run_size := k.run_size
      run_reps := k.run_reps
      checksum := k.checksum
      trace := k.trace ++
        ["x", "y", "xdot", "ydot", "div", "real_zones"].map Event.allocAndInitCudaDeviceData
      data := (k.data, DEL_DOT_VEC_2D_DATA_SETUP_CUDA k.data) }
  let k2 :=
    timedReps run_reps
      (fun s => (s.1, deldotvec2d (NDSET2D k.data.m_domain.jp) k.data.m_ptiny k.data.m_half
        iend s.2))
      k1
  { Kernel.logs (["x", "y", "xdot", "ydot", "div"].map Event.deallocCudaDeviceData) k2 with
    data := (DEL_DOT_VEC_2D_DATA_TEARDOWN_CUDA iend k2.data.1 k2.data.2, k2.data.2) }

end DEL_DOT_VEC_2D

namespace POLYBENCH_2MM

variable {α C : Type}

/-- Modelled from the spec: the size classes `KernelBase::getSizeSpec()` returns, as
the constructor names them; `Specundefined` stands for any other value. -/
inductive SizeSpec_T where
  | Mini
  | Small
  | Medium
  | Large
  | Extralarge
  | Specundefined
  deriving DecidableEq, Repr

/-- The extents `(ni, nj, nk, nl)` and `m_run_reps` the constructor chooses. -/
def sizes : SizeSpec_T → Int × Int × Int × Int × Int
  | SizeSpec_T.Mini => (16, 18, 22, 24, 10000)
  | SizeSpec_T.Small => (40, 50, 70, 80, 1000)
  | SizeSpec_T.Medium => (180, 190, 210, 220, 100)
  | SizeSpec_T.Large => (800, 900, 1100, 1200, 1)
  | SizeSpec_T.Extralarge => (1600, 1800, 2200, 2400, 1)
  | SizeSpec_T.Specundefined => (180, 190, 210, 220, 100)

/-- The constructor `POLYBENCH_2MM::POLYBENCH_2MM`.  `alpha` and `beta` are the values
of the literals `1.5` and `1.2`; `allocAndInitData s len` is the content the
buffer utility gives the buffer `s` of `len` elements.  The calls
`setDefaultSize` and `setDefaultReps` go to `KernelBase`, which derives the run
size and the repetition count that the object `k` carries. -/
def construct (lsizespec : SizeSpec_T) (alpha beta : α)
    (allocAndInitData : String → Int → List α) (k : Kernel C Unit) : Kernel C (Data α) :=
  let ni := (sizes lsizespec).1
  let nj := (sizes lsizespec).2.1
  let nk := (sizes lsizespec).2.2.1
  let nl := (sizes lsizespec).2.2.2.1
  { run_size := k.run_size
    run_reps := k.run_reps
    checksum := k.checksum
    trace := k.trace ++
      ["m_tmp", "m_A", "m_B", "m_C", "m_D", "m_DD"].map Event.allocAndInitData
    data :=
      { m_ni := ni, m_nj := nj, m_nk := nk, m_nl := nl
        m_run_reps := (sizes lsizespec).2.2.2.2
        m_alpha := alpha, m_beta := beta
        m_tmp := allocAndInitData "m_tmp" (ni * nj)
        m_A := allocAndInitData "m_A" (ni * nk)
        m_B := allocAndInitData "m_B" (nk * nj)
        m_C := allocAndInitData "m_C" (nj * nl)
        m_D := allocAndInitData "m_D" (ni * nl)
        m_DD := allocAndInitData "m_DD" (ni * nl) } }

/-- The destructor `POLYBENCH_2MM::~POLYBENCH_2MM`. -/
def destruct (k : Kernel C (Data α)) : Kernel C (Data α) :=
  { Kernel.logs
      (["m_tmp", "m_A", "m_B", "m_C", "m_D", "m_DD"].map Event.deallocData) k with
    data :=
      { k.data with m_tmp := [], m_A := [], m_B := [], m_C := [], m_D := [], m_DD := [] } }

end POLYBENCH_2MM

/-- The coefficient table as the reference states it: `3` at the subscripts 0, 5, 10
and 15, `-1` at every other subscript. -/
def FIR.coeffRef {α : Type} [Ring α] (j : Nat) : α :=
  if j = 0 ∨ j = 5 ∨ j = 10 ∨ j = 15 then 3 else -1

/-- The reference value of `out[i]`: the products `coeff[j]*in[i+j]` for
`j = 0, ..., 15` added up in increasing `j`, starting from zero. -/
def FIR.outRef {α : Type} [Ring α] (in_ : List α) (i : Int) : α :=
  (List.range 16).foldl (fun sum j => sum + FIR.coeffRef j * load in_ (i + (j : Int))) 0

/-- The reference value of `p_new[i]` from the values of `bvc[i]`, `e_old[i]` and
`vnewc[i]`: with `v = bvc[i]*e_old[i]` and `z = 0` if `|v| < p_cut` or
`vnewc[i] >= eosvmax`, else `z = v`, it is `pmin` if `z < pmin`, else `z`. -/
def PRESSURE.pRef {α : Type} [LinearOrderedField α] (bvc_i e_old_i vnewc_i p_cut eosvmax pmin : α) :
    α :=
  let v := bvc_i * e_old_i
  let z := if abs v < p_cut ∨ vnewc_i ≥ eosvmax then 0 else v
  if z < pmin then pmin else z

/-- The sum `f(x0) + f(x0 + h) + ... + f(x0 + (n-1)*h)` of the integrand of `d` that
the inner loop of one repetition adds to its accumulator. -/
def TRAP_INT.bodySum {α : Type} [Field α] (sqrt : α → α) (n : Nat) (d : TRAP_INT.Data α) : α :=
  (Finset.range n).sum fun i : Nat =>
    TRAP_INT.trap_int_func sqrt (d.m_x0 + ((i : Int) : α) * d.m_h) d.m_y d.m_xp d.m_yp

/-- The composite trapezoid rule for `f` over `[x0, xn]` with `n` equal subintervals
of width `w = (xn - x0)/n`:
`w*(f(x0)/2 + f(x0 + w) + ... + f(x0 + (n-1)*w) + f(xn)/2)`. -/
def TRAP_INT.trapezoidRule {α : Type} [Field α] (f : α → α) (x0 xn : α) (n : Nat) : α :=
  let w := (xn - x0) / (n : α)
  w * (f x0 / 2 + ((Finset.Ico 1 n).sum fun i : Nat => f (x0 + (i : α) * w)) + f xn / 2)

/-! ## DEL_DOT_VEC_2D: the parts of the body -/

/-- The quotient `a / b` of two `Real_type` values with the divisor tested: it
fails when the divisor is zero. -/
def divChecked {α : Type} [Field α] [DecidableEq α] (a b : α) : Option α :=
  if b = 0 then none else some (a / b)

namespace DEL_DOT_VEC_2D

variable {α : Type}

/-- The term `xi * yj - xj * yi` of the statement that defines `rarea` in
`DEL_DOT_VEC_2D_BODY`, from the corner values `x1[i], ..., y4[i]`. -/
def jacobian [CommRing α] (half x1 x2 x3 x4 y1 y2 y3 y4 : α) : α :=
  let xi := half * (x1 + x2 - x3 - x4)
  let xj := half * (x2 + x3 - x4 - x1)
  let yi := half * (y1 + y2 - y3 - y4)
  let yj := half * (y2 + y3 - y4 - y1)
  xi * yj - xj * yi

/-- The divisor `xi * yj - xj * yi + ptiny` of `rarea` for zone `i`. -/
def areaDivisor [Field α] (v : Views) (x y : List α) (ptiny half : α) (i : Int) : α :=
  jacobian half (load x (v.o1 + i)) (load x (v.o2 + i)) (load x (v.o3 + i)) (load x (v.o4 + i))
    (load y (v.o1 + i)) (load y (v.o2 + i)) (load y (v.o3 + i)) (load y (v.o4 + i)) + ptiny

/-- The divisor `y1[i] + y2[i] + y3[i] + y4[i]` of `affine` for zone `i`. -/
def affineDivisor [Field α] (v : Views) (y : List α) (i : Int) : α :=
  load y (v.o1 + i) + load y (v.o2 + i) + load y (v.o3 + i) + load y (v.o4 + i)

/-- The value `DEL_DOT_VEC_2D_BODY` assigns to `div[i]` with both divisions guarded:
the statements of `divValue` in program order, each `/` replaced by `divChecked`. -/
def divValueChecked [Field α] [DecidableEq α] (v : Views) (x y xdot ydot : List α)
    (ptiny half : α) (i : Int) : Option α :=
  let x1 := load x (v.o1 + i)
  let x2 := load x (v.o2 + i)
  let x3 := load x (v.o3 + i)
  let x4 := load x (v.o4 + i)
  let y1 := load y (v.o1 + i)
  let y2 := load y (v.o2 + i)
  let y3 := load y (v.o3 + i)
  let y4 := load y (v.o4 + i)
  let fx1 := load xdot (v.o1 + i)
  let fx2 := load xdot (v.o2 + i)
  let fx3 := load xdot (v.o3 + i)
  let fx4 := load xdot (v.o4 + i)
  let fy1 := load ydot (v.o1 + i)
  let fy2 := load ydot (v.o2 + i)
  let fy3 := load ydot (v.o3 + i)
  let fy4 := load ydot (v.o4 + i)
  let xi := half * (x1 + x2 - x3 - x4)
  let xj := half * (x2 + x3 - x4 - x1)
  let yi := half * (y1 + y2 - y3 - y4)
  let yj := half * (y2 + y3 - y4 - y1)
  let fxi := half * (fx1 + fx2 - fx3 - fx4)
  let fxj := half * (fx2 + fx3 - fx4 - fx1)
  let fyi := half * (fy1 + fy2 - fy3 - fy4)
  let fyj := half * (fy2 + fy3 - fy4 - fy1)
  (divChecked 1 (xi * yj - xj * yi + ptiny)).bind fun rarea =>
  let dfxdx := rarea * (fxi * yj - fxj * yi)
  let dfydy := rarea * (fyj * xi - fyi * xj)
  (divChecked (fy1 + fy2 + fy3 + fy4) (y1 + y2 + y3 + y4)).bind fun affine =>
  some (dfxdx + dfydy + affine)

/-- The macro `DEL_DOT_VEC_2D_BODY` at loop index `ii` with both divisions guarded. -/
def DEL_DOT_VEC_2D_BODY_checked [Field α] [DecidableEq α] (v : Views) (x y xdot ydot : List α)
    (real_zones : List Int) (ptiny half : α) (ii : Int) (div : List α) : Option (List α) :=
  let i := load real_zones ii
  (divValueChecked v x y xdot ydot ptiny half i).map fun value => store div i value

/-- The value of `div[i]` as the reference implementation in the header comment of
`DEL_DOT_VEC_2D.cpp` states it, from the sixteen corner values of zone `i`. -/
def divRef [Field α] (half ptiny x1 x2 x3 x4 y1 y2 y3 y4 fx1 fx2 fx3 fx4 fy1 fy2 fy3 fy4 : α) :
    α :=
  let xi := half * (x1 + x2 - x3 - x4)
  let xj := half * (x2 + x3 - x4 - x1)
  let yi := half * (y1 + y2 - y3 - y4)
  let yj := half * (y2 + y3 - y4 - y1)
  let fxi := half * (fx1 + fx2 - fx3 - fx4)
  let fxj := half * (fx2 + fx3 - fx4 - fx1)
  let fyi := half * (fy1 + fy2 - fy3 - fy4)
  let fyj := half * (fy2 + fy3 - fy4 - fy1)
  let rarea := 1 / (xi * yj - xj * yi + ptiny)
  let affine := (fy1 + fy2 + fy3 + fy4) / (y1 + y2 + y3 + y4)
  rarea * (fxi * yj - fxj * yi) + rarea * (fyj * xi - fyi * xj) + affine

end DEL_DOT_VEC_2D

/-- The number of `std::cout` diagnostics in a record. -/
def coutCalls (t : List Event) : Nat :=
  (t.filter fun e => match e with
    | Event.cout _ _ => true
    | _ => false).length

/-- Two `POLYBENCH_2MM` states agree on the inputs of a repetition: the extents, the
scalars and the buffers `m_A`, `m_B`, `m_C`, `m_DD`; `m_tmp` and `m_D` are free. -/
def POLYBENCH_2MM.sameInputs {α : Type} (d1 d2 : POLYBENCH_2MM.Data α) : Prop :=
  d2.m_ni = d1.m_ni ∧ d2.m_nj = d1.m_nj ∧ d2.m_nk = d1.m_nk ∧ d2.m_nl = d1.m_nl ∧
  d2.m_alpha = d1.m_alpha ∧ d2.m_beta = d1.m_beta ∧
  d2.m_A = d1.m_A ∧ d2.m_B = d1.m_B ∧ d2.m_C = d1.m_C ∧ d2.m_DD = d1.m_DD

/-- The statements of `PRESSURE_BODY2` with the two zeroing checks exchanged: the
`eosvmax` check first, the `p_cut` check second, then the `pmin` clamp. -/
def PRESSURE.PRESSURE_BODY2_swapped {α : Type} [LinearOrderedField α] (bvc e_old vnewc : List α)
    (p_cut eosvmax pmin : α) (i : Int) (p_new : List α) : List α :=
  let p1 := store p_new i (load bvc i * load e_old i)
  let p2 := if load vnewc i ≥ eosvmax then store p1 i 0 else p1
  let p3 := if abs (load p2 i) < p_cut then store p2 i 0 else p2
  if load p3 i < pmin then store p3 i pmin else p3

/-- The statements of `PRESSURE_BODY2` with the `pmin` clamp moved before the two
zeroing checks. -/
def PRESSURE.PRESSURE_BODY2_clampFirst {α : Type} [LinearOrderedField α]
    (bvc e_old vnewc : List α) (p_cut eosvmax pmin : α) (i : Int) (p_new : List α) : List α :=
  let p1 := store p_new i (load bvc i * load e_old i)
  let p2 := if load p1 i < pmin then store p1 i pmin else p1
  let p3 := if abs (load p2 i) < p_cut then store p2 i 0 else p2
  if load vnewc i ≥ eosvmax then store p3 i 0 else p3

/-! ## REDUCE3_INT: the device function -/

/-- A loop `for ( ; cond(i); i = step(i)) body` run for at most `fuel` iterations: the
state it ends with, or nothing if the condition still holds when the budget is
used up. -/
def whileLoop {σ : Type} (cond : Int → Bool) (step : Int → Int) (body : Int → σ → σ) :
    Nat → Int → σ → Option σ
  | 0, i, s => if cond i then none else some s
  | fuel + 1, i, s => if cond i then whileLoop cond step body fuel (step i) (body i s) else some s

/-- Modelled from the spec: the macro `RAJA_DIVIDE_CEILING_INT(dividend, divisor)` of RAJA
(RAJA/util/defines.hpp, not under `src/`): the quotient rounded up, computed as
`(dividend + divisor - 1) / divisor`. -/
def RAJA_DIVIDE_CEILING_INT (dividend divisor : Int) : Int :=
  Int.tdiv (dividend + divisor - 1) divisor

namespace REDUCE3_INT

/-- The constant `block_size`. -/
def block_size : Int := 256

/-- The shared arrays `psum`, `pmin`, `pmax` of one thread block. -/
structure Shared where
  psum : List Int
  pmin : List Int
  pmax : List Int
  deriving DecidableEq, Repr

/-- The statements of `reduce3int` before the first `__syncthreads()`, for the thread
`threadIdx` of block `blockIdx`: it initialises its three slots and runs the
loop `for ( ; i < iend ; i += gridDim.x * blockDim.x )`.  The addition
`psum[threadIdx.x] += vec[i]` is `Int_type` addition, which wraps modulo `2^32`. -/
def accumulatePartials (vec : List Int) (vsum_init vmin_init vmax_init : Int)
    (iend gridDim blockDim blockIdx threadIdx : Int) (fuel : Nat) (sh : Shared) :
    Option Shared :=
  let i := blockIdx * blockDim + threadIdx
  let sh : Shared :=
    Shared.mk (store sh.psum threadIdx vsum_init) (store sh.pmin threadIdx vmin_init)
      (store sh.pmax threadIdx vmax_init)
  whileLoop (fun i => decide (i < iend)) (fun i => i + gridDim * blockDim)
    (fun i sh =>
      Shared.mk (store sh.psum threadIdx (wrapInt (load sh.psum threadIdx + load vec i)))
        (store sh.pmin threadIdx (RAJA_MIN (load sh.pmin threadIdx) (load vec i)))
        (store sh.pmax threadIdx (RAJA_MAX (load sh.pmax threadIdx) (load vec i))))
    fuel i sh

/-- The indices `i` at which the loop of `accumulatePartials` executes its body, in
order, for the thread `threadIdx` of block `blockIdx`. -/
def threadIndices (iend gridDim blockDim blockIdx threadIdx : Int) (fuel : Nat) :
    Option (List Int) :=
  whileLoop (fun i => decide (i < iend)) (fun i => i + gridDim * blockDim)
    (fun i visited => visited ++ [i]) fuel (blockIdx * blockDim + threadIdx) []

/-- The body of the halving loop for the thread `threadIdx` at stride `i`:
`if ( threadIdx.x < i ) { ... }`, the addition `psum[threadIdx.x] += psum[threadIdx.x + i]`
wrapping modulo `2^32`. -/
def combinePartials (i threadIdx : Int) (sh : Shared) : Shared :=
  if threadIdx < i then
    Shared.mk
      (store sh.psum threadIdx (wrapInt (load sh.psum threadIdx + load sh.psum (threadIdx + i))))
      (store sh.pmin threadIdx (RAJA_MIN (load sh.pmin threadIdx) (load sh.pmin (threadIdx + i))))
      (store sh.pmax threadIdx (RAJA_MAX (load sh.pmax threadIdx) (load sh.pmax (threadIdx + i))))
  else sh

/-- The halving loop `for ( i = blockDim.x / 2; i > 0; i /= 2 )` of one block; between
two `__syncthreads()` the threads of the block are taken in increasing
`threadIdx`. -/
def halvingLoop (blockDim : Int) (fuel : Nat) (sh : Shared) : Option Shared :=
  whileLoop (fun i => decide (i > 0)) (fun i => Int.tdiv i 2)
    (fun i sh => forLoop 0 blockDim (combinePartials i) sh) fuel (Int.tdiv blockDim 2) sh

/-- The device function `reduce3int` as block `blockIdx` executes it, in rounds
separated by `__syncthreads()`: every thread accumulates its partials, the
halving loop combines them, and thread 0 adds the block's result to the device
cells `*vsum`, `*vmin`, `*vmax` with `atomicAdd`, `atomicMin`, `atomicMax`; the
`atomicAdd` on the `Int_type` cell wraps modulo `2^32`.  `sh` is the content of the
block's shared memory when the block starts. -/
def reduce3int (vec : List Int) (vsum_init vmin_init vmax_init : Int)
    (iend gridDim blockDim blockIdx : Int) (fuel : Nat) (sh : Shared) (cells : Acc) :
    Option Acc :=
  (forLoopChecked 0 blockDim
    (fun threadIdx sh =>
      accumulatePartials vec vsum_init vmin_init vmax_init iend gridDim blockDim blockIdx
        threadIdx fuel sh) sh).bind fun sh =>
  (halvingLoop blockDim fuel sh).bind fun sh =>
  some
    { vsum := wrapInt (cells.vsum + load sh.psum 0)
      vmin := min cells.vmin (load sh.pmin 0)
      vmax := max cells.vmax (load sh.pmax 0) }

/-- The device cells `vsum`, `vmin`, `vmax` as the `Base_CUDA` block allocates them:
copies of `m_vsum_init`, `m_vmin_init`, `m_vmax_init`. -/
def deviceCells (d : Data) : Acc :=
  { vsum := d.m_vsum_init, vmin := d.m_vmin_init, vmax := d.m_vmax_init }

/-- One iteration of the repetition loop of the `Base_CUDA` block up to the launch:
`initCudaDeviceData(vsum, &m_vsum_init, 1)` and
`reduce3int<<<grid_size, block_size, ...>>>`, the blocks taken in increasing
`blockIdx`. -/
def launch (iend : Int) (fuel : Nat) (sh : Shared) (d : Data) (cells : Acc) : Option Acc :=
  let vec := allocAndInitCudaDeviceData d.m_vec iend
  let cells : Acc := { cells with vsum := d.m_vsum_init }
  let grid_size := RAJA_DIVIDE_CEILING_INT iend block_size
  forLoopChecked 0 grid_size
    (fun blockIdx cells =>
      reduce3int vec d.m_vsum_init d.m_vmin_init d.m_vmax_init iend grid_size block_size
        blockIdx fuel sh cells)
    cells

end REDUCE3_INT

/-- The combination `op (... (op (f 0) (f 1)) ...) (f m)` of the values `f 0, ..., f m`. -/
def combineUpTo (op : Int → Int → Int) (f : Nat → Int) : Nat → Int
  | 0 => f 0
  | m + 1 => op (combineUpTo op f m) (f (m + 1))

/-- The share of one shared array in `combinePartials`, for the operation `op` of that
array. -/
def REDUCE3_INT.combineSlot (op : Int → Int → Int) (i threadIdx : Int) (p : List Int) :
    List Int :=
  if threadIdx < i then store p threadIdx (op (load p threadIdx) (load p (threadIdx + i)))
  else p

/-- The partial a thread holds for the element of index `i` after `accumulatePartials`,
for the operation `op` and the initial value `e` of one shared array: `op e vec[i]`
if `i < iend`, else `e`. -/
def REDUCE3_INT.partialOf (op : Int → Int → Int) (e : Int) (vec : List Int) (iend i : Int) :
    Int :=
  if i < iend then op e (load vec i) else e

/-! ## Concrete instances -/

/-- The build in which no optional variant is compiled. -/
def hostBuild : BuildConfig :=
  { RAJA_ENABLE_OPENMP := false, RAJA_ENABLE_TARGET_OPENMP := false,
    RAJA_ENABLE_CUDA := false, OPENMP := false }

/-- The build in which every optional variant is compiled. -/
def fullBuild : BuildConfig :=
  { RAJA_ENABLE_OPENMP := true, RAJA_ENABLE_TARGET_OPENMP := true,
    RAJA_ENABLE_CUDA := true, OPENMP := true }

/-- A runtime whose pieces leave the data as it is. -/
def idRuntime (D : Type) : Runtime D :=
  { stage := fun _ d => d, sweep := fun _ d => d, unstage := fun _ d => d }

/-- A kernel object with the given sizes and members, zero checksums and an empty record. -/
def freshKernel {C D : Type} [Zero C] (run_size run_reps : Int) (d : D) : Kernel C D :=
  { run_size := run_size, run_reps := run_reps, checksum := fun _ => 0, trace := [], data := d }

/-- A `REDUCE3_INT` object of run size 3 configured for 3 repetitions. -/
def exREDUCE3 : Kernel Int REDUCE3_INT.Data :=
  freshKernel 3 3
    { m_vec := [5, -2, 7], m_vsum := 0, m_vsum_init := 0, m_vmin := Int_type_max,
      m_vmin_init := Int_type_max, m_vmax := Int_type_min, m_vmax_init := Int_type_min }

/-- An `ADD` object of run size 3 configured for 2 samples. -/
def exADD : Kernel Int (ADD.Data Int) :=
  freshKernel 3 2 { m_a := [1, 2, 3], m_b := [10, 20, 30], m_c := [0, 0, 0] }

/-- A `FIR` object of run size 18 configured for 2 repetitions. -/
def exFIR : Kernel Int (FIR.Data Int) :=
  freshKernel 18 2
    { m_in := (List.range 18).map fun i => (i : Int) * i
      m_out := List.replicate 18 7
      m_coefflen := FIR.COEFFLEN }

/-- A malformed `FIR` object: run size 18 but an input buffer of 16 elements. -/
def exFIRshort : Kernel Int (FIR.Data Int) :=
  freshKernel 18 1
    { m_in := List.replicate 16 1, m_out := List.replicate 18 7, m_coefflen := FIR.COEFFLEN }

/-- A `PRESSURE` object of run size 2 configured for 2 repetitions. -/
def exPRESSURE : Kernel Rat (PRESSURE.Data Rat) :=
  freshKernel 2 2
    { m_compression := [1, 2], m_bvc := [0, 0], m_p_new := [0, 0], m_e_old := [3, -4],
      m_vnewc := [1, 1], m_cls := 2, m_p_cut := 1, m_pmin := 0, m_eosvmax := 5 }

/-- The views `v4 = v`, `v1 = v4 + 1`, `v2 = v1 + jp`, `v3 = v4 + jp`. -/
def exViews (jp : Int) : DEL_DOT_VEC_2D.Views :=
  { o1 := 1, o2 := 1 + jp, o3 := jp, o4 := 0 }

/-- A `DEL_DOT_VEC_2D` object with one real zone on a 2 x 2 node grid. -/
def exDELDOT : Kernel Rat (DEL_DOT_VEC_2D.Data Rat) :=
  freshKernel 1 2
    { m_x := [0, 1, 0, 1], m_y := [1, 1, 2, 2], m_xdot := [1, 2, 3, 4], m_ydot := [4, 3, 2, 1],
      m_div := [0, 0, 0, 0], m_ptiny := 0, m_half := 1 / 2,
      m_domain := { nnalls := 4, n_real_zones := 1, real_zones := [0], jp := 2 } }

/-- A `TRAP_INT` object of run size 2 configured for 2 repetitions. -/
def exTRAP : Kernel Rat (TRAP_INT.Data Rat) :=
  freshKernel 2 2
    { m_x0 := 0, m_xp := 1, m_y := 0, m_yp := 1, m_h := 1, m_sumx_init := 0, m_sumx := 0 }

/-- A `POLYBENCH_2MM` object with 2 x 2 matrices configured for 2 repetitions. -/
def ex2MM : Kernel Int (POLYBENCH_2MM.Data Int) :=
  freshKernel 28 2
    { m_ni := 2, m_nj := 2, m_nk := 2, m_nl := 2, m_run_reps := 2, m_alpha := 2, m_beta := 3,
      m_tmp := [9, 9, 9, 9], m_A := [1, 2, 3, 4], m_B := [1, 0, 0, 1], m_C := [1, 1, 0, 1],
      m_D := [5, 5, 5, 5], m_DD := [1, 2, 3, 4] }

/-- A `DEL_DOT_VEC_2D` object on a 3 x 3 node grid (`jp = 3`) whose one real zone is
the zone of index 4, with the values `setUp` gives `m_ptiny` and `m_half`. -/
def exDELDOTcuda : Kernel Rat (DEL_DOT_VEC_2D.Data Rat) :=
  freshKernel 1 2
    { m_x := [0, 1, 2, 0, 1, 2, 0, 1, 2], m_y := [1, 1, 1, 2, 2, 2, 3, 3, 3]
      m_xdot := [0, 1, 2, 0, 1, 2, 0, 1, 2], m_ydot := [1, 1, 1, 2, 2, 2, 3, 3, 3]
      m_div := [0, 0, 0, 0, 0, 0, 0, 0, 0]
      m_ptiny := 1 / 100000000000000000000, m_half := 1 / 2
      m_domain := { nnalls := 9, n_real_zones := 1, real_zones := [4], jp := 3 } }

/-- The scalars `initData` hands to `TRAP_INT::setUp` in the example: `xn = 2`,
`m_x0 = 1`, and `0` for `m_xp`, `m_y` and `m_yp`. -/
def exTRAPinit {α : Type} [Field α] (s : String) (_vid : VariantID) : α :=
  if s = "xn" then 2 else if s = "m_x0" then 1 else 0

/-- A `TRAP_INT` object of run size `n` configured for `N` repetitions, before `setUp`. -/
def exTRAPfresh {α : Type} [Field α] (n N : Int) : Kernel α (TRAP_INT.Data α) :=
  freshKernel n N
    { m_x0 := 0, m_xp := 0, m_y := 0, m_yp := 0, m_h := 0, m_sumx_init := 0, m_sumx := 0 }

/-- A `DEL_DOT_VEC_2D` object with one real zone, the square with corners
`(0, -1), (1, -1), (0, 1), (1, 1)`: its four `y` values sum to zero. -/
def exDELDOTcentred : Kernel Rat (DEL_DOT_VEC_2D.Data Rat) :=
  freshKernel 1 2
    { m_x := [0, 1, 0, 1], m_y := [-1, -1, 1, 1], m_xdot := [1, 2, 3, 4], m_ydot := [4, 3, 2, 1],
      m_div := [0, 0, 0, 0], m_ptiny := 1 / 100000000000000000000, m_half := 1 / 2,
      m_domain := { nnalls := 4, n_real_zones := 1, real_zones := [0], jp := 2 } }

/-- Shared memory of 256 slots per array holding arbitrary values. -/
def exShared : REDUCE3_INT.Shared :=
  { psum := List.replicate 256 9, pmin := List.replicate 256 (-9), pmax := List.replicate 256 9 }

/-- A `REDUCE3_INT` object of run size 600 (three thread blocks) with
`vec[i] = (i * 37) % 101 - 50`. -/
def exREDUCE600 : Kernel Int REDUCE3_INT.Data :=
  freshKernel 600 1
    { m_vec := (List.range 600).map fun i : Nat => ((i : Int) * 37) % 101 - 50
      m_vsum := 0, m_vsum_init := 0, m_vmin := Int_type_max,
      m_vmin_init := Int_type_max, m_vmax := Int_type_min, m_vmax_init := Int_type_min }

/-- The members of a `REDUCE3_INT` object of run size 2 whose vector `[2147483647, 1]`
has a sum above `Int_type_max`. -/
def exREDUCEwrap : REDUCE3_INT.Data :=
  { m_vec := [2147483647, 1], m_vsum := 0, m_vsum_init := 0, m_vmin := Int_type_max,
    m_vmin_init := Int_type_max, m_vmax := Int_type_min, m_vmax_init := Int_type_min }

/-! ## Properties of the harness -/

section HarnessLemmas

variable {C D σ α : Type}

theorem forLoopAux_succ_right (body : Int → σ → σ) (n : Nat) (i : Int) (s : σ) :
    forLoopAux body (n + 1) i s = body (i + n) (forLoopAux body n i s) := by
  induction n generalizing i s with
  | zero => simp [forLoopAux]
  | succ n ih =>
    rw [forLoopAux, ih (i + 1) (body i s)]
    have h : i + 1 + (n : Int) = i + ((n + 1 : Nat) : Int) := by push_cast; ring
    rw [h]
    rfl

theorem forLoop_unfold (ibegin iend : Int) (body : Int → σ → σ) (s : σ) :
    forLoop ibegin iend body s
      = if ibegin < iend then forLoop (ibegin + 1) iend body (body ibegin s) else s := by
  unfold forLoop
  split
  · next h =>
    obtain ⟨n, hn⟩ : ∃ n : Nat, (iend - ibegin).toNat = n + 1 :=
      ⟨(iend - ibegin).toNat - 1, by omega⟩
    have h2 : (iend - (ibegin + 1)).toNat = n := by omega
    rw [hn, h2, forLoopAux]
  · next h =>
    have h0 : (iend - ibegin).toNat = 0 := by omega
    rw [h0, forLoopAux]

theorem forLoop_zero_nat (n : Nat) (body : Int → σ → σ) (s : σ) :
    forLoop 0 (n : Int) body s = forLoopAux body n 0 s := by
  simp [forLoop]

theorem forLoop_zero_toNat (n : Int) (body : Int → σ → σ) (s : σ) :
    forLoop 0 n body s = forLoopAux body n.toNat 0 s := by
  simp [forLoop]

theorem forLoopAux_reps (sw : D → D) (n : Nat) (i : Int) (k : Kernel C D) :
    forLoopAux (fun irep s => { s.log (Event.sweep irep) with data := sw s.data }) n i k
      = { k with
          trace := k.trace ++ (List.range n).map (fun j : Nat => Event.sweep (i + (j : Int)))
          data := sw^[n] k.data } := by
  induction n with
  | zero => simp [forLoopAux]
  | succ n ih =>
    rw [forLoopAux_succ_right, ih]
    simp [Kernel.log, List.range_succ, Function.iterate_succ_apply']

theorem timedReps_eq (R : Int) (sw : D → D) (k : Kernel C D) :
    timedReps R sw k
      = { k with
          trace :=
            k.trace ++
              (Event.startTimer :: ((repIndices R).map Event.sweep ++ [Event.stopTimer]))
          data := sw^[R.toNat] k.data } := by
  rw [timedReps, forLoop_zero_toNat, forLoopAux_reps]
  simp [stopTimer, startTimer, Kernel.log, repIndices, List.map_map, Function.comp_def]

theorem sweepsOf_append (a b : List Event) : sweepsOf (a ++ b) = sweepsOf a ++ sweepsOf b := by
  induction a with
  | nil => rfl
  | cons e a ih => cases e <;> simp [sweepsOf, ih]

theorem sweepsOf_map_sweep (l : List Int) : sweepsOf (l.map Event.sweep) = l := by
  induction l with
  | nil => rfl
  | cons e a ih => simp [sweepsOf, ih]

theorem sweepsOf_map_alloc (l : List String) :
    sweepsOf (l.map Event.allocAndInitCudaDeviceData) = [] := by
  induction l with
  | nil => rfl
  | cons e a ih => simp [sweepsOf, ih]

theorem sweepsOf_map_dealloc (l : List String) :
    sweepsOf (l.map Event.deallocCudaDeviceData) = [] := by
  induction l with
  | nil => rfl
  | cons e a ih => simp [sweepsOf, ih]

theorem sweepsOf_timedReps (R : Int) (sw : D → D) (k : Kernel C D) :
    sweepsOf (timedReps R sw k).trace = sweepsOf k.trace ++ repIndices R := by
  rw [timedReps_eq]
  simp [sweepsOf_append, sweepsOf, sweepsOf_map_sweep]

theorem sweepsOf_stagedReps (rt : Runtime D) (vid : VariantID) (R : Int) (k : Kernel C D) :
    sweepsOf (stagedReps rt vid R k).trace = sweepsOf k.trace ++ repIndices R := by
  simp only [stagedReps]
  rw [sweepsOf_timedReps]

theorem dispatch_sweeps (cfg : BuildConfig) (rt : Runtime D) (msg : String) (R : Int)
    (baseSeq : D → D) (bc rc : List String × List String) (vid : VariantID) (k : Kernel C D)
    (h : caseLabel cfg vid = true) :
    sweepsOf (dispatch cfg rt msg R baseSeq bc rc vid k).trace
      = sweepsOf k.trace ++ repIndices R := by
  cases vid <;>
    simp_all [dispatch, caseLabel, sweepsOf_timedReps, sweepsOf_stagedReps, Kernel.logs,
      sweepsOf_append, sweepsOf_map_alloc, sweepsOf_map_dealloc]

theorem dispatch_Base_Seq (cfg : BuildConfig) (rt : Runtime D) (msg : String) (R : Int)
    (baseSeq : D → D) (bc rc : List String × List String) (k : Kernel C D) :
    dispatch cfg rt msg R baseSeq bc rc VariantID.Base_Seq k = timedReps R baseSeq k := rfl

theorem dispatch_default (cfg : BuildConfig) (rt : Runtime D) (msg : String) (R : Int)
    (baseSeq : D → D) (bc rc : List String × List String) (vid : VariantID) (k : Kernel C D)
    (h : caseLabel cfg vid = false) :
    dispatch cfg rt msg R baseSeq bc rc vid k = unknownVariant msg vid k := by
  cases vid <;> simp_all [dispatch, caseLabel]

theorem ADD_sweeps {α : Type} [Zero α] [Add α] (cfg : BuildConfig) (rt : Runtime (ADD.Data α))
    (vid : VariantID) (k : Kernel C (ADD.Data α)) (h : ADD.supported cfg vid = true) :
    sweepsOf (ADD.runKernel cfg rt vid k).trace = sweepsOf k.trace ++ repIndices k.run_reps := by
  cases vid <;>
    simp_all [ADD.runKernel, ADD.supported, ADD.caseLabel, sweepsOf_timedReps,
      sweepsOf_stagedReps, Kernel.logs, sweepsOf_append, sweepsOf, sweepsOf_map_alloc, sweepsOf_map_dealloc]

theorem ADD_default {α : Type} [Zero α] [Add α] (cfg : BuildConfig) (rt : Runtime (ADD.Data α))
    (vid : VariantID) (k : Kernel C (ADD.Data α)) (h : ADD.caseLabel cfg vid = false) :
    ADD.runKernel cfg rt vid k = unknownVariant "\n  Unknown variant id = " vid k := by
  cases vid <;> simp_all [ADD.runKernel, ADD.caseLabel]

end HarnessLemmas

/-! ## The repetition loop (C1) and the default block (C7) -/

/-- C1 (amended): for ADD, FIR, PRESSURE, DEL_DOT_VEC_2D, TRAP_INT and POLYBENCH_2MM,
`runKernel` on a supported variant records exactly the repetitions `0, ..., R - 1`
in order, where `R` is the configured run repetition count (none when `R ≤ 0`),
and on the baseline sequential variant the members are the `R`-fold iterate of the
body sweep; `REDUCE3_INT::runKernel` does the same with the constant `100` in
place of `R`, whatever the configured count is. -/
theorem C1_repetition_count (cfg : BuildConfig) :
    (∀ (α C : Type) [Zero α] [Add α] (rt : Runtime (ADD.Data α)) (vid : VariantID)
        (k : Kernel C (ADD.Data α)),
        ADD.supported cfg vid = true →
        sweepsOf (ADD.runKernel cfg rt vid k).trace
            = sweepsOf k.trace ++ repIndices k.run_reps ∧
          (ADD.runKernel cfg rt VariantID.Baseline_Seq k).data
            = (ADD.sweep k.run_size)^[k.run_reps.toNat] k.data) ∧
    (∀ (α C : Type) [Ring α] (rt : Runtime (FIR.Data α)) (vid : VariantID)
        (k : Kernel C (FIR.Data α)),
        caseLabel cfg vid = true →
        sweepsOf (FIR.runKernel cfg rt vid k).trace
            = sweepsOf k.trace ++ repIndices k.run_reps ∧
          (FIR.runKernel cfg rt VariantID.Base_Seq k).data
            = (FIR.sweep (k.run_size - k.data.m_coefflen))^[k.run_reps.toNat] k.data) ∧
    (∀ (α C : Type) [LinearOrderedField α] (rt : Runtime (PRESSURE.Data α)) (vid : VariantID)
        (k : Kernel C (PRESSURE.Data α)),
        caseLabel cfg vid = true →
        sweepsOf (PRESSURE.runKernel cfg rt vid k).trace
            = sweepsOf k.trace ++ repIndices k.run_reps ∧
          (PRESSURE.runKernel cfg rt VariantID.Base_Seq k).data
            = (PRESSURE.sweep k.run_size)^[k.run_reps.toNat] k.data) ∧
    (∀ (α C : Type) [Field α] (NDSET2D : Int → DEL_DOT_VEC_2D.Views)
        (rt : Runtime (DEL_DOT_VEC_2D.Data α)) (vid : VariantID)
        (k : Kernel C (DEL_DOT_VEC_2D.Data α)),
        caseLabel cfg vid = true →
        sweepsOf (DEL_DOT_VEC_2D.runKernel NDSET2D cfg rt vid k).trace
            = sweepsOf k.trace ++ repIndices k.run_reps ∧
          (DEL_DOT_VEC_2D.runKernel NDSET2D cfg rt VariantID.Base_Seq k).data
            = (DEL_DOT_VEC_2D.sweep NDSET2D k.data.m_domain.n_real_zones)^[k.run_reps.toNat]
                k.data) ∧
    (∀ (α C : Type) [Field α] (sqrt : α → α) (rt : Runtime (TRAP_INT.Data α)) (vid : VariantID)
        (k : Kernel C (TRAP_INT.Data α)),
        caseLabel cfg vid = true →
        sweepsOf (TRAP_INT.runKernel sqrt cfg rt vid k).trace
            = sweepsOf k.trace ++ repIndices k.run_reps ∧
          (TRAP_INT.runKernel sqrt cfg rt VariantID.Base_Seq k).data
            = (TRAP_INT.sweep sqrt k.run_size)^[k.run_reps.toNat] k.data) ∧
    (∀ (α C : Type) [Zero α] [Add α] [Mul α] (rt : Runtime (POLYBENCH_2MM.Data α))
        (vid : VariantID) (k : Kernel C (POLYBENCH_2MM.Data α)),
        caseLabel cfg vid = true →
        sweepsOf (POLYBENCH_2MM.runKernel cfg rt vid k).trace
            = sweepsOf k.trace ++ repIndices k.run_reps ∧
          (POLYBENCH_2MM.runKernel cfg rt VariantID.Base_Seq k).data
            = POLYBENCH_2MM.sweep^[k.run_reps.toNat] k.data) ∧
    (∀ (rt : Runtime REDUCE3_INT.Data) (vid : VariantID) (k : Kernel Int REDUCE3_INT.Data),
        caseLabel cfg vid = true →
        sweepsOf (REDUCE3_INT.runKernel cfg rt vid k).trace
            = sweepsOf k.trace ++ repIndices 100 ∧
          (REDUCE3_INT.runKernel cfg rt VariantID.Base_Seq k).data
            = (REDUCE3_INT.sweep k.run_size)^[100] k.data) := by
  refine ⟨?_, ?_, ?_, ?_, ?_, ?_, ?_⟩
  · intro α C _ _ rt vid k h
    exact ⟨ADD_sweeps cfg rt vid k h, by simp [ADD.runKernel, timedReps_eq]⟩
  · intro α C _ rt vid k h
    exact ⟨dispatch_sweeps _ _ _ _ _ _ _ _ _ h, by simp [FIR.runKernel, dispatch, timedReps_eq]⟩
  · intro α C _ rt vid k h
    exact ⟨dispatch_sweeps _ _ _ _ _ _ _ _ _ h,
      by simp [PRESSURE.runKernel, dispatch, timedReps_eq]⟩
  · intro α C _ nd rt vid k h
    exact ⟨dispatch_sweeps _ _ _ _ _ _ _ _ _ h,
      by simp [DEL_DOT_VEC_2D.runKernel, dispatch, timedReps_eq]⟩
  · intro α C _ sqrt rt vid k h
    exact ⟨dispatch_sweeps _ _ _ _ _ _ _ _ _ h,
      by simp [TRAP_INT.runKernel, dispatch, timedReps_eq]⟩
  · intro α C _ _ _ rt vid k h
    exact ⟨dispatch_sweeps _ _ _ _ _ _ _ _ _ h,
      by simp [POLYBENCH_2MM.runKernel, dispatch, timedReps_eq]⟩
  · intro rt vid k h
    exact ⟨dispatch_sweeps _ _ _ _ _ _ _ _ _ h,
      by simp [REDUCE3_INT.runKernel, dispatch, timedReps_eq]⟩

set_option maxRecDepth 100000 in
/-- C1 (as stated) fails for REDUCE3_INT: configured for 3 repetitions, the
`Base_Seq` block records 100 repetitions, not the 3 that `getRunReps()` returns. -/
theorem C1_counterexample :
    exREDUCE3.run_reps = 3 ∧
      caseLabel hostBuild VariantID.Base_Seq = true ∧
      (sweepsOf (REDUCE3_INT.runKernel hostBuild (idRuntime _) VariantID.Base_Seq
          exREDUCE3).trace).length = 100 ∧
      sweepsOf (REDUCE3_INT.runKernel hostBuild (idRuntime _) VariantID.Base_Seq
          exREDUCE3).trace
        ≠ sweepsOf exREDUCE3.trace ++ repIndices exREDUCE3.run_reps := by
  decide

/-- Witness for C1: the seven parts at the example objects, baseline sequential variant. -/
theorem C1_repetition_count_witness :
    (ADD.supported hostBuild VariantID.Baseline_Seq = true ∧
      sweepsOf (ADD.runKernel hostBuild (idRuntime _) VariantID.Baseline_Seq exADD).trace
        = sweepsOf exADD.trace ++ repIndices exADD.run_reps) ∧
    (caseLabel hostBuild VariantID.Base_Seq = true ∧
      sweepsOf (FIR.runKernel hostBuild (idRuntime _) VariantID.Base_Seq exFIR).trace
        = sweepsOf exFIR.trace ++ repIndices exFIR.run_reps) ∧
    (caseLabel hostBuild VariantID.RAJA_Seq = true ∧
      sweepsOf (PRESSURE.runKernel hostBuild (idRuntime _) VariantID.RAJA_Seq exPRESSURE).trace
        = sweepsOf exPRESSURE.trace ++ repIndices exPRESSURE.run_reps) ∧
    (caseLabel fullBuild VariantID.Base_CUDA = true ∧
      sweepsOf (DEL_DOT_VEC_2D.runKernel exViews fullBuild (idRuntime _) VariantID.Base_CUDA
          exDELDOT).trace
        = sweepsOf exDELDOT.trace ++ repIndices exDELDOT.run_reps) ∧
    (caseLabel fullBuild VariantID.RAJA_OpenMP = true ∧
      sweepsOf (TRAP_INT.runKernel id fullBuild (idRuntime _) VariantID.RAJA_OpenMP
          exTRAP).trace
        = sweepsOf exTRAP.trace ++ repIndices exTRAP.run_reps) ∧
    (caseLabel fullBuild VariantID.Base_OpenMPTarget = true ∧
      sweepsOf (POLYBENCH_2MM.runKernel fullBuild (idRuntime _) VariantID.Base_OpenMPTarget
          ex2MM).trace
        = sweepsOf ex2MM.trace ++ repIndices ex2MM.run_reps) ∧
    (caseLabel hostBuild VariantID.Base_Seq = true ∧
      sweepsOf (REDUCE3_INT.runKernel hostBuild (idRuntime _) VariantID.Base_Seq
          exREDUCE3).trace
        = sweepsOf exREDUCE3.trace ++ repIndices 100) :=
  ⟨⟨rfl, ((C1_repetition_count hostBuild).1 Int Int (idRuntime _) VariantID.Baseline_Seq exADD rfl).1⟩,
   ⟨rfl, ((C1_repetition_count hostBuild).2.1 Int Int (idRuntime _) VariantID.Base_Seq exFIR rfl).1⟩,
   ⟨rfl, ((C1_repetition_count hostBuild).2.2.1 Rat Rat (idRuntime _) VariantID.RAJA_Seq exPRESSURE
      rfl).1⟩,
   ⟨rfl, ((C1_repetition_count fullBuild).2.2.2.1 Rat Rat exViews (idRuntime _)
      VariantID.Base_CUDA exDELDOT rfl).1⟩,
   ⟨rfl, ((C1_repetition_count fullBuild).2.2.2.2.1 Rat Rat id (idRuntime _)
      VariantID.RAJA_OpenMP exTRAP rfl).1⟩,
   ⟨rfl, ((C1_repetition_count fullBuild).2.2.2.2.2.1 Int Int (idRuntime _)
      VariantID.Base_OpenMPTarget ex2MM rfl).1⟩,
   ⟨rfl, ((C1_repetition_count hostBuild).2.2.2.2.2.2 (idRuntime _) VariantID.Base_Seq exREDUCE3
      rfl).1⟩⟩

/-- C7: when `vid` matches none of the case labels the build keeps, `runKernel` of
each of the seven kernels executes only its `default` block: the result is the
object it was given with one `std::cout` line appended to the record.  So the
members (buffers and accumulators), the checksum map, the run size and the
repetition count are unchanged, no repetition is recorded, and the record holds
no timer call that it did not hold before. -/
theorem C7_unsupported_variant (cfg : BuildConfig) (vid : VariantID) :
    (∀ (α C : Type) [Zero α] [Add α] (rt : Runtime (ADD.Data α)) (k : Kernel C (ADD.Data α)),
        ADD.caseLabel cfg vid = false →
        ADD.runKernel cfg rt vid k = unknownVariant "\n  Unknown variant id = " vid k) ∧
    (∀ (α C : Type) [Ring α] (rt : Runtime (FIR.Data α)) (k : Kernel C (FIR.Data α)),
        caseLabel cfg vid = false →
        FIR.runKernel cfg rt vid k = unknownVariant "\n  FIR : Unknown variant id = " vid k) ∧
    (∀ (α C : Type) [LinearOrderedField α] (rt : Runtime (PRESSURE.Data α))
        (k : Kernel C (PRESSURE.Data α)),
        caseLabel cfg vid = false →
        PRESSURE.runKernel cfg rt vid k
          = unknownVariant "\n  PRESSURE : Unknown variant id = " vid k) ∧
    (∀ (α C : Type) [Field α] (NDSET2D : Int → DEL_DOT_VEC_2D.Views)
        (rt : Runtime (DEL_DOT_VEC_2D.Data α)) (k : Kernel C (DEL_DOT_VEC_2D.Data α)),
        caseLabel cfg vid = false →
        DEL_DOT_VEC_2D.runKernel NDSET2D cfg rt vid k
          = unknownVariant "\n  DEL_DOT_VEC_2D : Unknown variant id = " vid k) ∧
    (∀ (rt : Runtime REDUCE3_INT.Data) (k : Kernel Int REDUCE3_INT.Data),
        caseLabel cfg vid = false →
        REDUCE3_INT.runKernel cfg rt vid k
          = unknownVariant "\n  REDUCE3_INT : Unknown variant id = " vid k) ∧
    (∀ (α C : Type) [Field α] (sqrt : α → α) (rt : Runtime (TRAP_INT.Data α))
        (k : Kernel C (TRAP_INT.Data α)),
        caseLabel cfg vid = false →
        TRAP_INT.runKernel sqrt cfg rt vid k
          = unknownVariant "\n  TRAP_INT : Unknown variant id = " vid k) ∧
    (∀ (α C : Type) [Zero α] [Add α] [Mul α] (rt : Runtime (POLYBENCH_2MM.Data α))
        (k : Kernel C (POLYBENCH_2MM.Data α)),
        caseLabel cfg vid = false →
        POLYBENCH_2MM.runKernel cfg rt vid k
          = unknownVariant "\n  POLYBENCH_2MM : Unknown variant id = " vid k) ∧
    (∀ (C D : Type) (msg : String) (k : Kernel C D),
        (unknownVariant msg vid k).data = k.data ∧
        (unknownVariant msg vid k).checksum = k.checksum ∧
        (unknownVariant msg vid k).run_size = k.run_size ∧
        (unknownVariant msg vid k).run_reps = k.run_reps ∧
        (unknownVariant msg vid k).trace = k.trace ++ [Event.cout msg vid] ∧
        sweepsOf (unknownVariant msg vid k).trace = sweepsOf k.trace ∧
        timerCalls (unknownVariant msg vid k).trace = timerCalls k.trace) := by
  refine ⟨?_, ?_, ?_, ?_, ?_, ?_, ?_, ?_⟩
  · intro α C _ _ rt k h
    exact ADD_default cfg rt vid k h
  · intro α C _ rt k h
    exact dispatch_default _ _ _ _ _ _ _ _ _ h
  · intro α C _ rt k h
    exact dispatch_default _ _ _ _ _ _ _ _ _ h
  · intro α C _ nd rt k h
    exact dispatch_default _ _ _ _ _ _ _ _ _ h
  · intro rt k h
    exact dispatch_default _ _ _ _ _ _ _ _ _ h
  · intro α C _ sqrt rt k h
    exact dispatch_default _ _ _ _ _ _ _ _ _ h
  · intro α C _ _ _ rt k h
    exact dispatch_default _ _ _ _ _ _ _ _ _ h
  · intro C D msg k
    simp [unknownVariant, Kernel.log, sweepsOf_append, sweepsOf, timerCalls]

/-- Witness for C7: identifiers outside the kept labels, at the example objects. -/
theorem C7_unsupported_variant_witness :
    (ADD.caseLabel hostBuild VariantID.Base_Seq = false ∧
      ADD.runKernel hostBuild (idRuntime _) VariantID.Base_Seq exADD
        = unknownVariant "\n  Unknown variant id = " VariantID.Base_Seq exADD) ∧
    (caseLabel hostBuild VariantID.Base_CUDA = false ∧
      FIR.runKernel hostBuild (idRuntime _) VariantID.Base_CUDA exFIR
        = unknownVariant "\n  FIR : Unknown variant id = " VariantID.Base_CUDA exFIR) ∧
    (caseLabel hostBuild VariantID.RAJA_OpenMP = false ∧
      PRESSURE.runKernel hostBuild (idRuntime _) VariantID.RAJA_OpenMP exPRESSURE
        = unknownVariant "\n  PRESSURE : Unknown variant id = " VariantID.RAJA_OpenMP
            exPRESSURE) ∧
    (caseLabel fullBuild (VariantID.other 7) = false ∧
      DEL_DOT_VEC_2D.runKernel exViews fullBuild (idRuntime _) (VariantID.other 7) exDELDOT
        = unknownVariant "\n  DEL_DOT_VEC_2D : Unknown variant id = " (VariantID.other 7)
            exDELDOT) ∧
    (caseLabel fullBuild VariantID.Baseline_Seq = false ∧
      REDUCE3_INT.runKernel fullBuild (idRuntime _) VariantID.Baseline_Seq exREDUCE3
        = unknownVariant "\n  REDUCE3_INT : Unknown variant id = " VariantID.Baseline_Seq
            exREDUCE3) ∧
    (caseLabel hostBuild VariantID.RAJA_CUDA = false ∧
      TRAP_INT.runKernel id hostBuild (idRuntime _) VariantID.RAJA_CUDA exTRAP
        = unknownVariant "\n  TRAP_INT : Unknown variant id = " VariantID.RAJA_CUDA exTRAP) ∧
    (caseLabel hostBuild VariantID.Base_OpenMPTarget = false ∧
      POLYBENCH_2MM.runKernel hostBuild (idRuntime _) VariantID.Base_OpenMPTarget ex2MM
        = unknownVariant "\n  POLYBENCH_2MM : Unknown variant id = "
            VariantID.Base_OpenMPTarget ex2MM) :=
  ⟨⟨rfl, (C7_unsupported_variant hostBuild _).1 Int Int (idRuntime _) exADD rfl⟩,
   ⟨rfl, (C7_unsupported_variant hostBuild _).2.1 Int Int (idRuntime _) exFIR rfl⟩,
   ⟨rfl, (C7_unsupported_variant hostBuild _).2.2.1 Rat Rat (idRuntime _) exPRESSURE rfl⟩,
   ⟨rfl, (C7_unsupported_variant fullBuild _).2.2.2.1 Rat Rat exViews (idRuntime _) exDELDOT
      rfl⟩,
   ⟨rfl, (C7_unsupported_variant fullBuild _).2.2.2.2.1 (idRuntime _) exREDUCE3 rfl⟩,
   ⟨rfl, (C7_unsupported_variant hostBuild _).2.2.2.2.2.1 Rat Rat id (idRuntime _) exTRAP rfl⟩,
   ⟨rfl, (C7_unsupported_variant hostBuild _).2.2.2.2.2.2.1 Int Int (idRuntime _) ex2MM rfl⟩⟩

/-! ## REDUCE3_INT: the reduction (C2, C3) -/

section Reduce3Lemmas

open REDUCE3_INT

theorem RAJA_MIN_eq_min (a b : Int) : RAJA_MIN a b = min a b := by
  unfold RAJA_MIN
  split <;> omega

theorem RAJA_MAX_eq_max (a b : Int) : RAJA_MAX a b = max a b := by
  unfold RAJA_MAX
  split <;> omega

theorem load_eq_getElem {α : Type} [Zero α] (buf : List α) (n : Nat) (h : n < buf.length) :
    load buf (n : Int) = buf[n] := by
  simp [load, List.getD_eq_getElem?_getD, List.getElem?_eq_getElem h]

/-- After `n` iterations over a buffer of at least `n` elements, the three locals are
the folds of the first `n` elements. -/
theorem reduce_loop (vec : List Int) (n : Nat) (hn : n ≤ vec.length) (acc : Acc) :
    forLoopAux (REDUCE3_INT_BODY vec) n 0 acc
      = { vsum := acc.vsum + (vec.take n).sum
          vmin := (vec.take n).foldl min acc.vmin
          vmax := (vec.take n).foldl max acc.vmax } := by
  induction n with
  | zero => simp [forLoopAux]
  | succ n ih =>
    have hlt : n < vec.length := by omega
    have htake : vec.take (n + 1) = vec.take n ++ [vec[n]] := by
      rw [List.take_succ, List.getElem?_eq_getElem hlt]
      rfl
    rw [forLoopAux_succ_right, ih (by omega), htake]
    simp only [REDUCE3_INT_BODY, zero_add, load_eq_getElem vec n hlt, RAJA_MIN_eq_min,
      RAJA_MAX_eq_max, List.sum_append, List.sum_singleton, List.foldl_append, List.foldl_cons,
      List.foldl_nil, add_assoc]

theorem reduce_eq (iend : Int) (d : Data) (hlen : d.m_vec.length = iend.toNat) :
    reduce iend d
      = { vsum := d.m_vsum_init + d.m_vec.sum
          vmin := d.m_vec.foldl min d.m_vmin_init
          vmax := d.m_vec.foldl max d.m_vmax_init } := by
  rw [reduce, forLoop_zero_toNat, reduce_loop _ _ (by omega), ← hlen, List.take_length]

theorem sweep_eq (iend : Int) (d : Data) (hlen : d.m_vec.length = iend.toNat) :
    sweep iend d
      = { d with
          m_vsum := d.m_vsum + (d.m_vsum_init + d.m_vec.sum)
          m_vmin := min d.m_vmin (d.m_vec.foldl min d.m_vmin_init)
          m_vmax := max d.m_vmax (d.m_vec.foldl max d.m_vmax_init) } := by
  simp [sweep, reduce_eq iend d hlen, RAJA_MIN_eq_min, RAJA_MAX_eq_max]

theorem sweep_iterate (iend : Int) (d : Data) (hlen : d.m_vec.length = iend.toNat) (n : Nat) :
    (sweep iend)^[n] d
      = { d with
          m_vsum := d.m_vsum + n * (d.m_vsum_init + d.m_vec.sum)
          m_vmin := if n = 0 then d.m_vmin else min d.m_vmin (d.m_vec.foldl min d.m_vmin_init)
          m_vmax := if n = 0 then d.m_vmax else max d.m_vmax (d.m_vec.foldl max d.m_vmax_init) } := by
  induction n with
  | zero => simp
  | succ n ih =>
    rw [Function.iterate_succ_apply', ih, sweep_eq _ _ (by simpa using hlen)]
    by_cases h0 : n = 0
    · subst h0; simp
    · simp only [h0, if_false, Nat.succ_ne_zero, Nat.cast_succ]
      congr 1
      · ring
      · simp [min_assoc]
      · simp [max_assoc]

theorem foldl_min_le_init (l : List Int) (a : Int) : l.foldl min a ≤ a := by
  induction l generalizing a with
  | nil => simp
  | cons x l ih => exact le_trans (ih (min a x)) (min_le_left a x)

theorem foldl_min_le_mem (l : List Int) (a : Int) : ∀ x ∈ l, l.foldl min a ≤ x := by
  induction l generalizing a with
  | nil => simp
  | cons y l ih =>
    intro x hx
    rcases List.mem_cons.1 hx with rfl | hx
    · exact le_trans (foldl_min_le_init l (min a x)) (min_le_right a x)
    · exact ih (min a y) x hx

theorem foldl_min_mem (l : List Int) (a : Int) : l.foldl min a = a ∨ l.foldl min a ∈ l := by
  induction l generalizing a with
  | nil => simp
  | cons y l ih =>
    rw [List.foldl_cons]
    rcases ih (min a y) with h | h
    · rcases min_choice a y with h2 | h2
      · left; rw [h, h2]
      · right; rw [h, h2]; exact List.mem_cons_self _ _
    · right; exact List.mem_cons_of_mem _ h

theorem le_foldl_max_init (l : List Int) (a : Int) : a ≤ l.foldl max a := by
  induction l generalizing a with
  | nil => simp
  | cons x l ih => exact le_trans (le_max_left a x) (ih (max a x))

theorem mem_le_foldl_max (l : List Int) (a : Int) : ∀ x ∈ l, x ≤ l.foldl max a := by
  induction l generalizing a with
  | nil => simp
  | cons y l ih =>
    intro x hx
    rcases List.mem_cons.1 hx with rfl | hx
    · exact le_trans (le_max_right a x) (le_foldl_max_init l (max a x))
    · exact ih (max a y) x hx

theorem foldl_max_mem (l : List Int) (a : Int) : l.foldl max a = a ∨ l.foldl max a ∈ l := by
  induction l generalizing a with
  | nil => simp
  | cons y l ih =>
    rw [List.foldl_cons]
    rcases ih (max a y) with h | h
    · rcases max_choice a y with h2 | h2
      · left; rw [h, h2]
      · right; rw [h, h2]; exact List.mem_cons_self _ _
    · right; exact List.mem_cons_of_mem _ h

theorem foldl_min_attained (l : List Int) (a : Int) (hne : l ≠ []) (hle : ∀ x ∈ l, x ≤ a) :
    l.foldl min a ∈ l := by
  rcases foldl_min_mem l a with h | h
  · obtain ⟨x, hx⟩ := List.exists_mem_of_ne_nil l hne
    have h1 := foldl_min_le_mem l a x hx
    have h2 := hle x hx
    have : x = l.foldl min a := by omega
    rw [← this]; exact hx
  · exact h

theorem foldl_max_attained (l : List Int) (a : Int) (hne : l ≠ []) (hle : ∀ x ∈ l, a ≤ x) :
    l.foldl max a ∈ l := by
  rcases foldl_max_mem l a with h | h
  · obtain ⟨x, hx⟩ := List.exists_mem_of_ne_nil l hne
    have h1 := mem_le_foldl_max l a x hx
    have h2 := hle x hx
    have : x = l.foldl max a := by omega
    rw [← this]; exact hx
  · exact h

/-- The members after `setUp` and `N` repetitions, in closed form. -/
theorem afterReps_eq (alloc : Int → VariantID → List Int) (vid : VariantID)
    (k : Kernel Int REDUCE3_INT.Data) (N : Nat)
    (hlen : (alloc k.run_size vid).length = k.run_size.toNat) :
    REDUCE3_INT.afterReps alloc vid k N
      = { m_vec := alloc k.run_size vid
          m_vsum := N * (alloc k.run_size vid).sum
          m_vsum_init := 0
          m_vmin := if N = 0 then Int_type_max
            else min Int_type_max ((alloc k.run_size vid).foldl min Int_type_max)
          m_vmin_init := Int_type_max
          m_vmax := if N = 0 then Int_type_min
            else max Int_type_min ((alloc k.run_size vid).foldl max Int_type_min)
          m_vmax_init := Int_type_min } := by
  simp only [REDUCE3_INT.afterReps, timedReps_eq, Int.toNat_ofNat]
  rw [sweep_iterate _ _ (by simpa [REDUCE3_INT.setUp, Kernel.log] using hlen)]
  simp [REDUCE3_INT.setUp, Kernel.log]

theorem runKernel_Base_Seq_eq_afterReps (alloc : Int → VariantID → List Int) (vid : VariantID)
    (cfg : BuildConfig) (rt : Runtime REDUCE3_INT.Data) (k : Kernel Int REDUCE3_INT.Data) :
    (REDUCE3_INT.runKernel cfg rt VariantID.Base_Seq (REDUCE3_INT.setUp alloc vid k)).data
      = REDUCE3_INT.afterReps alloc vid k 100 := by
  simp [REDUCE3_INT.runKernel, dispatch, REDUCE3_INT.afterReps]

end Reduce3Lemmas

/-- C2: starting from the state `setUp` leaves (`m_vsum = 0`, `m_vsum_init = 0`), after
`N` iterations of the `Base_Seq` repetition loop over a vector of length the run
size, `m_vsum` is `N` times the sum of the vector (exact integers); so it is after
`runKernel`, whose loop runs 100 times.  One iteration adds to `m_vsum` the
accumulator restarted from `m_vsum_init`, and changes neither `m_vsum_init` nor
the vector. -/
theorem C2_reduce3_sum_accumulation (alloc : Int → VariantID → List Int) (vid : VariantID)
    (cfg : BuildConfig) (rt : Runtime REDUCE3_INT.Data) (k : Kernel Int REDUCE3_INT.Data)
    (N : Nat) (hlen : (alloc k.run_size vid).length = k.run_size.toNat) :
    (REDUCE3_INT.setUp alloc vid k).data.m_vsum = 0 ∧
    (REDUCE3_INT.setUp alloc vid k).data.m_vsum_init = 0 ∧
    (REDUCE3_INT.afterReps alloc vid k N).m_vsum = N * (alloc k.run_size vid).sum ∧
    (REDUCE3_INT.afterReps alloc vid k 1).m_vsum = (alloc k.run_size vid).sum ∧
    (REDUCE3_INT.runKernel cfg rt VariantID.Base_Seq (REDUCE3_INT.setUp alloc vid k)).data.m_vsum
      = 100 * (alloc k.run_size vid).sum ∧
    (∀ d : REDUCE3_INT.Data, d.m_vec.length = k.run_size.toNat →
      (REDUCE3_INT.sweep k.run_size d).m_vsum = d.m_vsum + (d.m_vsum_init + d.m_vec.sum) ∧
      (REDUCE3_INT.sweep k.run_size d).m_vsum_init = d.m_vsum_init ∧
      (REDUCE3_INT.sweep k.run_size d).m_vec = d.m_vec) := by
  refine ⟨rfl, rfl, ?_, ?_, ?_, ?_⟩
  · rw [afterReps_eq alloc vid k N hlen]
  · rw [afterReps_eq alloc vid k 1 hlen]; simp
  · rw [runKernel_Base_Seq_eq_afterReps, afterReps_eq alloc vid k 100 hlen]; simp
  · intro d hd
    rw [sweep_eq _ _ hd]
    exact ⟨rfl, rfl, rfl⟩

/-- Witness for C2: run size 3, vector `[5, -2, 7]`, three repetitions. -/
theorem C2_reduce3_sum_accumulation_witness :
    ((fun _ _ => [5, -2, 7] : Int → VariantID → List Int) exREDUCE3.run_size
        VariantID.Base_Seq).length = exREDUCE3.run_size.toNat ∧
    (REDUCE3_INT.afterReps (fun _ _ => [5, -2, 7]) VariantID.Base_Seq exREDUCE3 3).m_vsum
      = 3 * ([5, -2, 7] : List Int).sum :=
  ⟨by decide,
   (C2_reduce3_sum_accumulation (fun _ _ => [5, -2, 7]) VariantID.Base_Seq hostBuild
      (idRuntime _) exREDUCE3 3 (by decide)).2.2.1⟩

/-- C3: for a vector of `Int_type` values of length the run size, after `setUp` and
`N` iterations of the `Base_Seq` repetition loop: if the vector is not empty and
`N ≥ 1`, `m_vmin` is its least element and `m_vmax` its greatest (each is an
element and bounds every element), `m_vmin ≤ m_vmax`, and both are the values a
single repetition gives; so it is after `runKernel`.  If the vector is empty or
`N = 0`, they are the identities `numeric_limits max` and `numeric_limits min`. -/
theorem C3_reduce3_min_max (alloc : Int → VariantID → List Int) (vid : VariantID)
    (cfg : BuildConfig) (rt : Runtime REDUCE3_INT.Data) (k : Kernel Int REDUCE3_INT.Data)
    (N : Nat) (hlen : (alloc k.run_size vid).length = k.run_size.toNat)
    (hrange : ∀ x ∈ alloc k.run_size vid, Int_type_min ≤ x ∧ x ≤ Int_type_max) :
    (alloc k.run_size vid ≠ [] → 1 ≤ N →
      (REDUCE3_INT.afterReps alloc vid k N).m_vmin ∈ alloc k.run_size vid ∧
      (∀ x ∈ alloc k.run_size vid, (REDUCE3_INT.afterReps alloc vid k N).m_vmin ≤ x) ∧
      (REDUCE3_INT.afterReps alloc vid k N).m_vmax ∈ alloc k.run_size vid ∧
      (∀ x ∈ alloc k.run_size vid, x ≤ (REDUCE3_INT.afterReps alloc vid k N).m_vmax) ∧
      (REDUCE3_INT.afterReps alloc vid k N).m_vmin
        ≤ (REDUCE3_INT.afterReps alloc vid k N).m_vmax ∧
      (REDUCE3_INT.afterReps alloc vid k N).m_vmin
        = (REDUCE3_INT.afterReps alloc vid k 1).m_vmin ∧
      (REDUCE3_INT.afterReps alloc vid k N).m_vmax
        = (REDUCE3_INT.afterReps alloc vid k 1).m_vmax) ∧
    (alloc k.run_size vid = [] ∨ N = 0 →
      (REDUCE3_INT.afterReps alloc vid k N).m_vmin = Int_type_max ∧
      (REDUCE3_INT.afterReps alloc vid k N).m_vmax = Int_type_min) ∧
    (REDUCE3_INT.runKernel cfg rt VariantID.Base_Seq (REDUCE3_INT.setUp alloc vid k)).data
      = REDUCE3_INT.afterReps alloc vid k 100 := by
  have hmin_le : (alloc k.run_size vid).foldl min Int_type_max ≤ Int_type_max :=
    foldl_min_le_init _ _
  have hmax_le : Int_type_min ≤ (alloc k.run_size vid).foldl max Int_type_min :=
    le_foldl_max_init _ _
  refine ⟨?_, ?_, runKernel_Base_Seq_eq_afterReps alloc vid cfg rt k⟩
  · intro hne hN
    have hN0 : N ≠ 0 := by omega
    have h1 := foldl_min_attained _ Int_type_max hne (fun x hx => (hrange x hx).2)
    have h2 := foldl_max_attained _ Int_type_min hne (fun x hx => (hrange x hx).1)
    rw [afterReps_eq alloc vid k N hlen, afterReps_eq alloc vid k 1 hlen]
    simp only [hN0, if_false, one_ne_zero, min_eq_right hmin_le, max_eq_right hmax_le]
    have h3 := foldl_min_le_mem _ Int_type_max _ h2
    exact ⟨h1, foldl_min_le_mem _ _, h2, mem_le_foldl_max _ _, h3, trivial, trivial⟩
  · intro h
    rw [afterReps_eq alloc vid k N hlen]
    rcases h with h | h
    · simp [h]
    · simp [h]

/-- Witness for C3: run size 3, vector `[5, -2, 7]`, three repetitions. -/
theorem C3_reduce3_min_max_witness :
    ((fun _ _ => [5, -2, 7] : Int → VariantID → List Int) exREDUCE3.run_size
        VariantID.Base_Seq).length = exREDUCE3.run_size.toNat ∧
    (∀ x ∈ ([5, -2, 7] : List Int), Int_type_min ≤ x ∧ x ≤ Int_type_max) ∧
    ([5, -2, 7] : List Int) ≠ [] ∧ 1 ≤ 3 ∧
    (REDUCE3_INT.afterReps (fun _ _ => [5, -2, 7]) VariantID.Base_Seq exREDUCE3 3).m_vmin
      ∈ ([5, -2, 7] : List Int) ∧
    (∀ x ∈ ([5, -2, 7] : List Int),
      (REDUCE3_INT.afterReps (fun _ _ => [5, -2, 7]) VariantID.Base_Seq exREDUCE3 3).m_vmin
        ≤ x) :=
  have h := (C3_reduce3_min_max (fun _ _ => [5, -2, 7]) VariantID.Base_Seq hostBuild
    (idRuntime _) exREDUCE3 3 (by decide) (by decide)).1 (by decide) (by decide)
  ⟨by decide, by decide, by decide, by decide, h.1, h.2.1⟩

/-! ## Checksums (C8, C9) -/

/-- C8 (as stated) fails: with a variant `runKernel` does not support, the four phases
change `checksum[v]`, from `0` to `-1`. -/
theorem C8_counterexample :
    caseLabel hostBuild (VariantID.other 0) = false ∧
    exREDUCE3.checksum (VariantID.other 0) = 0 ∧
    (REDUCE3_INT.fourPhases (fun _ _ => [5, -2, 7]) hostBuild (idRuntime _) (VariantID.other 0)
        exREDUCE3).checksum (VariantID.other 0) = -1 ∧
    (REDUCE3_INT.fourPhases (fun _ _ => [5, -2, 7]) hostBuild (idRuntime _) (VariantID.other 0)
        exREDUCE3).checksum (VariantID.other 0)
      ≠ exREDUCE3.checksum (VariantID.other 0) := by
  decide

/-- C8 (amended): for REDUCE3_INT, the four phases `setUp(v); runKernel(v);
updateChecksum(v); tearDown(v)` with a variant `v` that `runKernel` does not
support add to `checksum[v]` the three accumulators as `setUp` left them,
`0 + numeric_limits max + numeric_limits min`, which is `-1`; the entries of the
other variants are unchanged. -/
theorem C8_unsupported_checksum (alloc : Int → VariantID → List Int) (cfg : BuildConfig)
    (rt : Runtime REDUCE3_INT.Data) (v : VariantID) (k : Kernel Int REDUCE3_INT.Data)
    (h : caseLabel cfg v = false) :
    (REDUCE3_INT.fourPhases alloc cfg rt v k).checksum v
      = k.checksum v + (0 + Int_type_max + Int_type_min) ∧
    (REDUCE3_INT.fourPhases alloc cfg rt v k).checksum v = k.checksum v - 1 ∧
    (∀ w, w ≠ v → (REDUCE3_INT.fourPhases alloc cfg rt v k).checksum w = k.checksum w) := by
  have hrun := dispatch_default cfg rt "\n  REDUCE3_INT : Unknown variant id = " 100
    (REDUCE3_INT.sweep (REDUCE3_INT.setUp alloc v k).run_size)
    (["vec", "vsum", "vmin", "vmax"], ["vec", "vsum"]) (["vec"], ["vec"]) v
    (REDUCE3_INT.setUp alloc v k) h
  have hrun2 : REDUCE3_INT.runKernel cfg rt v (REDUCE3_INT.setUp alloc v k)
      = unknownVariant "\n  REDUCE3_INT : Unknown variant id = " v
          (REDUCE3_INT.setUp alloc v k) := hrun
  simp only [REDUCE3_INT.fourPhases, hrun2]
  refine ⟨?_, ?_, ?_⟩
  · simp [REDUCE3_INT.tearDown, REDUCE3_INT.updateChecksum, unknownVariant, REDUCE3_INT.setUp,
      Kernel.log, add_assoc]
  · simp [REDUCE3_INT.tearDown, REDUCE3_INT.updateChecksum, unknownVariant, REDUCE3_INT.setUp,
      Kernel.log, Int_type_max, Int_type_min]
    omega
  · intro w hw
    simp [REDUCE3_INT.tearDown, REDUCE3_INT.updateChecksum, unknownVariant, REDUCE3_INT.setUp,
      Kernel.log, Function.update_noteq hw]

/-- Witness for C8: the identifier `other 0` in the host-only build. -/
theorem C8_unsupported_checksum_witness :
    caseLabel hostBuild (VariantID.other 0) = false ∧
    (REDUCE3_INT.fourPhases (fun _ _ => [5, -2, 7]) hostBuild (idRuntime _) (VariantID.other 0)
        exREDUCE3).checksum (VariantID.other 0)
      = exREDUCE3.checksum (VariantID.other 0) - 1 :=
  ⟨rfl, (C8_unsupported_checksum (fun _ _ => [5, -2, 7]) hostBuild (idRuntime _)
    (VariantID.other 0) exREDUCE3 rfl).2.1⟩

section ChecksumLemmas

variable {C D : Type}

theorem addsToChecksum_update [Add C] (v : VariantID) (x : C) (k : Kernel C D) :
    AddsToChecksum v x k { k with checksum := Function.update k.checksum v (k.checksum v + x) } := by
  refine ⟨by simp, ?_, rfl, rfl, rfl, rfl⟩
  intro w hw
  simp [Function.update_noteq hw]

theorem addsToChecksum_iterate [AddMonoid C] (f : Kernel C D → Kernel C D) (v : VariantID)
    (x : Kernel C D → C) (hf : ∀ k, AddsToChecksum v (x k) k (f k))
    (hx : ∀ k k2 : Kernel C D, k2.data = k.data → k2.run_size = k.run_size → x k2 = x k)
    (n : Nat) (k : Kernel C D) :
    AddsToChecksum v (n • x k) k (f^[n] k) := by
  induction n with
  | zero => exact ⟨by simp, fun _ _ => rfl, rfl, rfl, rfl, rfl⟩
  | succ n ih =>
    rw [Function.iterate_succ_apply']
    obtain ⟨h1, h2, h3, h4, h5, h6⟩ := ih
    obtain ⟨g1, g2, g3, g4, g5, g6⟩ := hf (f^[n] k)
    refine ⟨?_, ?_, g3.trans h3, g4.trans h4, g5.trans h5, g6.trans h6⟩
    · rw [g1, h1, hx k _ h3 h5, succ_nsmul, add_assoc]
    · intro w hw
      rw [g2 w hw, h2 w hw]

theorem REDUCE3_INT_addsToChecksum (v : VariantID) (k : Kernel Int REDUCE3_INT.Data) :
    AddsToChecksum v (k.data.m_vsum + k.data.m_vmin + k.data.m_vmax) k
      (REDUCE3_INT.updateChecksum v k) := by
  refine ⟨?_, ?_, rfl, rfl, rfl, rfl⟩
  · simp [REDUCE3_INT.updateChecksum, add_assoc]
  · intro w hw
    simp [REDUCE3_INT.updateChecksum, Function.update_noteq hw]

end ChecksumLemmas

/-- C9: `updateChecksum(v)` adds this run's contribution into `checksum[v]` and changes
nothing else (the entries of the other variants, the members, the record of
calls, the run parameters), and `n` successive calls add `n` contributions.  The
contribution is `m_vsum + m_vmin + m_vmax` for REDUCE3_INT, `calcChecksum` of the
output buffer for ADD, FIR, PRESSURE, DEL_DOT_VEC_2D (over the run size) and
POLYBENCH_2MM (over `m_ni * m_nl`), and `(m_sumx + c) / (m_sumx - c)` for TRAP_INT. -/
theorem C9_updateChecksum_cumulative (v : VariantID) (n : Nat) :
    (∀ k : Kernel Int REDUCE3_INT.Data,
      AddsToChecksum v (k.data.m_vsum + k.data.m_vmin + k.data.m_vmax) k
        (REDUCE3_INT.updateChecksum v k) ∧
      AddsToChecksum v (n • (k.data.m_vsum + k.data.m_vmin + k.data.m_vmax)) k
        ((REDUCE3_INT.updateChecksum v)^[n] k)) ∧
    (∀ (α C : Type) [AddMonoid C] (calcChecksum : List α → Int → C) (k : Kernel C (ADD.Data α)),
      AddsToChecksum v (calcChecksum k.data.m_c k.run_size) k
        (ADD.updateChecksum calcChecksum v k) ∧
      AddsToChecksum v (n • calcChecksum k.data.m_c k.run_size) k
        ((ADD.updateChecksum calcChecksum v)^[n] k)) ∧
    (∀ (α C : Type) [AddMonoid C] (calcChecksum : List α → Int → C) (k : Kernel C (FIR.Data α)),
      AddsToChecksum v (calcChecksum k.data.m_out k.run_size) k
        (FIR.updateChecksum calcChecksum v k) ∧
      AddsToChecksum v (n • calcChecksum k.data.m_out k.run_size) k
        ((FIR.updateChecksum calcChecksum v)^[n] k)) ∧
    (∀ (α C : Type) [AddMonoid C] (calcChecksum : List α → Int → C)
        (k : Kernel C (PRESSURE.Data α)),
      AddsToChecksum v (calcChecksum k.data.m_p_new k.run_size) k
        (PRESSURE.updateChecksum calcChecksum v k) ∧
      AddsToChecksum v (n • calcChecksum k.data.m_p_new k.run_size) k
        ((PRESSURE.updateChecksum calcChecksum v)^[n] k)) ∧
    (∀ (α C : Type) [AddMonoid C] (calcChecksum : List α → Int → C)
        (k : Kernel C (DEL_DOT_VEC_2D.Data α)),
      AddsToChecksum v (calcChecksum k.data.m_div k.run_size) k
        (DEL_DOT_VEC_2D.updateChecksum calcChecksum v k) ∧
      AddsToChecksum v (n • calcChecksum k.data.m_div k.run_size) k
        ((DEL_DOT_VEC_2D.updateChecksum calcChecksum v)^[n] k)) ∧
    (∀ (α C : Type) [AddMonoid C] (calcChecksum : List α → Int → C)
        (k : Kernel C (POLYBENCH_2MM.Data α)),
      AddsToChecksum v (calcChecksum k.data.m_D (k.data.m_ni * k.data.m_nl)) k
        (POLYBENCH_2MM.updateChecksum calcChecksum v k) ∧
      AddsToChecksum v (n • calcChecksum k.data.m_D (k.data.m_ni * k.data.m_nl)) k
        ((POLYBENCH_2MM.updateChecksum calcChecksum v)^[n] k)) ∧
    (∀ (α : Type) [Field α] (c : α) (k : Kernel α (TRAP_INT.Data α)),
      AddsToChecksum v ((k.data.m_sumx + c) / (k.data.m_sumx - c)) k
        (TRAP_INT.updateChecksum c v k) ∧
      AddsToChecksum v (n • ((k.data.m_sumx + c) / (k.data.m_sumx - c))) k
        ((TRAP_INT.updateChecksum c v)^[n] k)) := by
  refine ⟨?_, ?_, ?_, ?_, ?_, ?_, ?_⟩
  · intro k
    exact ⟨REDUCE3_INT_addsToChecksum v k,
      addsToChecksum_iterate _ v (fun k => k.data.m_vsum + k.data.m_vmin + k.data.m_vmax)
        (REDUCE3_INT_addsToChecksum v) (fun _ _ h _ => by simp only [h]) n k⟩
  · intro α C _ cs k
    exact ⟨addsToChecksum_update v _ k,
      addsToChecksum_iterate _ v (fun k => cs k.data.m_c k.run_size)
        (fun k => addsToChecksum_update v _ k) (fun _ _ h h2 => by simp only [h, h2]) n k⟩
  · intro α C _ cs k
    exact ⟨addsToChecksum_update v _ k,
      addsToChecksum_iterate _ v (fun k => cs k.data.m_out k.run_size)
        (fun k => addsToChecksum_update v _ k) (fun _ _ h h2 => by simp only [h, h2]) n k⟩
  · intro α C _ cs k
    exact ⟨addsToChecksum_update v _ k,
      addsToChecksum_iterate _ v (fun k => cs k.data.m_p_new k.run_size)
        (fun k => addsToChecksum_update v _ k) (fun _ _ h h2 => by simp only [h, h2]) n k⟩
  · intro α C _ cs k
    exact ⟨addsToChecksum_update v _ k,
      addsToChecksum_iterate _ v (fun k => cs k.data.m_div k.run_size)
        (fun k => addsToChecksum_update v _ k) (fun _ _ h h2 => by simp only [h, h2]) n k⟩
  · intro α C _ cs k
    exact ⟨addsToChecksum_update v _ k,
      addsToChecksum_iterate _ v (fun k => cs k.data.m_D (k.data.m_ni * k.data.m_nl))
        (fun k => addsToChecksum_update v _ k) (fun _ _ h _ => by simp only [h]) n k⟩
  · intro α _ c k
    exact ⟨addsToChecksum_update v _ k,
      addsToChecksum_iterate _ v (fun k => (k.data.m_sumx + c) / (k.data.m_sumx - c))
        (fun k => addsToChecksum_update v _ k) (fun _ _ h _ => by simp only [h]) n k⟩

/-! ## Buffers and loops of stores -/

section BufferLemmas

variable {α σ : Type}

theorem store_length (b : List α) (i : Int) (v : α) : (store b i v).length = b.length := by
  unfold store
  split <;> simp

theorem load_of_length_le [Zero α] (b : List α) (q : Int) (h : (b.length : Int) ≤ q) :
    load b q = 0 := by
  unfold load
  split
  · rw [List.getD_eq_getElem?_getD, List.getElem?_eq_none (by omega)]
    rfl
  · rfl

theorem load_of_neg [Zero α] (b : List α) (q : Int) (h : q < 0) : load b q = 0 := by
  unfold load
  rw [if_neg (by omega)]

theorem load_store [Zero α] (b : List α) (i q : Int) (v : α) :
    load (store b i v) q
      = if q = i ∧ 0 ≤ i ∧ i < b.length then v else load b q := by
  unfold load store
  by_cases hi : 0 ≤ i
  · by_cases hq : 0 ≤ q
    · simp only [hi, hq, if_true, true_and, List.getD_eq_getElem?_getD, List.getElem?_set]
      by_cases hqi : q = i
      · subst hqi
        by_cases hlt : q < b.length
        · have : q.toNat < b.length := by omega
          simp [hlt, this]
        · have : ¬ q.toNat < b.length := by omega
          simp only [hlt, this, and_false, if_false, if_true]
          rw [List.getElem?_eq_none (by omega)]
      · have : i.toNat ≠ q.toNat := by omega
        simp [hqi, this]
    · have hqi : q ≠ i := by omega
      simp [hi, hq, hqi]
  · simp [hi]

theorem list_ext_load [Zero α] (l1 l2 : List α) (hlen : l1.length = l2.length)
    (h : ∀ q : Int, load l1 q = load l2 q) : l1 = l2 := by
  apply List.ext_getElem hlen
  intro n h1 h2
  have := h (n : Int)
  rwa [load_eq_getElem l1 n h1, load_eq_getElem l2 n h2] at this

/-- A loop whose iteration `j` stores into `buf[base + j]` a value computed from `j`
and from the old `buf[base + j]` keeps the length. -/
theorem forLoopAux_store_length [Zero α] (body : Int → List α → List α) (g : Int → α → α)
    (base : Int) (hbody : ∀ j b, body j b = store b (base + j) (g j (load b (base + j))))
    (n : Nat) (b : List α) :
    (forLoopAux body n 0 b).length = b.length := by
  induction n with
  | zero => rfl
  | succ n ih => rw [forLoopAux_succ_right, hbody, store_length, ih]

/-- A loop whose iteration `j` stores into `buf[base + j]` a value computed from `j`
and from the old `buf[base + j]`, read pointwise. -/
theorem forLoopAux_store_load [Zero α] (body : Int → List α → List α) (g : Int → α → α)
    (base : Int) (hbody : ∀ j b, body j b = store b (base + j) (g j (load b (base + j))))
    (n : Nat) (b : List α) (q : Int) :
    load (forLoopAux body n 0 b) q
      = if base ≤ q ∧ q < base + n ∧ 0 ≤ q ∧ q < b.length then g (q - base) (load b q)
        else load b q := by
  induction n generalizing q with
  | zero =>
    have : ¬ (base ≤ q ∧ q < base + ((0 : Nat) : Int) ∧ 0 ≤ q ∧ q < b.length) := by omega
    rw [if_neg this]
    rfl
  | succ n ih =>
    rw [forLoopAux_succ_right, hbody, load_store, forLoopAux_store_length body g base hbody]
    by_cases hq : q = base + (0 + (n : Int)) ∧ 0 ≤ base + (0 + (n : Int)) ∧
        base + (0 + (n : Int)) < b.length
    · rw [if_pos hq]
      obtain ⟨hq1, hq2, hq3⟩ := hq
      have hc : base ≤ q ∧ q < base + ((n + 1 : Nat) : Int) ∧ 0 ≤ q ∧ q < b.length := by
        push_cast; omega
      rw [if_pos hc]
      have hn : q - base = 0 + (n : Int) := by omega
      rw [hn, ih (base + (0 + (n : Int))), if_neg (by omega), hq1]
    · rw [if_neg hq, ih q]
      by_cases hc : base ≤ q ∧ q < base + (n : Int) ∧ 0 ≤ q ∧ q < b.length
      · rw [if_pos hc, if_pos (by push_cast; omega)]
      · rw [if_neg hc, if_neg (by push_cast; omega)]

end BufferLemmas

theorem iterate_of_idempotent {σ : Type} (f : σ → σ) (hf : ∀ s, f (f s) = f s) (n : Nat)
    (hn : 1 ≤ n) (s : σ) : f^[n] s = f s := by
  induction n with
  | zero => omega
  | succ n ih =>
    rcases Nat.eq_zero_or_pos n with h0 | hpos
    · subst h0; rfl
    · rw [Function.iterate_succ_apply', ih hpos, hf]

/-! ## ADD: repetitions (C6) -/

section AddLemmas

variable {α : Type} [Zero α] [Add α]

theorem ADD_loop_length (a b : List α) (n : Nat) (c : List α) :
    (forLoopAux (ADD.ADD_BODY a b) n 0 c).length = c.length :=
  forLoopAux_store_length _ (fun j _ => load a j + load b j) 0
    (by intro j c; simp [ADD.ADD_BODY]) n c

theorem ADD_loop_load (a b : List α) (n : Nat) (c : List α) (q : Int) :
    load (forLoopAux (ADD.ADD_BODY a b) n 0 c) q
      = if 0 ≤ q ∧ q < n ∧ q < c.length then load a q + load b q else load c q := by
  rw [forLoopAux_store_load _ (fun j _ => load a j + load b j) 0
    (by intro j c; simp [ADD.ADD_BODY]) n c q]
  by_cases h : 0 ≤ q ∧ q < n ∧ q < c.length
  · rw [if_pos h, if_pos (by omega)]
    simp
  · rw [if_neg h, if_neg (by omega)]

theorem ADD_sweep_idempotent (iend : Int) (d : ADD.Data α) :
    ADD.sweep iend (ADD.sweep iend d) = ADD.sweep iend d := by
  simp only [ADD.sweep, forLoop_zero_toNat]
  congr 1
  apply list_ext_load
  · rw [ADD_loop_length]
  · intro q
    rw [ADD_loop_load, ADD_loop_length, ADD_loop_load]
    split <;> simp_all

end AddLemmas

/-- C6: for every `a`, `b`, `c` and every `N ≥ 1`, the `Baseline_Seq` block of ADD run
with `N` samples leaves exactly the members (`m_a`, `m_b`, `m_c`) that it leaves
when run with one sample. -/
theorem C6_add_repetition_idempotent {α C : Type} [Zero α] [Add α] (cfg : BuildConfig)
    (rt : Runtime (ADD.Data α)) (k : Kernel C (ADD.Data α)) (N : Int) (hN : 1 ≤ N) :
    (ADD.runKernel cfg rt VariantID.Baseline_Seq { k with run_reps := N }).data
      = (ADD.runKernel cfg rt VariantID.Baseline_Seq { k with run_reps := 1 }).data := by
  simp only [ADD.runKernel, timedReps_eq]
  rw [iterate_of_idempotent _ (ADD_sweep_idempotent _) _ (by omega)]
  rfl

set_option maxRecDepth 100000 in
/-- Witness for C6: five samples against one, at the example object. -/
theorem C6_add_repetition_idempotent_witness :
    (1 : Int) ≤ 5 ∧
    (ADD.runKernel hostBuild (idRuntime _) VariantID.Baseline_Seq
        { exADD with run_reps := 5 }).data
      = (ADD.runKernel hostBuild (idRuntime _) VariantID.Baseline_Seq
        { exADD with run_reps := 1 }).data ∧
    (ADD.runKernel hostBuild (idRuntime _) VariantID.Baseline_Seq
        { exADD with run_reps := 5 }).data
      = { m_a := [1, 2, 3], m_b := [10, 20, 30], m_c := [11, 22, 33] } :=
  ⟨by decide, C6_add_repetition_idempotent hostBuild (idRuntime _) exADD 5 (by decide),
    by decide⟩

/-! ## Loops that overwrite, and checked loops -/

section OverwriteLemmas

variable {α σ : Type}

theorem forLoopAux_overwrite_length [Zero α] (body : Int → List α → List α) (f : Int → α)
    (hbody : ∀ j b, body j b = store b j (f j)) (n : Nat) (b : List α) :
    (forLoopAux body n 0 b).length = b.length :=
  forLoopAux_store_length body (fun j _ => f j) 0 (by intro j b; simp [hbody]) n b

theorem forLoopAux_overwrite_load [Zero α] (body : Int → List α → List α) (f : Int → α)
    (hbody : ∀ j b, body j b = store b j (f j)) (n : Nat) (b : List α) (q : Int) :
    load (forLoopAux body n 0 b) q
      = if 0 ≤ q ∧ q < n ∧ q < b.length then f q else load b q := by
  rw [forLoopAux_store_load body (fun j _ => f j) 0 (by intro j b; simp [hbody]) n b q]
  by_cases h : 0 ≤ q ∧ q < n ∧ q < b.length
  · rw [if_pos h, if_pos (by omega)]
    simp
  · rw [if_neg h, if_neg (by omega)]

theorem forLoopAux_overwrite_idempotent [Zero α] (body : Int → List α → List α) (f : Int → α)
    (hbody : ∀ j b, body j b = store b j (f j)) (n : Nat) (b : List α) :
    forLoopAux body n 0 (forLoopAux body n 0 b) = forLoopAux body n 0 b := by
  apply list_ext_load
  · rw [forLoopAux_overwrite_length body f hbody]
  · intro q
    rw [forLoopAux_overwrite_load body f hbody, forLoopAux_overwrite_length body f hbody,
      forLoopAux_overwrite_load body f hbody]
    split <;> simp_all

theorem forLoopAuxChecked_eq (P : σ → Prop) (bodyC : Int → σ → Option σ) (body : Int → σ → σ)
    (n : Nat) (i : Int) (s : σ) (hs : P s)
    (h : ∀ j s, i ≤ j → j < i + n → P s → bodyC j s = some (body j s) ∧ P (body j s)) :
    forLoopAuxChecked bodyC n i s = some (forLoopAux body n i s) ∧
      P (forLoopAux body n i s) := by
  induction n generalizing i s with
  | zero => exact ⟨rfl, hs⟩
  | succ n ih =>
    obtain ⟨h1, h2⟩ := h i s (le_refl _) (by push_cast; omega) hs
    simp only [forLoopAuxChecked, forLoopAux, h1, Option.some_bind]
    exact ih (i + 1) (body i s) h2
      (fun j s hj1 hj2 hp => h j s (by omega) (by push_cast; omega) hp)

theorem loadChecked_eq [Zero α] (b : List α) (q : Int) (h0 : 0 ≤ q) (h1 : q < b.length) :
    loadChecked b q = some (load b q) := by
  have h2 : q.toNat < b.length := by omega
  simp [loadChecked, load, h0, List.getD_eq_getElem?_getD, List.getElem?_eq_getElem h2]

theorem storeChecked_eq (b : List α) (q : Int) (v : α) (h0 : 0 ≤ q) (h1 : q < b.length) :
    storeChecked b q v = some (store b q v) := by
  have h2 : q.toNat < b.length := by omega
  simp [storeChecked, store, h0, h2]

end OverwriteLemmas

/-! ## FIR: the window (C4, C5) -/

section FirLemmas

variable {α C : Type} [Ring α]

theorem FIR_coeff_length : (FIR.coeff_array : List α).length = 16 := rfl

theorem FIR_sweep_idempotent (iend : Int) (d : FIR.Data α) :
    FIR.sweep iend (FIR.sweep iend d) = FIR.sweep iend d := by
  simp only [FIR.sweep, forLoop_zero_toNat]
  congr 1
  exact forLoopAux_overwrite_idempotent _ (FIR.firSum FIR.coeff_array d.m_in d.m_coefflen)
    (fun _ _ => rfl) _ _

theorem FIR_sweep_load (iend : Int) (d : FIR.Data α) (q : Int) :
    load (FIR.sweep iend d).m_out q
      = if 0 ≤ q ∧ q < iend ∧ q < d.m_out.length
          then FIR.firSum FIR.coeff_array d.m_in d.m_coefflen q
        else load d.m_out q := by
  simp only [FIR.sweep, forLoop_zero_toNat]
  rw [forLoopAux_overwrite_load (FIR.FIR_BODY FIR.coeff_array d.m_in d.m_coefflen)
    (FIR.firSum FIR.coeff_array d.m_in d.m_coefflen) (fun _ _ => rfl)]
  by_cases h : 0 ≤ q ∧ q < iend ∧ q < d.m_out.length
  · rw [if_pos h, if_pos (by omega)]
  · rw [if_neg h, if_neg (by omega)]

theorem FIR_sweep_length (iend : Int) (d : FIR.Data α) :
    (FIR.sweep iend d).m_out.length = d.m_out.length := by
  simp only [FIR.sweep, forLoop_zero_toNat]
  exact forLoopAux_overwrite_length _ (FIR.firSum FIR.coeff_array d.m_in d.m_coefflen)
    (fun _ _ => rfl) _ _

theorem FIR_runKernel_Base_Seq (cfg : BuildConfig) (rt : Runtime (FIR.Data α))
    (k : Kernel C (FIR.Data α)) (hreps : 1 ≤ k.run_reps) :
    (FIR.runKernel cfg rt VariantID.Base_Seq k).data
      = FIR.sweep (k.run_size - k.data.m_coefflen) k.data := by
  simp only [FIR.runKernel, dispatch, timedReps_eq]
  rw [iterate_of_idempotent _ (FIR_sweep_idempotent _) _ (by omega)]

theorem FIR_logged_loop (coeff in_ : List α) (coefflen : Int) (n : Nat) (out : List α) :
    forLoopAux (FIR.FIR_BODY_logged coeff in_ coefflen) n 0 (out, [])
      = (forLoopAux (FIR.FIR_BODY coeff in_ coefflen) n 0 out,
          (List.range n).map Int.ofNat) := by
  induction n with
  | zero => rfl
  | succ n ih =>
    rw [forLoopAux_succ_right, ih, forLoopAux_succ_right]
    simp [FIR.FIR_BODY_logged, List.range_succ]

theorem FIR_sweepStores (iend : Int) (d : FIR.Data α) :
    FIR.sweepStores iend d = repIndices iend := by
  simp only [FIR.sweepStores, forLoop_zero_toNat, FIR_logged_loop, repIndices]

end FirLemmas

section FirChecked

variable {α C : Type} [Ring α]

theorem FIR_firSumChecked_eq (in_ : List α) (i : Int) (h0 : 0 ≤ i)
    (h1 : i + FIR.COEFFLEN ≤ in_.length) :
    FIR.firSumChecked FIR.coeff_array in_ FIR.COEFFLEN i
      = some (FIR.firSum FIR.coeff_array in_ FIR.COEFFLEN i) := by
  simp only [FIR.firSumChecked, FIR.firSum, forLoopChecked, forLoop]
  refine (forLoopAuxChecked_eq (fun _ => True) _ _ _ 0 0 trivial ?_).1
  intro j s hj0 hj1 _
  have hc : (FIR.COEFFLEN - 0).toNat = 16 := by decide
  rw [hc] at hj1
  have hcl : ((FIR.coeff_array : List α).length : Int) = 16 := by
    rw [FIR_coeff_length]; rfl
  have hC : FIR.COEFFLEN = 16 := rfl
  rw [loadChecked_eq _ j hj0 (by omega), loadChecked_eq _ (i + j) (by omega) (by omega)]
  exact ⟨rfl, trivial⟩

theorem FIR_sweepChecked_eq (N : Int) (d : FIR.Data α) (hL : d.m_coefflen = FIR.COEFFLEN)
    (hin : d.m_in.length = N.toNat) (hout : d.m_out.length = N.toNat) :
    FIR.sweepChecked (N - d.m_coefflen) d = some (FIR.sweep (N - d.m_coefflen) d) := by
  have hC : FIR.COEFFLEN = 16 := rfl
  simp only [FIR.sweepChecked, FIR.sweep, forLoopChecked, forLoop, hL]
  have h := forLoopAuxChecked_eq (fun out : List α => out.length = N.toNat)
    (FIR.FIR_BODY_checked FIR.coeff_array d.m_in FIR.COEFFLEN)
    (FIR.FIR_BODY FIR.coeff_array d.m_in FIR.COEFFLEN) (N - FIR.COEFFLEN - 0).toNat 0 d.m_out
    hout ?_
  · rw [h.1]; rfl
  · intro i out hi0 hi1 hlen
    have : FIR.firSumChecked FIR.coeff_array d.m_in FIR.COEFFLEN i
        = some (FIR.firSum FIR.coeff_array d.m_in FIR.COEFFLEN i) :=
      FIR_firSumChecked_eq d.m_in i hi0 (by omega)
    simp only [FIR.FIR_BODY_checked, FIR.FIR_BODY, this, Option.some_bind]
    exact ⟨storeChecked_eq _ _ _ hi0 (by omega), by rw [store_length]; exact hlen⟩

theorem FIR_runBaseSeqChecked_eq (cfg : BuildConfig) (rt : Runtime (FIR.Data α))
    (k : Kernel C (FIR.Data α)) (hL : k.data.m_coefflen = FIR.COEFFLEN)
    (hin : k.data.m_in.length = k.run_size.toNat)
    (hout : k.data.m_out.length = k.run_size.toNat) :
    FIR.runBaseSeqChecked k = some (FIR.runKernel cfg rt VariantID.Base_Seq k) := by
  simp only [FIR.runBaseSeqChecked, FIR.runKernel, dispatch, timedReps, forLoopChecked, forLoop]
  have h := forLoopAuxChecked_eq
    (fun s : Kernel C (FIR.Data α) => s.data.m_coefflen = FIR.COEFFLEN ∧
      s.data.m_in.length = k.run_size.toNat ∧ s.data.m_out.length = k.run_size.toNat)
    (fun irep s =>
      (FIR.sweepChecked (k.run_size - k.data.m_coefflen) s.data).map fun d =>
        { s.log (Event.sweep irep) with data := d })
    (fun irep s =>
      { s.log (Event.sweep irep) with
        data := FIR.sweep (k.run_size - k.data.m_coefflen) s.data })
    (k.run_reps - 0).toNat 0 (startTimer k) ⟨hL, hin, hout⟩ ?_
  · rw [h.1]; rfl
  · intro irep s _ _ hs
    obtain ⟨h1, h2, h3⟩ := hs
    have hsw := FIR_sweepChecked_eq k.run_size s.data h1 h2 h3
    rw [h1] at hsw
    dsimp only
    rw [hL, hsw]
    refine ⟨rfl, ?_, ?_, ?_⟩
    · simpa [FIR.sweep] using h1
    · simpa [FIR.sweep] using h2
    · simp only [FIR_sweep_length]; exact h3

end FirChecked

/-- C4: for FIR with window length `L = COEFFLEN = 16` and run size `N ≥ L`, after the
`Base_Seq` block has run at least one repetition, `out[i]` holds the window sum for
every `i` in `[0, N - L)` and is unchanged for every `i ≥ N - L`; one sweep assigns
to `out` at exactly the subscripts `0, ..., N - L - 1`, once each in this order,
which are `N - L` subscripts, the value `getItsPerRep` returns; the length of
`out` and the input buffer are unchanged. -/
theorem C4_fir_window_domain {α C : Type} [Ring α] (cfg : BuildConfig)
    (rt : Runtime (FIR.Data α)) (k : Kernel C (FIR.Data α))
    (hL : k.data.m_coefflen = FIR.COEFFLEN) (hN : FIR.COEFFLEN ≤ k.run_size)
    (hout : k.data.m_out.length = k.run_size.toNat) (hreps : 1 ≤ k.run_reps) :
    FIR.getItsPerRep k = k.run_size - FIR.COEFFLEN ∧
    FIR.sweepStores (k.run_size - k.data.m_coefflen) k.data
      = repIndices (k.run_size - FIR.COEFFLEN) ∧
    ((FIR.sweepStores (k.run_size - k.data.m_coefflen) k.data).length : Int)
      = k.run_size - FIR.COEFFLEN ∧
    (∀ i : Int, 0 ≤ i → i < k.run_size - FIR.COEFFLEN →
      load (FIR.runKernel cfg rt VariantID.Base_Seq k).data.m_out i
        = FIR.firSum FIR.coeff_array k.data.m_in FIR.COEFFLEN i) ∧
    (∀ i : Int, k.run_size - FIR.COEFFLEN ≤ i →
      load (FIR.runKernel cfg rt VariantID.Base_Seq k).data.m_out i = load k.data.m_out i) ∧
    (FIR.runKernel cfg rt VariantID.Base_Seq k).data.m_out.length = k.data.m_out.length ∧
    (FIR.runKernel cfg rt VariantID.Base_Seq k).data.m_in = k.data.m_in := by
  have hC : FIR.COEFFLEN = 16 := rfl
  rw [FIR_runKernel_Base_Seq cfg rt k hreps, hL]
  refine ⟨by simp [FIR.getItsPerRep, hL], FIR_sweepStores _ _, ?_, ?_, ?_,
    FIR_sweep_length _ _, rfl⟩
  · rw [FIR_sweepStores]
    simp only [repIndices, List.length_map, List.length_range]
    omega
  · intro i h0 h1
    rw [FIR_sweep_load, if_pos ⟨h0, h1, by omega⟩, hL]
  · intro i h1
    rw [FIR_sweep_load, if_neg (by omega)]

/-- C5: for every run size `N` (also `N < 16`), with `in` and `out` of `N` elements, the
`Base_Seq` block of FIR in which every subscript is checked fails nowhere: it
returns the result of the unchecked block.  For every pair `(i, j)` the loops
visit, `0 ≤ i + j < N`, `0 ≤ i < N` and `j < 16`, and the checked reads of
`in[i + j]` and `coeff[j]` and the checked write of `out[i]` succeed. -/
theorem C5_fir_no_out_of_bounds {α C : Type} [Ring α] (cfg : BuildConfig)
    (rt : Runtime (FIR.Data α)) (k : Kernel C (FIR.Data α))
    (hL : k.data.m_coefflen = FIR.COEFFLEN)
    (hin : k.data.m_in.length = k.run_size.toNat)
    (hout : k.data.m_out.length = k.run_size.toNat) :
    FIR.runBaseSeqChecked k = some (FIR.runKernel cfg rt VariantID.Base_Seq k) ∧
    (∀ i j : Int, 0 ≤ i → i < k.run_size - FIR.COEFFLEN → 0 ≤ j → j < FIR.COEFFLEN →
      (0 ≤ i + j ∧ i + j < k.run_size) ∧ (0 ≤ i ∧ i < k.run_size) ∧ j < 16 ∧
      loadChecked k.data.m_in (i + j) = some (load k.data.m_in (i + j)) ∧
      loadChecked (FIR.coeff_array : List α) j = some (load FIR.coeff_array j) ∧
      ∀ v : α, storeChecked k.data.m_out i v = some (store k.data.m_out i v)) := by
  have hC : FIR.COEFFLEN = 16 := rfl
  refine ⟨FIR_runBaseSeqChecked_eq cfg rt k hL hin hout, ?_⟩
  intro i j hi0 hi1 hj0 hj1
  have hcl : ((FIR.coeff_array : List α).length : Int) = 16 := by
    rw [FIR_coeff_length]; rfl
  refine ⟨⟨by omega, by omega⟩, ⟨hi0, by omega⟩, by omega,
    loadChecked_eq _ _ (by omega) (by omega), loadChecked_eq _ _ hj0 (by omega), ?_⟩
  intro v
  exact storeChecked_eq _ _ _ hi0 (by omega)

set_option maxRecDepth 100000 in
/-- Witness for C4: run size 18, so the valid domain is `{0, 1}`. -/
theorem C4_fir_window_domain_witness :
    exFIR.data.m_coefflen = FIR.COEFFLEN ∧ FIR.COEFFLEN ≤ exFIR.run_size ∧
    exFIR.data.m_out.length = exFIR.run_size.toNat ∧ 1 ≤ exFIR.run_reps ∧
    FIR.getItsPerRep exFIR = exFIR.run_size - FIR.COEFFLEN ∧
    FIR.sweepStores (exFIR.run_size - exFIR.data.m_coefflen) exFIR.data
      = repIndices (exFIR.run_size - FIR.COEFFLEN) ∧
    (FIR.runKernel hostBuild (idRuntime _) VariantID.Base_Seq exFIR).data.m_out
      = [160, 160, 7, 7, 7, 7, 7, 7, 7, 7, 7, 7, 7, 7, 7, 7, 7, 7] :=
  have h := C4_fir_window_domain hostBuild (idRuntime _) exFIR (by decide) (by decide)
    (by decide) (by decide)
  ⟨by decide, by decide, by decide, by decide, h.1, h.2.1, by decide⟩

set_option maxRecDepth 100000 in
/-- Witness for C5: run size 18 with buffers of 18 elements. -/
theorem C5_fir_no_out_of_bounds_witness :
    exFIR.data.m_coefflen = FIR.COEFFLEN ∧
    exFIR.data.m_in.length = exFIR.run_size.toNat ∧
    exFIR.data.m_out.length = exFIR.run_size.toNat ∧
    FIR.runBaseSeqChecked exFIR
      = some (FIR.runKernel hostBuild (idRuntime _) VariantID.Base_Seq exFIR) :=
  ⟨by decide, by decide, by decide,
    (C5_fir_no_out_of_bounds hostBuild (idRuntime _) exFIR (by decide) (by decide)
      (by decide)).1⟩

/-! ## POLYBENCH_2MM: the two products (C10) -/

section NestLemmas

variable {α : Type}

theorem store_store (b : List α) (p : Int) (v w : α) :
    store (store b p v) p w = store b p w := by
  unfold store
  split <;> simp

theorem store_of_not_inBounds (b : List α) (p : Int) (v : α)
    (h : ¬ (0 ≤ p ∧ p < b.length)) : store b p v = b := by
  unfold store
  split
  · next h0 =>
    apply List.set_eq_of_length_le
    omega
  · rfl

/-- A loop that adds `a k` into one cell `p`, started with `v` in the cell, leaves
`v` plus the sum of the `a k` there. -/
theorem cell_accumulate [Semiring α] (body : Int → List α → List α) (p : Int) (a : Int → α)
    (hbody : ∀ k t, body k t = store t p (load t p + a k)) (n : Nat) (t : List α) (v : α) :
    forLoopAux body n 0 (store t p v)
      = store t p (v + (Finset.range n).sum fun k => a (k : Int)) := by
  induction n with
  | zero => simp [forLoopAux]
  | succ n ih =>
    rw [forLoopAux_succ_right, ih, hbody, Finset.sum_range_succ, store_store, zero_add]
    by_cases hp : 0 ≤ p ∧ p < t.length
    · rw [load_store, if_pos ⟨rfl, hp⟩, add_assoc]
    · rw [store_of_not_inBounds _ _ _ hp, store_of_not_inBounds _ _ _ hp]

theorem row_major_lt (i j m n : Int) (hi : i < m) (hj : j < n) (hn : 0 ≤ n) :
    i * n + j < m * n := by
  have h1 : (i + 1) * n ≤ m * n := Int.mul_le_mul_of_nonneg_right (by omega) hn
  have h2 : (i + 1) * n = i * n + n := by ring
  omega

theorem row_major_nonneg (i j n : Int) (hi : 0 ≤ i) (hj : 0 ≤ j) (hn : 0 ≤ n) :
    0 ≤ i * n + j := by
  have := Int.mul_nonneg hi hn
  omega

/-- A two-level nest whose iteration `(i, j)` stores into `buf[i * n2 + j]` a value
computed from `(i, j)` and the old content of that cell: after `m` outer
iterations the cells of the first `m` rows hold the computed values and the cells
from `m * n2` on are untouched. -/
theorem nest_store [Zero α] (g : Int → Int → α → α) (n2 : Int) (hn2 : 0 ≤ n2)
    (body : Int → Int → List α → List α)
    (hbody : ∀ i j b, body i j b = store b (i * n2 + j) (g i j (load b (i * n2 + j))))
    (m : Nat) (b : List α) :
    (forLoopAux (fun i b => forLoop 0 n2 (body i) b) m 0 b).length = b.length ∧
    (∀ i j : Int, 0 ≤ i → i < m → 0 ≤ j → j < n2 → i * n2 + j < b.length →
      load (forLoopAux (fun i b => forLoop 0 n2 (body i) b) m 0 b) (i * n2 + j)
        = g i j (load b (i * n2 + j))) ∧
    (∀ q : Int, (m : Int) * n2 ≤ q →
      load (forLoopAux (fun i b => forLoop 0 n2 (body i) b) m 0 b) q = load b q) := by
  induction m with
  | zero =>
    refine ⟨rfl, ?_, fun _ _ => rfl⟩
    intro i j h0 h1
    simp at h1
    omega
  | succ m ih =>
    obtain ⟨ihlen, ihrow, ihrest⟩ := ih
    rw [forLoopAux_succ_right, forLoop_zero_toNat]
    have hrow : ∀ j b, body (0 + (m : Int)) j b
        = store b ((m : Int) * n2 + j) (g m j (load b ((m : Int) * n2 + j))) := by
      intro j b
      rw [hbody, zero_add]
    have hlen := forLoopAux_store_length (body (0 + (m : Int))) (g m) ((m : Int) * n2) hrow
      n2.toNat (forLoopAux (fun i b => forLoop 0 n2 (body i) b) m 0 b)
    have hload := forLoopAux_store_load (body (0 + (m : Int))) (g m) ((m : Int) * n2) hrow
      n2.toNat (forLoopAux (fun i b => forLoop 0 n2 (body i) b) m 0 b)
    have hm0 : (0 : Int) ≤ (m : Int) * n2 := Int.mul_nonneg (by omega) hn2
    have hsucc : ((m + 1 : Nat) : Int) * n2 = (m : Int) * n2 + n2 := by push_cast; ring
    refine ⟨hlen.trans ihlen, ?_, ?_⟩
    · intro i j hi0 hi1 hj0 hj1 hb
      rw [hload, ihlen]
      by_cases him : i < m
      · have hlt := row_major_lt i j m n2 him hj1 hn2
        rw [if_neg (by omega)]
        exact ihrow i j hi0 him hj0 hj1 hb
      · have hi : i = m := by push_cast at hi1; omega
        subst hi
        have h00 := row_major_nonneg (m : Int) j n2 hi0 hj0 hn2
        rw [if_pos ⟨by omega, by omega, h00, hb⟩, ihrest _ (by omega)]
        congr 1
        omega
    · intro q hq
      rw [hload, if_neg (by omega)]
      exact ihrest q (by omega)

end NestLemmas

theorem memcpy_full {β : Type} (dst src : List β) (n : Int) (hdst : (dst.length : Int) = n)
    (hsrc : (src.length : Int) = n) : memcpy dst src n = src := by
  have h1 : n.toNat = src.length := by omega
  have h2 : n.toNat = dst.length := by omega
  rw [memcpy, h1, List.take_length, ← h1, h2, List.drop_length, List.append_nil]

section TwoMMLemmas

open POLYBENCH_2MM

variable {α : Type} [CommSemiring α]

/-- The value the first nest leaves in `tmp[i][j]`. -/
theorem nest1_cell (alpha : α) (A B : List α) (nj nk i j : Int) (t : List α) :
    forLoop 0 nk (fun k tmp => POLYBENCH_2MM_BODY2 alpha A B nj nk i j k tmp)
        (POLYBENCH_2MM_BODY1 nj i j t)
      = store t (i * nj + j)
          ((Finset.range nk.toNat).sum fun k : Nat =>
            alpha * load A (i * nk + k) * load B (k * nj + j)) := by
  rw [forLoop_zero_toNat, POLYBENCH_2MM_BODY1,
    cell_accumulate (fun k tmp => POLYBENCH_2MM_BODY2 alpha A B nj nk i j k tmp) (i * nj + j)
      (fun k => alpha * load A (i * nk + k) * load B (k * nj + j)) (fun _ _ => rfl), zero_add]

/-- The value the second nest leaves in `D[i][l]`. -/
theorem nest2_cell (beta : α) (tmp Cm : List α) (nj nl i l : Int) (D : List α) :
    forLoop 0 nj (fun j D => POLYBENCH_2MM_BODY4 tmp Cm nj nl i l j D)
        (POLYBENCH_2MM_BODY3 beta nl i l D)
      = store D (i * nl + l)
          (load D (i * nl + l) * beta +
            (Finset.range nj.toNat).sum fun j : Nat =>
              load tmp (i * nj + j) * load Cm (j * nl + l)) := by
  rw [forLoop_zero_toNat, POLYBENCH_2MM_BODY3,
    cell_accumulate (fun j D => POLYBENCH_2MM_BODY4 tmp Cm nj nl i l j D) (i * nl + l)
      (fun j => load tmp (i * nj + j) * load Cm (j * nl + l)) (fun _ _ => rfl)]

theorem loopNest1_spec (alpha : α) (A B : List α) (ni nj nk : Int) (tmp : List α)
    (hnj : 0 ≤ nj) (htmp : (tmp.length : Int) = ni * nj) :
    (loopNest1 alpha A B ni nj nk tmp).length = tmp.length ∧
    ∀ i j : Int, 0 ≤ i → i < ni → 0 ≤ j → j < nj →
      load (loopNest1 alpha A B ni nj nk tmp) (i * nj + j)
        = (Finset.range nk.toNat).sum fun k : Nat =>
            alpha * load A (i * nk + k) * load B (k * nj + j) := by
  have h := nest_store
    (fun i j _ => (Finset.range nk.toNat).sum fun k : Nat =>
      alpha * load A (i * nk + k) * load B (k * nj + j)) nj hnj
    (fun i j t => forLoop 0 nk (fun k tmp => POLYBENCH_2MM_BODY2 alpha A B nj nk i j k tmp)
        (POLYBENCH_2MM_BODY1 nj i j t))
    (fun i j b => nest1_cell alpha A B nj nk i j b) ni.toNat tmp
  rw [loopNest1, forLoop_zero_toNat]
  refine ⟨h.1, ?_⟩
  intro i j hi0 hi1 hj0 hj1
  have hlt := row_major_lt i j ni nj hi1 hj1 hnj
  exact h.2.1 i j hi0 (by omega) hj0 hj1 (by omega)

theorem loopNest2_spec (beta : α) (tmp Cm : List α) (ni nj nl : Int) (D : List α)
    (hnl : 0 ≤ nl) (hD : (D.length : Int) = ni * nl) :
    (loopNest2 beta tmp Cm ni nj nl D).length = D.length ∧
    ∀ i l : Int, 0 ≤ i → i < ni → 0 ≤ l → l < nl →
      load (loopNest2 beta tmp Cm ni nj nl D) (i * nl + l)
        = load D (i * nl + l) * beta +
            (Finset.range nj.toNat).sum fun j : Nat =>
              load tmp (i * nj + j) * load Cm (j * nl + l) := by
  have h := nest_store
    (fun i l old => old * beta + (Finset.range nj.toNat).sum fun j : Nat =>
      load tmp (i * nj + j) * load Cm (j * nl + l)) nl hnl
    (fun i l D => forLoop 0 nj (fun j D => POLYBENCH_2MM_BODY4 tmp Cm nj nl i l j D)
        (POLYBENCH_2MM_BODY3 beta nl i l D))
    (fun i l b => nest2_cell beta tmp Cm nj nl i l b) ni.toNat D
  rw [loopNest2, forLoop_zero_toNat]
  refine ⟨h.1, ?_⟩
  intro i l hi0 hi1 hl0 hl1
  have hlt := row_major_lt i l ni nl hi1 hl1 hnl
  exact h.2.1 i l hi0 (by omega) hl0 hl1 (by omega)

/-- What one sweep leaves, for members of the declared extents. -/
theorem sweep_spec (d : Data α) (hnj : 0 ≤ d.m_nj) (hnl : 0 ≤ d.m_nl)
    (htmp : (d.m_tmp.length : Int) = d.m_ni * d.m_nj)
    (hD : (d.m_D.length : Int) = d.m_ni * d.m_nl)
    (hDD : (d.m_DD.length : Int) = d.m_ni * d.m_nl) :
    sweep d = { d with m_tmp := (sweep d).m_tmp, m_D := (sweep d).m_D } ∧
    (sweep d).m_tmp.length = d.m_tmp.length ∧
    (sweep d).m_D.length = d.m_D.length ∧
    (∀ i j : Int, 0 ≤ i → i < d.m_ni → 0 ≤ j → j < d.m_nj →
      load (sweep d).m_tmp (i * d.m_nj + j)
        = (Finset.range d.m_nk.toNat).sum fun k : Nat =>
            d.m_alpha * load d.m_A (i * d.m_nk + k) * load d.m_B (k * d.m_nj + j)) ∧
    (∀ i l : Int, 0 ≤ i → i < d.m_ni → 0 ≤ l → l < d.m_nl →
      load (sweep d).m_D (i * d.m_nl + l)
        = d.m_beta * load d.m_DD (i * d.m_nl + l) +
            (Finset.range d.m_nj.toNat).sum fun j : Nat =>
              load (sweep d).m_tmp (i * d.m_nj + j) * load d.m_C (j * d.m_nl + l)) := by
  have h1 := loopNest1_spec d.m_alpha d.m_A d.m_B d.m_ni d.m_nj d.m_nk d.m_tmp hnj htmp
  have h2 := loopNest2_spec d.m_beta
    (loopNest1 d.m_alpha d.m_A d.m_B d.m_ni d.m_nj d.m_nk d.m_tmp) d.m_C d.m_ni d.m_nj d.m_nl
    d.m_DD hnl hDD
  simp only [sweep, memcpy_full d.m_D d.m_DD _ hD hDD]
  refine ⟨trivial, h1.1, ?_, h1.2, ?_⟩
  · rw [h2.1]; omega
  · intro i l hi0 hi1 hl0 hl1
    rw [h2.2 i l hi0 hi1 hl0 hl1, mul_comm]

end TwoMMLemmas

section TwoMMIterate

open POLYBENCH_2MM

variable {α : Type} [CommSemiring α]

/-- Repeated sweeps change only `m_tmp` and `m_D`, and keep their lengths. -/
theorem sweep_iterate_frame (d : Data α) (hnj : 0 ≤ d.m_nj) (hnl : 0 ≤ d.m_nl)
    (htmp : (d.m_tmp.length : Int) = d.m_ni * d.m_nj)
    (hD : (d.m_D.length : Int) = d.m_ni * d.m_nl)
    (hDD : (d.m_DD.length : Int) = d.m_ni * d.m_nl) (n : Nat) :
    sweep^[n] d = { d with m_tmp := (sweep^[n] d).m_tmp, m_D := (sweep^[n] d).m_D } ∧
    (sweep^[n] d).m_tmp.length = d.m_tmp.length ∧
    (sweep^[n] d).m_D.length = d.m_D.length := by
  induction n with
  | zero => exact ⟨rfl, rfl, rfl⟩
  | succ n ih =>
    obtain ⟨h1, h2, h3⟩ := ih
    rw [Function.iterate_succ_apply']
    generalize sweep^[n] d = e at h1 h2 h3
    have hs := sweep_spec e (by rw [h1]; exact hnj) (by rw [h1]; exact hnl)
      (by rw [h2, h1]; exact htmp) (by rw [h3, h1]; exact hD) (by rw [h1]; exact hDD)
    refine ⟨?_, hs.2.1.trans h2, hs.2.2.1.trans h3⟩
    rw [hs.1, h1]

end TwoMMIterate

/-- C10: for POLYBENCH_2MM with `m_tmp` of `ni * nj` elements and `m_D`, `m_DD` of
`ni * nl` elements (row-major; `nj, nl ≥ 0`), after the `Base_Seq` block has run at
least one repetition, over exact arithmetic, `tmp[i][j]` is the sum over `k` of
`alpha * A[i][k] * B[k][j]` for all `i < ni`, `j < nj`, and `D[i][l]` is
`beta * DD[i][l]` plus the sum over `j` of `tmp[i][j] * C[j][l]` for all `i < ni`,
`l < nl`; `m_A`, `m_B`, `m_C`, `m_DD`, the scalars and the extents are unchanged. -/
theorem C10_2mm_product {α C : Type} [CommSemiring α] (cfg : BuildConfig)
    (rt : Runtime (POLYBENCH_2MM.Data α)) (k : Kernel C (POLYBENCH_2MM.Data α))
    (hnj : 0 ≤ k.data.m_nj) (hnl : 0 ≤ k.data.m_nl)
    (htmp : (k.data.m_tmp.length : Int) = k.data.m_ni * k.data.m_nj)
    (hD : (k.data.m_D.length : Int) = k.data.m_ni * k.data.m_nl)
    (hDD : (k.data.m_DD.length : Int) = k.data.m_ni * k.data.m_nl)
    (hreps : 1 ≤ k.run_reps) :
    (∀ i j : Int, 0 ≤ i → i < k.data.m_ni → 0 ≤ j → j < k.data.m_nj →
      load (POLYBENCH_2MM.runKernel cfg rt VariantID.Base_Seq k).data.m_tmp
          (i * k.data.m_nj + j)
        = (Finset.range k.data.m_nk.toNat).sum fun kk : Nat =>
            k.data.m_alpha * load k.data.m_A (i * k.data.m_nk + kk)
              * load k.data.m_B (kk * k.data.m_nj + j)) ∧
    (∀ i l : Int, 0 ≤ i → i < k.data.m_ni → 0 ≤ l → l < k.data.m_nl →
      load (POLYBENCH_2MM.runKernel cfg rt VariantID.Base_Seq k).data.m_D
          (i * k.data.m_nl + l)
        = k.data.m_beta * load k.data.m_DD (i * k.data.m_nl + l) +
            (Finset.range k.data.m_nj.toNat).sum fun j : Nat =>
              load (POLYBENCH_2MM.runKernel cfg rt VariantID.Base_Seq k).data.m_tmp
                  (i * k.data.m_nj + j)
                * load k.data.m_C (j * k.data.m_nl + l)) ∧
    (POLYBENCH_2MM.runKernel cfg rt VariantID.Base_Seq k).data
      = { k.data with
          m_tmp := (POLYBENCH_2MM.runKernel cfg rt VariantID.Base_Seq k).data.m_tmp
          m_D := (POLYBENCH_2MM.runKernel cfg rt VariantID.Base_Seq k).data.m_D } ∧
    (POLYBENCH_2MM.runKernel cfg rt VariantID.Base_Seq k).data.m_tmp.length
      = k.data.m_tmp.length ∧
    (POLYBENCH_2MM.runKernel cfg rt VariantID.Base_Seq k).data.m_D.length
      = k.data.m_D.length := by
  obtain ⟨n, hn⟩ : ∃ n : Nat, k.run_reps.toNat = n + 1 := ⟨k.run_reps.toNat - 1, by omega⟩
  have hrun : (POLYBENCH_2MM.runKernel cfg rt VariantID.Base_Seq k).data
      = POLYBENCH_2MM.sweep (POLYBENCH_2MM.sweep^[n] k.data) := by
    simp only [POLYBENCH_2MM.runKernel, dispatch, timedReps_eq, hn]
    rw [Function.iterate_succ_apply']
  obtain ⟨h1, h2, h3⟩ := sweep_iterate_frame k.data hnj hnl htmp hD hDD n
  rw [hrun]
  generalize POLYBENCH_2MM.sweep^[n] k.data = e at h1 h2 h3
  have hs := sweep_spec e (by rw [h1]; exact hnj) (by rw [h1]; exact hnl)
    (by rw [h2, h1]; exact htmp) (by rw [h3, h1]; exact hD) (by rw [h1]; exact hDD)
  obtain ⟨s1, s2, s3, s4, s5⟩ := hs
  have e_ni : e.m_ni = k.data.m_ni := by rw [h1]
  have e_nj : e.m_nj = k.data.m_nj := by rw [h1]
  have e_nk : e.m_nk = k.data.m_nk := by rw [h1]
  have e_nl : e.m_nl = k.data.m_nl := by rw [h1]
  have e_al : e.m_alpha = k.data.m_alpha := by rw [h1]
  have e_be : e.m_beta = k.data.m_beta := by rw [h1]
  have e_A : e.m_A = k.data.m_A := by rw [h1]
  have e_B : e.m_B = k.data.m_B := by rw [h1]
  have e_C : e.m_C = k.data.m_C := by rw [h1]
  have e_DD : e.m_DD = k.data.m_DD := by rw [h1]
  rw [e_ni, e_nj, e_nk, e_al, e_A, e_B] at s4
  rw [e_ni, e_nj, e_nl, e_be, e_C, e_DD] at s5
  refine ⟨s4, s5, ?_, s2.trans h2, s3.trans h3⟩
  rw [s1, h1]

set_option maxRecDepth 100000 in
/-- Witness for C10: 2 x 2 matrices, two repetitions. -/
theorem C10_2mm_product_witness :
    0 ≤ ex2MM.data.m_nj ∧ 0 ≤ ex2MM.data.m_nl ∧
    (ex2MM.data.m_tmp.length : Int) = ex2MM.data.m_ni * ex2MM.data.m_nj ∧
    (ex2MM.data.m_D.length : Int) = ex2MM.data.m_ni * ex2MM.data.m_nl ∧
    (ex2MM.data.m_DD.length : Int) = ex2MM.data.m_ni * ex2MM.data.m_nl ∧
    1 ≤ ex2MM.run_reps ∧
    (load (POLYBENCH_2MM.runKernel hostBuild (idRuntime _) VariantID.Base_Seq ex2MM).data.m_D
        (0 * ex2MM.data.m_nl + 1)
      = ex2MM.data.m_beta * load ex2MM.data.m_DD (0 * ex2MM.data.m_nl + 1) +
          (Finset.range ex2MM.data.m_nj.toNat).sum fun j : Nat =>
            load (POLYBENCH_2MM.runKernel hostBuild (idRuntime _) VariantID.Base_Seq
                ex2MM).data.m_tmp (0 * ex2MM.data.m_nj + j)
              * load ex2MM.data.m_C (j * ex2MM.data.m_nl + 1)) ∧
    (POLYBENCH_2MM.runKernel hostBuild (idRuntime _) VariantID.Base_Seq ex2MM).data.m_tmp
      = [2, 4, 6, 8] ∧
    (POLYBENCH_2MM.runKernel hostBuild (idRuntime _) VariantID.Base_Seq ex2MM).data.m_D
      = [5, 12, 15, 26] :=
  ⟨by decide, by decide, by decide, by decide, by decide, by decide,
    (C10_2mm_product hostBuild (idRuntime _) ex2MM (by decide) (by decide) (by decide)
      (by decide) (by decide) (by decide)).2.1 0 1 (by decide) (by decide) (by decide)
      (by decide),
    by decide, by decide⟩

set_option maxRecDepth 100000 in
/-- The checked block does fail when a buffer is too short: with 16 input elements
for run size 18, the read `in[1 + 15]` is outside the buffer. -/
theorem FIR_checked_fails_on_short_input :
    (FIR.runBaseSeqChecked exFIRshort).isNone = true ∧
    loadChecked exFIRshort.data.m_in (1 + 15) = none := by
  decide

/-! ## POLYBENCH_2MM: the one-dimensional sweeps (C11) -/

section FlatLemmas

variable {α : Type}

/-- A one-dimensional loop over `[0, m * n2)` whose iteration `ii` stores into
`buf[ii]` the value computed for `(ii / n2, ii % n2)` leaves what the two-level
nest over `[0, m)` and `[0, n2)` leaves. -/
theorem flat_eq_nest [Zero α] (G : Int → Int → α → α) (m n2 : Int) (hm : 0 ≤ m) (hn2 : 0 < n2)
    (body : Int → Int → List α → List α)
    (hbody : ∀ i j b, body i j b = store b (i * n2 + j) (G i j (load b (i * n2 + j))))
    (fbody : Int → List α → List α)
    (hf : ∀ ii b, fbody ii b
      = store b ii (G (Int.tdiv ii n2) (Int.tmod ii n2) (load b ii)))
    (b : List α) :
    forLoop 0 (m * n2) fbody b = forLoop 0 m (fun i b => forLoop 0 n2 (body i) b) b := by
  have hmn : 0 ≤ m * n2 := Int.mul_nonneg hm (by omega)
  obtain ⟨nlen, nrow, nrest⟩ := nest_store G n2 (by omega) body hbody m.toNat b
  have hfl := forLoopAux_store_length fbody
    (fun ii old => G (Int.tdiv ii n2) (Int.tmod ii n2) old) 0
    (by intro j b; rw [hf, zero_add]) (m * n2).toNat b
  have hfload := forLoopAux_store_load fbody
    (fun ii old => G (Int.tdiv ii n2) (Int.tmod ii n2) old) 0
    (by intro j b; rw [hf, zero_add]) (m * n2).toNat b
  rw [forLoop_zero_toNat, forLoop_zero_toNat]
  apply list_ext_load
  · rw [hfl, nlen]
  · intro q
    rw [hfload q]
    have hmcast : ((m.toNat : Nat) : Int) = m := by omega
    by_cases hq0 : q < 0
    · rw [if_neg (by omega), load_of_neg _ _ hq0, load_of_neg _ _ hq0]
    · by_cases hq1 : m * n2 ≤ q
      · rw [if_neg (by omega), nrest q (by rw [hmcast]; exact hq1)]
      · by_cases hq2 : q < b.length
        · rw [if_pos ⟨by omega, by omega, by omega, hq2⟩]
          have hd := Int.ediv_add_emod' q n2
          have hr0 := Int.emod_nonneg q (show n2 ≠ 0 by omega)
          have hr1 := Int.emod_lt_of_pos q hn2
          have hi0 : 0 ≤ q / n2 := Int.ediv_nonneg (by omega) (by omega)
          have hi1 : q / n2 < m := Int.ediv_lt_of_lt_mul hn2 (by omega)
          have ht1 : Int.tdiv q n2 = q / n2 := Int.tdiv_eq_ediv (by omega) (by omega)
          have ht2 : Int.tmod q n2 = q % n2 := Int.tmod_eq_emod (by omega) (by omega)
          have := nrow (q / n2) (q % n2) hi0 (by omega) hr0 hr1 (by omega)
          rw [hd] at this
          rw [this, sub_zero, ht1, ht2]
        · rw [if_neg (by omega), load_of_length_le _ _ (by omega),
            load_of_length_le _ _ (by rw [nlen]; omega)]

end FlatLemmas

section FlatTwoMM

open POLYBENCH_2MM

variable {α : Type} [CommSemiring α]

theorem flatBody1_eq (alpha : α) (A B : List α) (nj nk ii : Int) (t : List α) :
    flatBody1 alpha A B nj nk ii t
      = store t ii
          ((Finset.range nk.toNat).sum fun k : Nat =>
            alpha * load A (Int.tdiv ii nj * nk + k) * load B (k * nj + Int.tmod ii nj)) := by
  have h := nest1_cell alpha A B nj nk (Int.tdiv ii nj) (Int.tmod ii nj) t
  rw [POLYBENCH_2MM_BODY1, Int.tdiv_add_tmod'] at h
  exact h

theorem flatBody2_eq (beta : α) (tmp Cm : List α) (nj nl ii : Int) (D : List α) :
    flatBody2 beta tmp Cm nj nl ii D
      = store D ii
          (load D ii * beta +
            (Finset.range nj.toNat).sum fun j : Nat =>
              load tmp (Int.tdiv ii nl * nj + j) * load Cm (j * nl + Int.tmod ii nl)) := by
  have h := nest2_cell beta tmp Cm nj nl (Int.tdiv ii nl) (Int.tmod ii nl) D
  rw [POLYBENCH_2MM_BODY3, Int.tdiv_add_tmod'] at h
  exact h

theorem flatNest1_eq (alpha : α) (A B : List α) (ni nj nk : Int) (tmp : List α)
    (hni : 0 ≤ ni) (hnj : 0 < nj) :
    flatNest1 alpha A B ni nj nk tmp = loopNest1 alpha A B ni nj nk tmp :=
  flat_eq_nest
    (fun i j _ => (Finset.range nk.toNat).sum fun k : Nat =>
      alpha * load A (i * nk + k) * load B (k * nj + j)) ni nj hni hnj
    (fun i j t => forLoop 0 nk (fun k tmp => POLYBENCH_2MM_BODY2 alpha A B nj nk i j k tmp)
        (POLYBENCH_2MM_BODY1 nj i j t))
    (fun i j b => nest1_cell alpha A B nj nk i j b)
    (flatBody1 alpha A B nj nk) (fun ii b => flatBody1_eq alpha A B nj nk ii b) tmp

theorem flatNest2_eq (beta : α) (tmp Cm : List α) (ni nj nl : Int) (D : List α)
    (hni : 0 ≤ ni) (hnl : 0 < nl) :
    flatNest2 beta tmp Cm ni nj nl D = loopNest2 beta tmp Cm ni nj nl D :=
  flat_eq_nest
    (fun i l old => old * beta + (Finset.range nj.toNat).sum fun j : Nat =>
      load tmp (i * nj + j) * load Cm (j * nl + l)) ni nl hni hnl
    (fun i l D => forLoop 0 nj (fun j D => POLYBENCH_2MM_BODY4 tmp Cm nj nl i l j D)
        (POLYBENCH_2MM_BODY3 beta nl i l D))
    (fun i l b => nest2_cell beta tmp Cm nj nl i l b)
    (flatBody2 beta tmp Cm nj nl) (fun ii b => flatBody2_eq beta tmp Cm nj nl ii b) D

theorem sweep_iterate_dims (d : Data α) (n : Nat) :
    (sweep^[n] d).m_ni = d.m_ni ∧ (sweep^[n] d).m_nj = d.m_nj ∧ (sweep^[n] d).m_nl = d.m_nl := by
  induction n with
  | zero => exact ⟨rfl, rfl, rfl⟩
  | succ n ih =>
    rw [Function.iterate_succ_apply']
    exact ih

theorem sweepFlat_eq (d : Data α) (hni : 0 ≤ d.m_ni) (hnj : 0 < d.m_nj) (hnl : 0 < d.m_nl) :
    sweepFlat d = sweep d := by
  simp only [sweepFlat, sweep, flatNest1_eq _ _ _ _ _ _ _ hni hnj,
    flatNest2_eq _ _ _ _ _ _ _ hni hnl]

end FlatTwoMM

/-- C11: for POLYBENCH_2MM with `ni ≥ 0` and `nj > 0` (any `nk`, any `nl`), over exact
arithmetic, the first one-dimensional sweep of the device and offload blocks
(index `ii` in `[0, ni * nj)` with `i = ii / nj`, `j = ii % nj`) leaves in `tmp`
exactly what the nested `i`/`j`/`k` loops of the `Base_Seq` block leave; when also
`nl > 0`, the second one (`ii` in `[0, ni * nl)` with `i = ii / nl`, `l = ii % nl`)
leaves in `D` what the nested `i`/`l`/`j` loops leave, for every content of the
buffers; so does one repetition built from the two, and so do `N` repetitions. -/
theorem C11_2mm_flat_equals_nested {α : Type} [CommSemiring α] (d : POLYBENCH_2MM.Data α)
    (N : Nat) (hni : 0 ≤ d.m_ni) (hnj : 0 < d.m_nj) :
    (∀ tmp : List α,
      POLYBENCH_2MM.flatNest1 d.m_alpha d.m_A d.m_B d.m_ni d.m_nj d.m_nk tmp
        = POLYBENCH_2MM.loopNest1 d.m_alpha d.m_A d.m_B d.m_ni d.m_nj d.m_nk tmp) ∧
    (0 < d.m_nl →
      (∀ tmp D : List α,
        POLYBENCH_2MM.flatNest2 d.m_beta tmp d.m_C d.m_ni d.m_nj d.m_nl D
          = POLYBENCH_2MM.loopNest2 d.m_beta tmp d.m_C d.m_ni d.m_nj d.m_nl D) ∧
      POLYBENCH_2MM.sweepFlat d = POLYBENCH_2MM.sweep d ∧
      POLYBENCH_2MM.sweepFlat^[N] d = POLYBENCH_2MM.sweep^[N] d) := by
  refine ⟨fun tmp => flatNest1_eq _ _ _ _ _ _ tmp hni hnj, fun hnl =>
    ⟨fun tmp D => flatNest2_eq _ _ _ _ _ _ D hni hnl, sweepFlat_eq d hni hnj hnl, ?_⟩⟩
  induction N with
  | zero => rfl
  | succ n ih =>
    rw [Function.iterate_succ_apply', Function.iterate_succ_apply', ih]
    obtain ⟨h1, h2, h3⟩ := sweep_iterate_dims d n
    exact sweepFlat_eq _ (by rw [h1]; exact hni) (by rw [h2]; exact hnj) (by rw [h3]; exact hnl)

set_option maxRecDepth 100000 in
/-- Witness for C11: 2 x 2 matrices. -/
theorem C11_2mm_flat_equals_nested_witness :
    0 ≤ ex2MM.data.m_ni ∧ 0 < ex2MM.data.m_nj ∧ 0 < ex2MM.data.m_nl ∧
    POLYBENCH_2MM.sweepFlat ex2MM.data = POLYBENCH_2MM.sweep ex2MM.data ∧
    (POLYBENCH_2MM.sweepFlat ex2MM.data).m_D = [5, 12, 15, 26] :=
  ⟨by decide, by decide, by decide,
    ((C11_2mm_flat_equals_nested ex2MM.data 1 (by decide) (by decide)).2 (by decide)).2.1,
    by decide⟩

/-! ## REDUCE3_INT: order independence (C12) -/

section PermLemmas

open REDUCE3_INT

/-- A loop that folds `buf[0], buf[1], ...` into an accumulator is the left fold of
the buffer. -/
theorem forLoopAux_foldl {β : Type} (step : β → Int → β) (vec : List Int) (n : Nat)
    (hn : n ≤ vec.length) (acc : β) :
    forLoopAux (fun i r => step r (load vec i)) n 0 acc = (vec.take n).foldl step acc := by
  induction n with
  | zero => simp [forLoopAux]
  | succ n ih =>
    have hlt : n < vec.length := by omega
    have htake : vec.take (n + 1) = vec.take n ++ [vec[n]] := by
      rw [List.take_succ, List.getElem?_eq_getElem hlt]
      rfl
    rw [forLoopAux_succ_right, ih (by omega), htake, List.foldl_append, zero_add,
      load_eq_getElem vec n hlt]
    rfl

theorem reduce_foldl (iend : Int) (d : Data) (hlen : d.m_vec.length = iend.toNat) :
    reduce iend d
      = d.m_vec.foldl
          (fun r v => { vsum := r.vsum + v, vmin := RAJA_MIN r.vmin v,
                        vmax := RAJA_MAX r.vmax v })
          { vsum := d.m_vsum_init, vmin := d.m_vmin_init, vmax := d.m_vmax_init } := by
  rw [reduce, forLoop_zero_toNat]
  have h := forLoopAux_foldl
    (fun (r : Acc) (v : Int) => Acc.mk (r.vsum + v) (RAJA_MIN r.vmin v) (RAJA_MAX r.vmax v))
    d.m_vec iend.toNat (by omega)
    { vsum := d.m_vsum_init, vmin := d.m_vmin_init, vmax := d.m_vmax_init }
  rw [← hlen, List.take_length] at h
  rw [← hlen]
  exact h

theorem reduceWrap_foldl (iend : Int) (d : Data) (hlen : d.m_vec.length = iend.toNat) :
    reduceWrap iend d
      = d.m_vec.foldl
          (fun r v => { vsum := wrapInt (r.vsum + v), vmin := RAJA_MIN r.vmin v,
                        vmax := RAJA_MAX r.vmax v })
          { vsum := d.m_vsum_init, vmin := d.m_vmin_init, vmax := d.m_vmax_init } := by
  rw [reduceWrap, forLoop_zero_toNat]
  have h := forLoopAux_foldl
    (fun (r : Acc) (v : Int) =>
      Acc.mk (wrapInt (r.vsum + v)) (RAJA_MIN r.vmin v) (RAJA_MAX r.vmax v))
    d.m_vec iend.toNat (by omega)
    { vsum := d.m_vsum_init, vmin := d.m_vmin_init, vmax := d.m_vmax_init }
  rw [← hlen, List.take_length] at h
  rw [← hlen]
  exact h

theorem wrapInt_add_wrapInt (a b : Int) : wrapInt (wrapInt a + b) = wrapInt (a + b) := by
  simp only [wrapInt, Int_type_min]
  omega

theorem wrapInt_congr (a : Int) : (wrapInt a - a) % 4294967296 = 0 := by
  simp only [wrapInt, Int_type_min]
  omega

theorem wrapInt_range (a : Int) : Int_type_min ≤ wrapInt a ∧ wrapInt a ≤ Int_type_max := by
  simp only [wrapInt, Int_type_min, Int_type_max]
  omega

theorem reduce_perm (iend : Int) (d : Data) (vec2 : List Int) (hperm : d.m_vec.Perm vec2)
    (hlen : d.m_vec.length = iend.toNat) :
    reduce iend { d with m_vec := vec2 } = reduce iend d := by
  rw [reduce_foldl iend d hlen, reduce_foldl iend _ (by simpa [hperm.length_eq] using hlen)]
  symm
  apply List.Perm.foldl_eq' hperm
  intro x _ y _ z
  simp only [RAJA_MIN_eq_min, RAJA_MAX_eq_max, Acc.mk.injEq]
  exact ⟨add_right_comm _ _ _, min_right_comm _ _ _, by rw [max_assoc, max_comm x y, ← max_assoc]⟩

theorem reduceWrap_perm (iend : Int) (d : Data) (vec2 : List Int) (hperm : d.m_vec.Perm vec2)
    (hlen : d.m_vec.length = iend.toNat) :
    reduceWrap iend { d with m_vec := vec2 } = reduceWrap iend d := by
  rw [reduceWrap_foldl iend d hlen,
    reduceWrap_foldl iend _ (by simpa [hperm.length_eq] using hlen)]
  symm
  apply List.Perm.foldl_eq' hperm
  intro x _ y _ z
  simp only [RAJA_MIN_eq_min, RAJA_MAX_eq_max, Acc.mk.injEq, wrapInt_add_wrapInt]
  exact ⟨by rw [add_right_comm], min_right_comm _ _ _, by rw [max_assoc, max_comm x y, ← max_assoc]⟩

end PermLemmas

section PermLemmas2

open REDUCE3_INT

theorem foldl_wrap_congr (l : List Int) (a b : Acc)
    (h1 : (a.vsum - b.vsum) % 4294967296 = 0) (h2 : a.vmin = b.vmin) (h3 : a.vmax = b.vmax) :
    ((l.foldl (fun (r : Acc) (v : Int) =>
          Acc.mk (wrapInt (r.vsum + v)) (RAJA_MIN r.vmin v) (RAJA_MAX r.vmax v)) a).vsum
        - (l.foldl (fun (r : Acc) (v : Int) =>
          Acc.mk (r.vsum + v) (RAJA_MIN r.vmin v) (RAJA_MAX r.vmax v)) b).vsum)
      % 4294967296 = 0 ∧
    (l.foldl (fun (r : Acc) (v : Int) =>
          Acc.mk (wrapInt (r.vsum + v)) (RAJA_MIN r.vmin v) (RAJA_MAX r.vmax v)) a).vmin
      = (l.foldl (fun (r : Acc) (v : Int) =>
          Acc.mk (r.vsum + v) (RAJA_MIN r.vmin v) (RAJA_MAX r.vmax v)) b).vmin ∧
    (l.foldl (fun (r : Acc) (v : Int) =>
          Acc.mk (wrapInt (r.vsum + v)) (RAJA_MIN r.vmin v) (RAJA_MAX r.vmax v)) a).vmax
      = (l.foldl (fun (r : Acc) (v : Int) =>
          Acc.mk (r.vsum + v) (RAJA_MIN r.vmin v) (RAJA_MAX r.vmax v)) b).vmax := by
  induction l generalizing a b with
  | nil => exact ⟨h1, h2, h3⟩
  | cons v l ih =>
    simp only [List.foldl_cons]
    apply ih
    · have := wrapInt_congr (a.vsum + v)
      show (wrapInt (a.vsum + v) - (b.vsum + v)) % 4294967296 = 0
      omega
    · show RAJA_MIN a.vmin v = RAJA_MIN b.vmin v
      rw [h2]
    · show RAJA_MAX a.vmax v = RAJA_MAX b.vmax v
      rw [h3]

theorem perm_ofFn_get (l : List Int) (p : Equiv.Perm (Fin l.length)) :
    l.Perm (List.ofFn fun i => l.get (p i)) := by
  have h := (Equiv.Perm.ofFn_comp_perm p l.get).symm
  rwa [List.ofFn_get] at h

end PermLemmas2

/-- C12: for every vector `vec` (of length the loop bound) and every rearrangement
`vec2` of it, one repetition of the reduction body over `vec2` yields the sum, the
minimum and the maximum it yields over `vec`: in exact integers, and also when the
addition wraps modulo `2^32`, where the sum is congruent to the exact one and the
minimum and maximum are the exact ones.  The same holds for `vec` read through
any permutation `p` of its indices, and one iteration of the `Base_Seq`
repetition loop leaves the same accumulators over `vec2` as over `vec`. -/
theorem C12_reduce3_order_independent (d : REDUCE3_INT.Data) (iend : Int) (vec2 : List Int)
    (hperm : d.m_vec.Perm vec2) (hlen : d.m_vec.length = iend.toNat) :
    REDUCE3_INT.reduce iend { d with m_vec := vec2 } = REDUCE3_INT.reduce iend d ∧
    REDUCE3_INT.reduceWrap iend { d with m_vec := vec2 } = REDUCE3_INT.reduceWrap iend d ∧
    ((REDUCE3_INT.reduceWrap iend d).vsum - (REDUCE3_INT.reduce iend d).vsum)
      % 4294967296 = 0 ∧
    (REDUCE3_INT.reduceWrap iend d).vmin = (REDUCE3_INT.reduce iend d).vmin ∧
    (REDUCE3_INT.reduceWrap iend d).vmax = (REDUCE3_INT.reduce iend d).vmax ∧
    (∀ p : Equiv.Perm (Fin d.m_vec.length),
      REDUCE3_INT.reduce iend { d with m_vec := List.ofFn fun i => d.m_vec.get (p i) }
        = REDUCE3_INT.reduce iend d) ∧
    REDUCE3_INT.sweep iend { d with m_vec := vec2 }
      = { REDUCE3_INT.sweep iend d with m_vec := vec2 } := by
  have hc := foldl_wrap_congr d.m_vec
    { vsum := d.m_vsum_init, vmin := d.m_vmin_init, vmax := d.m_vmax_init }
    { vsum := d.m_vsum_init, vmin := d.m_vmin_init, vmax := d.m_vmax_init }
    (by simp) rfl rfl
  rw [← reduceWrap_foldl iend d hlen, ← reduce_foldl iend d hlen] at hc
  refine ⟨reduce_perm iend d vec2 hperm hlen, reduceWrap_perm iend d vec2 hperm hlen,
    hc.1, hc.2.1, hc.2.2, ?_, ?_⟩
  · intro p
    exact reduce_perm iend d _ (perm_ofFn_get d.m_vec p) hlen
  · simp only [REDUCE3_INT.sweep, reduce_perm iend d vec2 hperm hlen]

/-- Witness for C12: `[7, 5, -2]` is a rearrangement of `[5, -2, 7]`. -/
theorem C12_reduce3_order_independent_witness :
    exREDUCE3.data.m_vec.Perm [7, 5, -2] ∧
    exREDUCE3.data.m_vec.length = (3 : Int).toNat ∧
    REDUCE3_INT.reduce 3 { exREDUCE3.data with m_vec := [7, 5, -2] }
      = REDUCE3_INT.reduce 3 exREDUCE3.data ∧
    REDUCE3_INT.reduce 3 exREDUCE3.data = { vsum := 10, vmin := -2, vmax := 7 } :=
  have hp : exREDUCE3.data.m_vec.Perm [7, 5, -2] := by decide
  ⟨hp, by decide,
    (C12_reduce3_order_independent exREDUCE3.data 3 [7, 5, -2] hp (by decide)).1, by decide⟩

/-! ## Device buffers (C13, C14) -/

section CudaLemmas

variable {α C D : Type}

theorem runBaseCuda_data [Field α] (NDSET2D : Int → DEL_DOT_VEC_2D.Views)
    (k : Kernel C (DEL_DOT_VEC_2D.Data α)) :
    (DEL_DOT_VEC_2D.runBaseCuda NDSET2D k).data
      = (DEL_DOT_VEC_2D.DEL_DOT_VEC_2D_DATA_TEARDOWN_CUDA k.data.m_domain.n_real_zones k.data
          ((DEL_DOT_VEC_2D.deldotvec2d (NDSET2D k.data.m_domain.jp) k.data.m_ptiny k.data.m_half
            k.data.m_domain.n_real_zones)^[k.run_reps.toNat]
            (DEL_DOT_VEC_2D.DEL_DOT_VEC_2D_DATA_SETUP_CUDA k.data)),
         (DEL_DOT_VEC_2D.deldotvec2d (NDSET2D k.data.m_domain.jp) k.data.m_ptiny k.data.m_half
            k.data.m_domain.n_real_zones)^[k.run_reps.toNat]
            (DEL_DOT_VEC_2D.DEL_DOT_VEC_2D_DATA_SETUP_CUDA k.data)) := by
  simp only [DEL_DOT_VEC_2D.runBaseCuda, timedReps_eq, Kernel.logs]
  have key : ∀ (n : Nat) (s : DEL_DOT_VEC_2D.Data α × DEL_DOT_VEC_2D.Device α),
      (fun s : DEL_DOT_VEC_2D.Data α × DEL_DOT_VEC_2D.Device α =>
        (s.1, DEL_DOT_VEC_2D.deldotvec2d (NDSET2D k.data.m_domain.jp) k.data.m_ptiny
          k.data.m_half k.data.m_domain.n_real_zones s.2))^[n] s
        = (s.1, (DEL_DOT_VEC_2D.deldotvec2d (NDSET2D k.data.m_domain.jp) k.data.m_ptiny
          k.data.m_half k.data.m_domain.n_real_zones)^[n] s.2) := by
    intro n
    induction n with
    | zero => intro s; rfl
    | succ n ih => intro s; rw [Function.iterate_succ_apply, ih, Function.iterate_succ_apply]
  rw [key]

/-- The explicit `Base_CUDA` block makes the calls the dispatching `runKernel` records. -/
theorem runBaseCuda_trace [Field α] (NDSET2D : Int → DEL_DOT_VEC_2D.Views) (cfg : BuildConfig)
    (rt : Runtime (DEL_DOT_VEC_2D.Data α)) (k : Kernel C (DEL_DOT_VEC_2D.Data α))
    (hcfg : cfg.RAJA_ENABLE_CUDA = true) :
    (DEL_DOT_VEC_2D.runBaseCuda NDSET2D k).trace
      = (DEL_DOT_VEC_2D.runKernel NDSET2D cfg rt VariantID.Base_CUDA k).trace ∧
    (DEL_DOT_VEC_2D.runBaseCuda NDSET2D k).trace
      = (DEL_DOT_VEC_2D.runKernel NDSET2D cfg rt VariantID.RAJA_CUDA k).trace := by
  simp [DEL_DOT_VEC_2D.runBaseCuda, DEL_DOT_VEC_2D.runKernel, dispatch, hcfg, stagedReps,
    timedReps_eq, Kernel.logs]

/-- The copy-back reaches exactly the subscripts below `n_real_zones`: above them the
host buffer keeps what it held before the block. -/
theorem runBaseCuda_host_div [Field α] (NDSET2D : Int → DEL_DOT_VEC_2D.Views)
    (k : Kernel C (DEL_DOT_VEC_2D.Data α)) (q : Int)
    (hq : k.data.m_domain.n_real_zones ≤ q) (h0 : 0 ≤ k.data.m_domain.n_real_zones)
    (hlen : k.data.m_domain.n_real_zones ≤ k.data.m_domain.nnalls)
    (hdiv : (k.data.m_div.length : Int) = k.data.m_domain.nnalls) :
    load (DEL_DOT_VEC_2D.runBaseCuda NDSET2D k).data.1.m_div q = load k.data.m_div q := by
  rw [runBaseCuda_data]
  simp only [DEL_DOT_VEC_2D.DEL_DOT_VEC_2D_DATA_TEARDOWN_CUDA, getCudaDeviceData]
  have hdev : ∀ n : Nat,
      ((DEL_DOT_VEC_2D.deldotvec2d (NDSET2D k.data.m_domain.jp) k.data.m_ptiny k.data.m_half
            k.data.m_domain.n_real_zones)^[n]
            (DEL_DOT_VEC_2D.DEL_DOT_VEC_2D_DATA_SETUP_CUDA k.data)).div.length
        = k.data.m_div.length := by
    intro n
    induction n with
    | zero =>
      simp only [Function.iterate_zero, id, DEL_DOT_VEC_2D.DEL_DOT_VEC_2D_DATA_SETUP_CUDA,
        allocAndInitCudaDeviceData, List.length_take]
      omega
    | succ n ih =>
      rw [Function.iterate_succ_apply']
      simp only [DEL_DOT_VEC_2D.deldotvec2d, forLoop]
      rw [← ih]
      generalize ((DEL_DOT_VEC_2D.deldotvec2d (NDSET2D k.data.m_domain.jp) k.data.m_ptiny
        k.data.m_half k.data.m_domain.n_real_zones)^[n]
            (DEL_DOT_VEC_2D.DEL_DOT_VEC_2D_DATA_SETUP_CUDA k.data)) = dev
      generalize (k.data.m_domain.n_real_zones - 0).toNat = m
      generalize (0 : Int) = i0
      generalize hb : dev.div = b
      clear hb
      induction m generalizing i0 b with
      | zero => rfl
      | succ m ihm =>
        simp only [forLoopAux]
        rw [ihm]
        simp only [DEL_DOT_VEC_2D.DEL_DOT_VEC_2D_BODY, store_length]
  have hq0 : 0 ≤ q := by omega
  unfold load
  simp only [hq0, if_true, List.getD_eq_getElem?_getD]
  rw [List.getElem?_append_right, List.getElem?_drop]
  · congr 2
    simp only [List.length_take, hdev]
    omega
  · simp only [List.length_take, hdev]
    omega

theorem deviceBuffersHeld_append (s t : List Event) :
    deviceBuffersHeld (s ++ t) = deviceBuffersHeld s + deviceBuffersHeld t := by
  induction s with
  | nil => simp [deviceBuffersHeld]
  | cons e s ih => cases e <;> simp [deviceBuffersHeld, ih] <;> omega

theorem deviceBuffersHeld_alloc (l : List String) :
    deviceBuffersHeld (l.map Event.allocAndInitCudaDeviceData) = l.length := by
  induction l with
  | nil => rfl
  | cons b l ih => simp [deviceBuffersHeld, ih]

theorem deviceBuffersHeld_dealloc (l : List String) :
    deviceBuffersHeld (l.map Event.deallocCudaDeviceData) = - (l.length : Int) := by
  induction l with
  | nil => rfl
  | cons b l ih => simp [deviceBuffersHeld, ih]; omega

theorem deviceBuffersHeld_sweeps (l : List Int) :
    deviceBuffersHeld (l.map Event.sweep) = 0 := by
  induction l with
  | nil => rfl
  | cons b l ih => simp [deviceBuffersHeld, ih]

theorem deviceBuffersHeld_timedReps (R : Int) (sw : D → D) (k : Kernel C D) :
    deviceBuffersHeld (timedReps R sw k).trace = deviceBuffersHeld k.trace := by
  rw [timedReps_eq]
  simp [deviceBuffersHeld_append, deviceBuffersHeld, deviceBuffersHeld_sweeps]

theorem deviceBuffersHeld_stagedReps (rt : Runtime D) (vid : VariantID) (R : Int)
    (k : Kernel C D) :
    deviceBuffersHeld (stagedReps rt vid R k).trace = deviceBuffersHeld k.trace := by
  simp only [stagedReps, deviceBuffersHeld_timedReps]

/-- The change of the device buffer count across a dispatching `runKernel`: the
`Base_CUDA` and `RAJA_CUDA` blocks change it by the number of buffers
acquired less the number released, every other block leaves it alone. -/
theorem deviceBuffersHeld_dispatch (cfg : BuildConfig) (rt : Runtime D) (msg : String) (R : Int)
    (baseSeq : D → D) (bc rc : List String × List String) (vid : VariantID) (k : Kernel C D) :
    deviceBuffersHeld (dispatch cfg rt msg R baseSeq bc rc vid k).trace
      = deviceBuffersHeld k.trace +
        (if cfg.RAJA_ENABLE_CUDA = true ∧ vid = VariantID.Base_CUDA then
          (bc.1.length : Int) - bc.2.length
        else if cfg.RAJA_ENABLE_CUDA = true ∧ vid = VariantID.RAJA_CUDA then
          (rc.1.length : Int) - rc.2.length
        else 0) := by
  cases vid <;> simp only [dispatch] <;> (try split) <;>
    simp_all [deviceBuffersHeld_timedReps, deviceBuffersHeld_stagedReps, Kernel.logs,
      deviceBuffersHeld_append, deviceBuffersHeld_alloc, deviceBuffersHeld_dealloc,
      unknownVariant, Kernel.log, deviceBuffersHeld] <;> omega

end CudaLemmas

/-- The device buffer count across `runKernel` on a device variant, kernel by kernel, in
a build with `RAJA_ENABLE_CUDA`: restored for `ADD`, `FIR`, `PRESSURE`, `TRAP_INT`,
`POLYBENCH_2MM` and the `RAJA_CUDA` block of `REDUCE3_INT`; two buffers stay with
the `Base_CUDA` block of `REDUCE3_INT` and one with each block of
`DEL_DOT_VEC_2D`. -/
theorem deviceBuffersHeld_runKernel {α C : Type} [LinearOrderedField α] (cfg : BuildConfig)
    (hcfg : cfg.RAJA_ENABLE_CUDA = true) (sqrt : α → α) (NDSET2D : Int → DEL_DOT_VEC_2D.Views) :
    (∀ (rt : Runtime (ADD.Data α)) (k : Kernel C (ADD.Data α)),
      deviceBuffersHeld (ADD.runKernel cfg rt VariantID.Baseline_CUDA k).trace
        = deviceBuffersHeld k.trace ∧
      deviceBuffersHeld (ADD.runKernel cfg rt VariantID.RAJA_CUDA k).trace
        = deviceBuffersHeld k.trace) ∧
    (∀ (rt : Runtime (FIR.Data α)) (k : Kernel C (FIR.Data α)),
      deviceBuffersHeld (FIR.runKernel cfg rt VariantID.Base_CUDA k).trace
        = deviceBuffersHeld k.trace ∧
      deviceBuffersHeld (FIR.runKernel cfg rt VariantID.RAJA_CUDA k).trace
        = deviceBuffersHeld k.trace) ∧
    (∀ (rt : Runtime (PRESSURE.Data α)) (k : Kernel C (PRESSURE.Data α)),
      deviceBuffersHeld (PRESSURE.runKernel cfg rt VariantID.Base_CUDA k).trace
        = deviceBuffersHeld k.trace ∧
      deviceBuffersHeld (PRESSURE.runKernel cfg rt VariantID.RAJA_CUDA k).trace
        = deviceBuffersHeld k.trace) ∧
    (∀ (rt : Runtime (TRAP_INT.Data α)) (k : Kernel C (TRAP_INT.Data α)),
      deviceBuffersHeld (TRAP_INT.runKernel sqrt cfg rt VariantID.Base_CUDA k).trace
        = deviceBuffersHeld k.trace ∧
      deviceBuffersHeld (TRAP_INT.runKernel sqrt cfg rt VariantID.RAJA_CUDA k).trace
        = deviceBuffersHeld k.trace) ∧
    (∀ (rt : Runtime (POLYBENCH_2MM.Data α)) (k : Kernel C (POLYBENCH_2MM.Data α)),
      deviceBuffersHeld (POLYBENCH_2MM.runKernel cfg rt VariantID.Base_CUDA k).trace
        = deviceBuffersHeld k.trace ∧
      deviceBuffersHeld (POLYBENCH_2MM.runKernel cfg rt VariantID.RAJA_CUDA k).trace
        = deviceBuffersHeld k.trace) ∧
    (∀ (rt : Runtime REDUCE3_INT.Data) (k : Kernel Int REDUCE3_INT.Data),
      deviceBuffersHeld (REDUCE3_INT.runKernel cfg rt VariantID.Base_CUDA k).trace
        = deviceBuffersHeld k.trace + 2 ∧
      deviceBuffersHeld (REDUCE3_INT.runKernel cfg rt VariantID.RAJA_CUDA k).trace
        = deviceBuffersHeld k.trace) ∧
    (∀ (rt : Runtime (DEL_DOT_VEC_2D.Data α)) (k : Kernel C (DEL_DOT_VEC_2D.Data α)),
      deviceBuffersHeld (DEL_DOT_VEC_2D.runKernel NDSET2D cfg rt VariantID.Base_CUDA k).trace
        = deviceBuffersHeld k.trace + 1 ∧
      deviceBuffersHeld (DEL_DOT_VEC_2D.runKernel NDSET2D cfg rt VariantID.RAJA_CUDA k).trace
        = deviceBuffersHeld k.trace + 1) := by
  refine ⟨?_, ?_, ?_, ?_, ?_, ?_, ?_⟩
  · intro rt k
    simp [ADD.runKernel, hcfg, Kernel.logs, deviceBuffersHeld_append, deviceBuffersHeld_alloc,
      deviceBuffersHeld_dealloc, deviceBuffersHeld_stagedReps, deviceBuffersHeld]
  · intro rt k
    simp [FIR.runKernel, deviceBuffersHeld_dispatch, hcfg]
  · intro rt k
    simp [PRESSURE.runKernel, deviceBuffersHeld_dispatch, hcfg]
  · intro rt k
    simp [TRAP_INT.runKernel, deviceBuffersHeld_dispatch, hcfg]
  · intro rt k
    simp [POLYBENCH_2MM.runKernel, deviceBuffersHeld_dispatch, hcfg]
  · intro rt k
    simp [REDUCE3_INT.runKernel, deviceBuffersHeld_dispatch, hcfg]
  · intro rt k
    simp [DEL_DOT_VEC_2D.runKernel, deviceBuffersHeld_dispatch, hcfg]

/-- C13: on a 3 x 3 node grid whose one real zone is zone 4 (`real_zones[0] = 4`, inside
`[0, nnalls)`), the `Base_CUDA` block of `DEL_DOT_VEC_2D::runKernel` leaves the value
the body stored in device `div[4]` on the device: the copy-back takes the first
`n_real_zones = 1` elements, so host `m_div[4]` still holds what it held before,
while the sequential block stores the value in `m_div[4]`. -/
theorem C13_copy_back_misses_zone :
    load exDELDOTcuda.data.m_domain.real_zones 0 = 4 ∧
    (0 ≤ (4 : Int) ∧ 4 < exDELDOTcuda.data.m_domain.nnalls) ∧
    load (DEL_DOT_VEC_2D.runBaseCuda exViews exDELDOTcuda).data.2.div 4
      = 300000000000000000001 / 100000000000000000001 ∧
    load (DEL_DOT_VEC_2D.runBaseCuda exViews exDELDOTcuda).data.1.m_div 4 = 0 ∧
    load (DEL_DOT_VEC_2D.runBaseCuda exViews exDELDOTcuda).data.1.m_div 4
      ≠ load (DEL_DOT_VEC_2D.runBaseCuda exViews exDELDOTcuda).data.2.div 4 ∧
    load (DEL_DOT_VEC_2D.runKernel exViews fullBuild (idRuntime _) VariantID.Base_Seq
        exDELDOTcuda).data.m_div 4
      = 300000000000000000001 / 100000000000000000001 := by
  have hdev : load (DEL_DOT_VEC_2D.runBaseCuda exViews exDELDOTcuda).data.2.div 4
      = 300000000000000000001 / 100000000000000000001 := by
    rw [runBaseCuda_data]
    simp [exDELDOTcuda, freshKernel, DEL_DOT_VEC_2D.deldotvec2d,
      DEL_DOT_VEC_2D.DEL_DOT_VEC_2D_DATA_SETUP_CUDA, allocAndInitCudaDeviceData, forLoop,
      forLoopAux, DEL_DOT_VEC_2D.DEL_DOT_VEC_2D_BODY, DEL_DOT_VEC_2D.divValue, exViews, load,
      store]
    norm_num
  have hhost : load (DEL_DOT_VEC_2D.runBaseCuda exViews exDELDOTcuda).data.1.m_div 4 = 0 := by
    rw [runBaseCuda_data]
    simp [exDELDOTcuda, freshKernel, DEL_DOT_VEC_2D.deldotvec2d,
      DEL_DOT_VEC_2D.DEL_DOT_VEC_2D_DATA_SETUP_CUDA,
      DEL_DOT_VEC_2D.DEL_DOT_VEC_2D_DATA_TEARDOWN_CUDA, getCudaDeviceData,
      allocAndInitCudaDeviceData, forLoop, forLoopAux, DEL_DOT_VEC_2D.DEL_DOT_VEC_2D_BODY,
      DEL_DOT_VEC_2D.divValue, exViews, load, store]
  refine ⟨by decide, by decide, hdev, hhost, ?_, ?_⟩
  · rw [hdev, hhost]
    norm_num
  · simp [DEL_DOT_VEC_2D.runKernel, dispatch, timedReps_eq, DEL_DOT_VEC_2D.sweep,
      exDELDOTcuda, freshKernel, forLoop,
      forLoopAux, DEL_DOT_VEC_2D.DEL_DOT_VEC_2D_BODY, DEL_DOT_VEC_2D.divValue, exViews, load,
      store]
    norm_num

set_option maxRecDepth 100000 in
/-- C14: in a build with `RAJA_ENABLE_CUDA`, the `Base_CUDA` block of
`REDUCE3_INT::runKernel` returns with two device buffers more than it was entered
with (`vmin` and `vmax` are acquired and never released), and both device blocks of
`DEL_DOT_VEC_2D::runKernel` return with one more (`real_zones`). -/
theorem C14_device_buffers_left :
    deviceBuffersHeld exREDUCE3.trace = 0 ∧
    deviceBuffersHeld
      (REDUCE3_INT.runKernel fullBuild (idRuntime _) VariantID.Base_CUDA exREDUCE3).trace = 2 ∧
    deviceBuffersLeft
      (REDUCE3_INT.runKernel fullBuild (idRuntime _) VariantID.Base_CUDA exREDUCE3).trace
      = ["vmin", "vmax"] ∧
    deviceBuffersHeld
      (DEL_DOT_VEC_2D.runKernel exViews fullBuild (idRuntime _) VariantID.Base_CUDA
        exDELDOT).trace = 1 ∧
    deviceBuffersHeld
      (DEL_DOT_VEC_2D.runKernel exViews fullBuild (idRuntime _) VariantID.RAJA_CUDA
        exDELDOT).trace = 1 ∧
    deviceBuffersLeft
      (DEL_DOT_VEC_2D.runKernel exViews fullBuild (idRuntime _) VariantID.Base_CUDA
        exDELDOT).trace = ["real_zones"] := by
  decide

/-! ## Host buffers (C15) -/

section HostBufferLemmas

variable {α C D : Type}

theorem hostBuffersHeld_append (s t : List Event) :
    hostBuffersHeld (s ++ t) = hostBuffersHeld s + hostBuffersHeld t := by
  induction s with
  | nil => simp [hostBuffersHeld]
  | cons e s ih => cases e <;> simp [hostBuffersHeld, ih] <;> omega

theorem hostBuffersHeld_alloc (l : List String) :
    hostBuffersHeld (l.map Event.allocAndInitData) = l.length := by
  induction l with
  | nil => rfl
  | cons b l ih => simp [hostBuffersHeld, ih]

theorem hostBuffersHeld_dealloc (l : List String) :
    hostBuffersHeld (l.map Event.deallocData) = - (l.length : Int) := by
  induction l with
  | nil => rfl
  | cons b l ih => simp [hostBuffersHeld, ih]; omega

theorem hostBuffersHeld_device_alloc (l : List String) :
    hostBuffersHeld (l.map Event.allocAndInitCudaDeviceData) = 0 := by
  induction l with
  | nil => rfl
  | cons b l ih => simp [hostBuffersHeld, ih]

theorem hostBuffersHeld_device_dealloc (l : List String) :
    hostBuffersHeld (l.map Event.deallocCudaDeviceData) = 0 := by
  induction l with
  | nil => rfl
  | cons b l ih => simp [hostBuffersHeld, ih]

theorem hostBuffersHeld_sweeps (l : List Int) :
    hostBuffersHeld (l.map Event.sweep) = 0 := by
  induction l with
  | nil => rfl
  | cons b l ih => simp [hostBuffersHeld, ih]

theorem hostBuffersHeld_timedReps (R : Int) (sw : D → D) (k : Kernel C D) :
    hostBuffersHeld (timedReps R sw k).trace = hostBuffersHeld k.trace := by
  rw [timedReps_eq]
  simp [hostBuffersHeld_append, hostBuffersHeld, hostBuffersHeld_sweeps]

theorem hostBuffersHeld_stagedReps (rt : Runtime D) (vid : VariantID) (R : Int)
    (k : Kernel C D) :
    hostBuffersHeld (stagedReps rt vid R k).trace = hostBuffersHeld k.trace := by
  simp only [stagedReps, hostBuffersHeld_timedReps]

/-- No block of a dispatching `runKernel` acquires or releases a host buffer. -/
theorem hostBuffersHeld_dispatch (cfg : BuildConfig) (rt : Runtime D) (msg : String) (R : Int)
    (baseSeq : D → D) (bc rc : List String × List String) (vid : VariantID) (k : Kernel C D) :
    hostBuffersHeld (dispatch cfg rt msg R baseSeq bc rc vid k).trace
      = hostBuffersHeld k.trace := by
  cases vid <;> simp only [dispatch] <;> (try split) <;>
    simp_all [hostBuffersHeld_timedReps, hostBuffersHeld_stagedReps, Kernel.logs,
      hostBuffersHeld_append, hostBuffersHeld_device_alloc, hostBuffersHeld_device_dealloc,
      unknownVariant, Kernel.log, hostBuffersHeld]

theorem hostBuffersHeld_ADD_runKernel [Zero α] [Add α] (cfg : BuildConfig)
    (rt : Runtime (ADD.Data α)) (vid : VariantID) (k : Kernel C (ADD.Data α)) :
    hostBuffersHeld (ADD.runKernel cfg rt vid k).trace = hostBuffersHeld k.trace := by
  cases vid <;> simp only [ADD.runKernel] <;> (try split) <;>
    simp_all [hostBuffersHeld_timedReps, hostBuffersHeld_stagedReps, Kernel.logs,
      hostBuffersHeld_append, hostBuffersHeld_device_alloc, hostBuffersHeld_device_dealloc,
      unknownVariant, Kernel.log, hostBuffersHeld]

end HostBufferLemmas

/-- C15: for each of the seven kernels and every variant `v`, `setUp(v)` appends to the
record one `allocAndInitData` per buffer of a list of names and `tearDown(v)` one
`deallocData` per buffer of the same list (three names for `ADD`, two for `FIR`,
five for `PRESSURE` and `DEL_DOT_VEC_2D`, one for `REDUCE3_INT`, none for
`TRAP_INT` and `POLYBENCH_2MM`, whose six buffers the constructor acquires and the
destructor releases), and across `setUp; runKernel; updateChecksum; tearDown` the
host buffer count returns to the value it had before `setUp`. -/
theorem C15_allocation_release_symmetry {α C : Type} [LinearOrderedField α] [Add C]
    (cfg : BuildConfig) (v : VariantID)
    (allocAndInitData : String → Int → VariantID → List α) (calcChecksum : List α → Int → C) :
    (∀ (rt : Runtime (ADD.Data α)) (k : Kernel C (ADD.Data α)),
      (ADD.setUp allocAndInitData v k).trace
        = k.trace ++ ["m_a", "m_b", "m_c"].map Event.allocAndInitData ∧
      (ADD.tearDown v k).trace = k.trace ++ ["m_a", "m_b", "m_c"].map Event.deallocData ∧
      hostBuffersHeld
        (ADD.tearDown v (ADD.updateChecksum calcChecksum v
          (ADD.runKernel cfg rt v (ADD.setUp allocAndInitData v k)))).trace
        = hostBuffersHeld k.trace) ∧
    (∀ (rt : Runtime (FIR.Data α)) (k : Kernel C (FIR.Data α)),
      (FIR.setUp allocAndInitData v k).trace
        = k.trace ++ ["m_in", "m_out"].map Event.allocAndInitData ∧
      (FIR.tearDown v k).trace = k.trace ++ ["m_in", "m_out"].map Event.deallocData ∧
      hostBuffersHeld
        (FIR.tearDown v (FIR.updateChecksum calcChecksum v
          (FIR.runKernel cfg rt v (FIR.setUp allocAndInitData v k)))).trace
        = hostBuffersHeld k.trace) ∧
    (∀ (initData : String → α) (rt : Runtime (PRESSURE.Data α))
        (k : Kernel C (PRESSURE.Data α)),
      (PRESSURE.setUp allocAndInitData initData v k).trace
        = k.trace ++ ["m_compression", "m_bvc", "m_p_new", "m_e_old", "m_vnewc"].map
            Event.allocAndInitData ∧
      (PRESSURE.tearDown v k).trace
        = k.trace ++ ["m_compression", "m_bvc", "m_p_new", "m_e_old", "m_vnewc"].map
            Event.deallocData ∧
      hostBuffersHeld
        (PRESSURE.tearDown v (PRESSURE.updateChecksum calcChecksum v
          (PRESSURE.runKernel cfg rt v (PRESSURE.setUp allocAndInitData initData v k)))).trace
        = hostBuffersHeld k.trace) ∧
    (∀ (ptiny half : α) (NDSET2D : Int → DEL_DOT_VEC_2D.Views)
        (rt : Runtime (DEL_DOT_VEC_2D.Data α)) (k : Kernel C (DEL_DOT_VEC_2D.Data α)),
      (DEL_DOT_VEC_2D.setUp allocAndInitData ptiny half v k).trace
        = k.trace ++ ["m_x", "m_y", "m_xdot", "m_ydot", "m_div"].map Event.allocAndInitData ∧
      (DEL_DOT_VEC_2D.tearDown v k).trace
        = k.trace ++ ["m_x", "m_y", "m_xdot", "m_ydot", "m_div"].map Event.deallocData ∧
      hostBuffersHeld
        (DEL_DOT_VEC_2D.tearDown v (DEL_DOT_VEC_2D.updateChecksum calcChecksum v
          (DEL_DOT_VEC_2D.runKernel NDSET2D cfg rt v
            (DEL_DOT_VEC_2D.setUp allocAndInitData ptiny half v k)))).trace
        = hostBuffersHeld k.trace) ∧
    (∀ (allocAndInitInt : Int → VariantID → List Int) (rt : Runtime REDUCE3_INT.Data)
        (k : Kernel Int REDUCE3_INT.Data),
      (REDUCE3_INT.setUp allocAndInitInt v k).trace
        = k.trace ++ ["m_vec"].map Event.allocAndInitData ∧
      (REDUCE3_INT.tearDown v k).trace = k.trace ++ ["m_vec"].map Event.deallocData ∧
      hostBuffersHeld
        (REDUCE3_INT.tearDown v (REDUCE3_INT.updateChecksum v
          (REDUCE3_INT.runKernel cfg rt v (REDUCE3_INT.setUp allocAndInitInt v k)))).trace
        = hostBuffersHeld k.trace) ∧
    (∀ (sqrt : α → α) (initData : String → VariantID → α) (half c : α)
        (rt : Runtime (TRAP_INT.Data α)) (k : Kernel α (TRAP_INT.Data α)),
      (TRAP_INT.setUp sqrt initData half v k).trace = k.trace ∧
      (TRAP_INT.tearDown v k).trace = k.trace ∧
      hostBuffersHeld
        (TRAP_INT.tearDown v (TRAP_INT.updateChecksum c v
          (TRAP_INT.runKernel sqrt cfg rt v (TRAP_INT.setUp sqrt initData half v k)))).trace
        = hostBuffersHeld k.trace) ∧
    (∀ (rt : Runtime (POLYBENCH_2MM.Data α)) (k : Kernel C (POLYBENCH_2MM.Data α)),
      (POLYBENCH_2MM.setUp v k).trace = k.trace ∧
      (POLYBENCH_2MM.tearDown v k).trace = k.trace ∧
      hostBuffersHeld
        (POLYBENCH_2MM.tearDown v (POLYBENCH_2MM.updateChecksum calcChecksum v
          (POLYBENCH_2MM.runKernel cfg rt v (POLYBENCH_2MM.setUp v k)))).trace
        = hostBuffersHeld k.trace) ∧
    (∀ (lsizespec : POLYBENCH_2MM.SizeSpec_T) (alpha beta : α)
        (alloc2 : String → Int → List α) (rt : Runtime (POLYBENCH_2MM.Data α))
        (k : Kernel C Unit),
      (POLYBENCH_2MM.construct lsizespec alpha beta alloc2 k).trace
        = k.trace ++ ["m_tmp", "m_A", "m_B", "m_C", "m_D", "m_DD"].map
            Event.allocAndInitData ∧
      (∀ k2 : Kernel C (POLYBENCH_2MM.Data α),
        (POLYBENCH_2MM.destruct k2).trace
          = k2.trace ++ ["m_tmp", "m_A", "m_B", "m_C", "m_D", "m_DD"].map Event.deallocData) ∧
      hostBuffersHeld
        (POLYBENCH_2MM.destruct
          (POLYBENCH_2MM.tearDown v (POLYBENCH_2MM.updateChecksum calcChecksum v
            (POLYBENCH_2MM.runKernel cfg rt v (POLYBENCH_2MM.setUp v
              (POLYBENCH_2MM.construct lsizespec alpha beta alloc2 k)))))).trace
        = hostBuffersHeld k.trace) := by
  refine ⟨?_, ?_, ?_, ?_, ?_, ?_, ?_, ?_⟩
  · intro rt k
    refine ⟨rfl, rfl, ?_⟩
    simp [ADD.tearDown, ADD.updateChecksum, hostBuffersHeld_ADD_runKernel, ADD.setUp,
      Kernel.logs, hostBuffersHeld_append, hostBuffersHeld]
  · intro rt k
    refine ⟨rfl, rfl, ?_⟩
    simp [FIR.tearDown, FIR.updateChecksum, FIR.runKernel, hostBuffersHeld_dispatch, FIR.setUp,
      Kernel.logs, hostBuffersHeld_append, hostBuffersHeld]
  · intro initData rt k
    refine ⟨rfl, rfl, ?_⟩
    simp [PRESSURE.tearDown, PRESSURE.updateChecksum, PRESSURE.runKernel,
      hostBuffersHeld_dispatch, PRESSURE.setUp, Kernel.logs, hostBuffersHeld_append,
      hostBuffersHeld]
  · intro ptiny half NDSET2D rt k
    refine ⟨rfl, rfl, ?_⟩
    simp [DEL_DOT_VEC_2D.tearDown, DEL_DOT_VEC_2D.updateChecksum, DEL_DOT_VEC_2D.runKernel,
      hostBuffersHeld_dispatch, DEL_DOT_VEC_2D.setUp, Kernel.logs, hostBuffersHeld_append,
      hostBuffersHeld]
  · intro allocAndInitInt rt k
    refine ⟨rfl, rfl, ?_⟩
    simp [REDUCE3_INT.tearDown, REDUCE3_INT.updateChecksum, REDUCE3_INT.runKernel,
      hostBuffersHeld_dispatch, REDUCE3_INT.setUp, Kernel.log, hostBuffersHeld_append,
      hostBuffersHeld]
  · intro sqrt initData half c rt k
    refine ⟨rfl, rfl, ?_⟩
    simp [TRAP_INT.tearDown, TRAP_INT.updateChecksum, TRAP_INT.runKernel,
      hostBuffersHeld_dispatch, TRAP_INT.setUp]
  · intro rt k
    refine ⟨rfl, rfl, ?_⟩
    simp [POLYBENCH_2MM.tearDown, POLYBENCH_2MM.updateChecksum, POLYBENCH_2MM.runKernel,
      hostBuffersHeld_dispatch, POLYBENCH_2MM.setUp]
  · intro lsizespec alpha beta alloc2 rt k
    refine ⟨rfl, fun _ => rfl, ?_⟩
    simp [POLYBENCH_2MM.destruct, POLYBENCH_2MM.tearDown, POLYBENCH_2MM.updateChecksum,
      POLYBENCH_2MM.runKernel, hostBuffersHeld_dispatch, POLYBENCH_2MM.setUp,
      POLYBENCH_2MM.construct, Kernel.logs, hostBuffersHeld_append, hostBuffersHeld]

/-! ## ADD: the sum of two vectors (C16) -/

section AddElementwise

variable {α C : Type} [Zero α] [Add α]

theorem ADD_iterate_inputs (iend : Int) (n : Nat) (d : ADD.Data α) :
    ((ADD.sweep iend)^[n] d).m_a = d.m_a ∧ ((ADD.sweep iend)^[n] d).m_b = d.m_b := by
  induction n with
  | zero => exact ⟨rfl, rfl⟩
  | succ n ih =>
    rw [Function.iterate_succ_apply']
    exact ih

end AddElementwise

/-- C16: after `ADD::runKernel` on `Baseline_Seq` with `c` of `n` = run size elements,
`a` and `b` are unchanged whatever the number of samples; with at least one sample
`c[i] = a[i] + b[i]` for every `i` in `[0, n)` and `c` keeps its length; with no
sample (`run_samples <= 0`) `c` is unchanged as well. -/
theorem C16_add_elementwise {α C : Type} [Zero α] [Add α] (cfg : BuildConfig)
    (rt : Runtime (ADD.Data α)) (k : Kernel C (ADD.Data α))
    (hc : k.data.m_c.length = k.run_size.toNat) :
    (ADD.runKernel cfg rt VariantID.Baseline_Seq k).data.m_a = k.data.m_a ∧
    (ADD.runKernel cfg rt VariantID.Baseline_Seq k).data.m_b = k.data.m_b ∧
    (1 ≤ k.run_reps →
      (ADD.runKernel cfg rt VariantID.Baseline_Seq k).data.m_c.length = k.run_size.toNat ∧
      ∀ i : Int, 0 ≤ i → i < k.run_size →
        load (ADD.runKernel cfg rt VariantID.Baseline_Seq k).data.m_c i
          = load k.data.m_a i + load k.data.m_b i) ∧
    (k.run_reps ≤ 0 → (ADD.runKernel cfg rt VariantID.Baseline_Seq k).data = k.data) := by
  have hrun : (ADD.runKernel cfg rt VariantID.Baseline_Seq k).data
      = (ADD.sweep k.run_size)^[k.run_reps.toNat] k.data := by
    simp only [ADD.runKernel, timedReps_eq]
  rw [hrun]
  refine ⟨(ADD_iterate_inputs _ _ _).1, (ADD_iterate_inputs _ _ _).2, ?_, ?_⟩
  · intro hreps
    rw [iterate_of_idempotent _ (ADD_sweep_idempotent _) _ (by omega)]
    simp only [ADD.sweep, forLoop_zero_toNat]
    refine ⟨by rw [ADD_loop_length, hc], ?_⟩
    intro i h0 h1
    rw [ADD_loop_load, if_pos]
    refine ⟨h0, by omega, by omega⟩
  · intro hreps
    have h0 : k.run_reps.toNat = 0 := by omega
    rw [h0]
    rfl

/-- C16 at the object `exADD` (run size 3, 2 samples). -/
theorem C16_add_elementwise_witness :
    exADD.data.m_c.length = exADD.run_size.toNat ∧
    (ADD.runKernel hostBuild (idRuntime _) VariantID.Baseline_Seq exADD).data.m_c
      = [11, 22, 33] ∧
    (ADD.runKernel hostBuild (idRuntime _) VariantID.Baseline_Seq exADD).data.m_a
      = exADD.data.m_a :=
  ⟨by decide, by decide,
    (C16_add_elementwise hostBuild (idRuntime _) exADD (by decide)).1⟩

/-! ## FIR: the reference filter (C17) -/

section FirReference

variable {α C : Type}

theorem forLoopAux_sum_foldl [Add α] (f : Int → α) (n : Nat) (s0 : α) :
    forLoopAux (fun j s => s + f j) n 0 s0
      = (List.range n).foldl (fun (s : α) (j : Nat) => s + f (j : Int)) s0 := by
  induction n with
  | zero => rfl
  | succ n ih =>
    rw [forLoopAux_succ_right, ih, List.range_succ, List.foldl_append, zero_add]
    rfl

theorem foldl_range_sum [AddCommMonoid α] (g : Nat → α) (n : Nat) (s0 : α) :
    (List.range n).foldl (fun s j => s + g j) s0 = s0 + (Finset.range n).sum g := by
  induction n with
  | zero => simp
  | succ n ih =>
    rw [List.range_succ, List.foldl_append, ih, Finset.sum_range_succ, ← add_assoc]
    rfl

theorem FIR_coeff_load [Ring α] (j : Nat) (hj : j < 16) :
    load (FIR.coeff_array : List α) (j : Int) = FIR.coeffRef j := by
  interval_cases j <;> simp [load, FIR.coeff_array, FIR.coeffRef]

theorem FIR_firSum_ref [Ring α] (in_ : List α) (i : Int) :
    FIR.firSum FIR.coeff_array in_ FIR.COEFFLEN i = FIR.outRef in_ i := by
  have hC : FIR.COEFFLEN = 16 := rfl
  simp only [FIR.firSum, FIR.outRef, forLoop_zero_toNat, hC]
  rw [show (16 : Int).toNat = 16 from rfl,
    forLoopAux_sum_foldl (fun j => load (FIR.coeff_array : List α) j * load in_ (i + j))]
  apply List.foldl_ext
  intro s j hj
  rw [FIR_coeff_load j (by simpa using hj)]

end FirReference

/-- C17: with `m_coefflen = COEFFLEN = 16`, run size `N >= 16`, an output buffer of `N`
elements and at least one repetition, after `FIR::runKernel` on `Base_Seq` every
`out[i]` with `i` in `[0, N - 16)` is the reference value: the products
`coeff[j]*in[i+j]`, `j = 0, ..., 15`, added in increasing `j` (which in exact
arithmetic is their sum), with `coeff[j] = 3` for `j` in `{0, 5, 10, 15}` and `-1`
otherwise; the input buffer is unchanged. -/
theorem C17_fir_reference {α C : Type} [Ring α] (cfg : BuildConfig) (rt : Runtime (FIR.Data α))
    (k : Kernel C (FIR.Data α)) (hL : k.data.m_coefflen = FIR.COEFFLEN)
    (hN : 16 ≤ k.run_size) (hout : k.data.m_out.length = k.run_size.toNat)
    (hreps : 1 ≤ k.run_reps) :
    (∀ i : Int, 0 ≤ i → i < k.run_size - 16 →
      load (FIR.runKernel cfg rt VariantID.Base_Seq k).data.m_out i = FIR.outRef k.data.m_in i ∧
      FIR.outRef k.data.m_in i
        = (Finset.range 16).sum fun j => FIR.coeffRef j * load k.data.m_in (i + (j : Int))) ∧
    (∀ j : Nat, j < 16 → load (FIR.coeff_array : List α) (j : Int) = FIR.coeffRef j) ∧
    (FIR.runKernel cfg rt VariantID.Base_Seq k).data.m_in = k.data.m_in := by
  have hC : FIR.COEFFLEN = 16 := rfl
  rw [FIR_runKernel_Base_Seq cfg rt k hreps]
  refine ⟨?_, fun j hj => FIR_coeff_load j hj, rfl⟩
  intro i h0 h1
  constructor
  · rw [FIR_sweep_load, if_pos, hL, FIR_firSum_ref]
    rw [hL, hC]
    refine ⟨h0, h1, by omega⟩
  · simp only [FIR.outRef]
    rw [foldl_range_sum (fun j => FIR.coeffRef j * load k.data.m_in (i + (j : Int))), zero_add]

/-- C17 at the object `exFIR` (run size 18, input `in[i] = i*i`): `out[0]` and `out[1]`. -/
theorem C17_fir_reference_witness :
    load (FIR.runKernel hostBuild (idRuntime _) VariantID.Base_Seq exFIR).data.m_out 1
      = FIR.outRef exFIR.data.m_in 1 ∧
    FIR.outRef exFIR.data.m_in 1 = 160 :=
  ⟨((C17_fir_reference hostBuild (idRuntime _) exFIR (by decide) (by decide) (by decide)
      (by decide)).1 1 (by decide) (by decide)).1, by decide⟩

/-! ## PRESSURE: the reference equation of state (C18) -/

section PressureReference

variable {α C : Type} [LinearOrderedField α]

theorem load_store_self (b : List α) (i : Int) (v : α) (h : 0 ≤ i ∧ i < b.length) :
    load (store b i v) i = v := by
  rw [load_store, if_pos ⟨rfl, h⟩]

theorem PRESSURE_BODY2_eq (bvc e_old vnewc : List α) (p_cut eosvmax pmin : α) (i : Int)
    (p_new : List α) :
    PRESSURE.PRESSURE_BODY2 bvc e_old vnewc p_cut eosvmax pmin i p_new
      = store p_new i
          (PRESSURE.pRef (load bvc i) (load e_old i) (load vnewc i) p_cut eosvmax pmin) := by
  by_cases hin : 0 ≤ i ∧ i < p_new.length
  · have hs : ∀ v w : α, load (store (store p_new i v) i w) i = w := by
      intro v w
      rw [store_store, load_store_self _ _ _ hin]
    simp only [PRESSURE.PRESSURE_BODY2, PRESSURE.pRef]
    by_cases h1 : abs (load bvc i * load e_old i) < p_cut <;>
      by_cases h2 : load vnewc i ≥ eosvmax <;>
      by_cases h3 : (0 : α) < pmin <;>
      by_cases h4 : load bvc i * load e_old i < pmin <;>
      simp [load_store_self _ _ _ hin, store_store, h1, h2, h3, h4]
  · have hs : ∀ v : α, store p_new i v = p_new := fun v => store_of_not_inBounds _ _ _ hin
    simp only [PRESSURE.PRESSURE_BODY2, hs]
    split_ifs <;> simp only [hs]

theorem PRESSURE_pRef_ge (a b c p_cut eosvmax pmin : α) :
    pmin ≤ PRESSURE.pRef a b c p_cut eosvmax pmin := by
  simp only [PRESSURE.pRef]
  split_ifs with h1 h2 h3
  · exact le_refl _
  · exact not_lt.mp h2
  · exact le_refl _
  · exact not_lt.mp h3

theorem PRESSURE_sweep_idempotent (iend : Int) (d : PRESSURE.Data α) :
    PRESSURE.sweep iend (PRESSURE.sweep iend d) = PRESSURE.sweep iend d := by
  have hb : forLoopAux (PRESSURE.PRESSURE_BODY1 d.m_compression d.m_cls) iend.toNat 0
      (forLoopAux (PRESSURE.PRESSURE_BODY1 d.m_compression d.m_cls) iend.toNat 0 d.m_bvc)
      = forLoopAux (PRESSURE.PRESSURE_BODY1 d.m_compression d.m_cls) iend.toNat 0 d.m_bvc :=
    forLoopAux_overwrite_idempotent _ (fun j => d.m_cls * (load d.m_compression j + 1))
      (fun _ _ => rfl) _ _
  simp only [PRESSURE.sweep, forLoop_zero_toNat, hb]
  congr 1
  exact forLoopAux_overwrite_idempotent _
    (fun j => PRESSURE.pRef
      (load (forLoopAux (PRESSURE.PRESSURE_BODY1 d.m_compression d.m_cls) iend.toNat 0 d.m_bvc) j)
      (load d.m_e_old j) (load d.m_vnewc j) d.m_p_cut d.m_eosvmax d.m_pmin)
    (fun j b => PRESSURE_BODY2_eq _ _ _ _ _ _ j b) _ _

theorem PRESSURE_runKernel_Base_Seq (cfg : BuildConfig) (rt : Runtime (PRESSURE.Data α))
    (k : Kernel C (PRESSURE.Data α)) (hreps : 1 ≤ k.run_reps) :
    (PRESSURE.runKernel cfg rt VariantID.Base_Seq k).data = PRESSURE.sweep k.run_size k.data := by
  simp only [PRESSURE.runKernel, dispatch, timedReps_eq]
  rw [iterate_of_idempotent _ (PRESSURE_sweep_idempotent _) _ (by omega)]

theorem PRESSURE_sweep_bvc (iend : Int) (d : PRESSURE.Data α) (q : Int) :
    load (PRESSURE.sweep iend d).m_bvc q
      = if 0 ≤ q ∧ q < iend.toNat ∧ q < d.m_bvc.length
          then d.m_cls * (load d.m_compression q + 1)
        else load d.m_bvc q := by
  simp only [PRESSURE.sweep, forLoop_zero_toNat]
  exact forLoopAux_overwrite_load _ (fun j => d.m_cls * (load d.m_compression j + 1))
    (fun _ _ => rfl) _ _ q

theorem PRESSURE_sweep_p_new (iend : Int) (d : PRESSURE.Data α) (q : Int) :
    load (PRESSURE.sweep iend d).m_p_new q
      = if 0 ≤ q ∧ q < iend.toNat ∧ q < d.m_p_new.length
          then PRESSURE.pRef (load (PRESSURE.sweep iend d).m_bvc q) (load d.m_e_old q)
            (load d.m_vnewc q) d.m_p_cut d.m_eosvmax d.m_pmin
        else load d.m_p_new q := by
  simp only [PRESSURE.sweep, forLoop_zero_toNat]
  exact forLoopAux_overwrite_load _
    (fun j => PRESSURE.pRef
      (load (forLoopAux (PRESSURE.PRESSURE_BODY1 d.m_compression d.m_cls) iend.toNat 0 d.m_bvc) j)
      (load d.m_e_old j) (load d.m_vnewc j) d.m_p_cut d.m_eosvmax d.m_pmin)
    (fun j b => PRESSURE_BODY2_eq _ _ _ _ _ _ j b) _ _ q

end PressureReference

/-- C18: with `bvc` and `p_new` of `n` = run size elements and at least one repetition,
after `PRESSURE::runKernel` on `Base_Seq`, for every `i` in `[0, n)`:
`bvc[i] = cls*(compression[i] + 1)`; `p_new[i]` is the reference value (`v =
bvc[i]*e_old[i]`, `z = 0` if `|v| < p_cut` or `vnewc[i] >= eosvmax`, else `z = v`,
`p_new[i] = pmin` if `z < pmin`, else `z`); `p_new[i] >= pmin`; and `compression`,
`e_old`, `vnewc` and the four scalars are unchanged. -/
theorem C18_pressure_reference {α C : Type} [LinearOrderedField α] (cfg : BuildConfig)
    (rt : Runtime (PRESSURE.Data α)) (k : Kernel C (PRESSURE.Data α))
    (hbvc : k.data.m_bvc.length = k.run_size.toNat)
    (hp : k.data.m_p_new.length = k.run_size.toNat) (hreps : 1 ≤ k.run_reps) :
    (∀ i : Int, 0 ≤ i → i < k.run_size →
      load (PRESSURE.runKernel cfg rt VariantID.Base_Seq k).data.m_bvc i
        = k.data.m_cls * (load k.data.m_compression i + 1) ∧
      load (PRESSURE.runKernel cfg rt VariantID.Base_Seq k).data.m_p_new i
        = PRESSURE.pRef (load (PRESSURE.runKernel cfg rt VariantID.Base_Seq k).data.m_bvc i)
            (load k.data.m_e_old i) (load k.data.m_vnewc i) k.data.m_p_cut k.data.m_eosvmax
            k.data.m_pmin ∧
      k.data.m_pmin ≤ load (PRESSURE.runKernel cfg rt VariantID.Base_Seq k).data.m_p_new i) ∧
    (PRESSURE.runKernel cfg rt VariantID.Base_Seq k).data.m_compression
      = k.data.m_compression ∧
    (PRESSURE.runKernel cfg rt VariantID.Base_Seq k).data.m_e_old = k.data.m_e_old ∧
    (PRESSURE.runKernel cfg rt VariantID.Base_Seq k).data.m_vnewc = k.data.m_vnewc ∧
    (PRESSURE.runKernel cfg rt VariantID.Base_Seq k).data.m_cls = k.data.m_cls ∧
    (PRESSURE.runKernel cfg rt VariantID.Base_Seq k).data.m_p_cut = k.data.m_p_cut ∧
    (PRESSURE.runKernel cfg rt VariantID.Base_Seq k).data.m_pmin = k.data.m_pmin ∧
    (PRESSURE.runKernel cfg rt VariantID.Base_Seq k).data.m_eosvmax = k.data.m_eosvmax := by
  rw [PRESSURE_runKernel_Base_Seq cfg rt k hreps]
  refine ⟨?_, rfl, rfl, rfl, rfl, rfl, rfl, rfl⟩
  intro i h0 h1
  have hb : load (PRESSURE.sweep k.run_size k.data).m_bvc i
      = k.data.m_cls * (load k.data.m_compression i + 1) := by
    rw [PRESSURE_sweep_bvc, if_pos]
    refine ⟨h0, by omega, by omega⟩
  have hpn : load (PRESSURE.sweep k.run_size k.data).m_p_new i
      = PRESSURE.pRef (load (PRESSURE.sweep k.run_size k.data).m_bvc i)
          (load k.data.m_e_old i) (load k.data.m_vnewc i) k.data.m_p_cut k.data.m_eosvmax
          k.data.m_pmin := by
    rw [PRESSURE_sweep_p_new, if_pos]
    refine ⟨h0, by omega, by omega⟩
  refine ⟨hb, hpn, ?_⟩
  rw [hpn]
  exact PRESSURE_pRef_ge _ _ _ _ _ _

/-- C18 at the object `exPRESSURE` (run size 2): `bvc = [4, 6]`, `v = [12, -24]`, and
with `pmin = 0` the second entry is raised to `pmin`. -/
theorem C18_pressure_reference_witness :
    exPRESSURE.data.m_bvc.length = exPRESSURE.run_size.toNat ∧
    load (PRESSURE.runKernel hostBuild (idRuntime _) VariantID.Base_Seq exPRESSURE).data.m_bvc 1
      = exPRESSURE.data.m_cls * (load exPRESSURE.data.m_compression 1 + 1) :=
  ⟨by decide,
    ((C18_pressure_reference hostBuild (idRuntime _) exPRESSURE (by decide) (by decide)
      (by decide)).1 1 (by decide) (by decide)).1⟩

/-! ## TRAP_INT: the accumulated sum (C19, C20) -/

section TrapLemmas

variable {α C : Type} [Field α]

theorem TRAP_INT_loop (sqrt : α → α) (n : Nat) (d : TRAP_INT.Data α) (s0 : α) :
    forLoopAux (TRAP_INT.TRAP_INT_BODY sqrt d.m_x0 d.m_xp d.m_y d.m_yp d.m_h) n 0 s0
      = s0 + TRAP_INT.bodySum sqrt n d := by
  have h := forLoopAux_sum_foldl
    (fun i : Int => TRAP_INT.trap_int_func sqrt (d.m_x0 + (i : α) * d.m_h) d.m_y d.m_xp d.m_yp)
    n s0
  have h2 := foldl_range_sum
    (fun i : Nat =>
      TRAP_INT.trap_int_func sqrt (d.m_x0 + ((i : Int) : α) * d.m_h) d.m_y d.m_xp d.m_yp)
    n s0
  exact h.trans h2

theorem TRAP_INT_sweep_sumx (sqrt : α → α) (iend : Int) (d : TRAP_INT.Data α) :
    TRAP_INT.sweep sqrt iend d
      = { d with
          m_sumx := d.m_sumx + (d.m_sumx_init + TRAP_INT.bodySum sqrt iend.toNat d) * d.m_h } := by
  simp only [TRAP_INT.sweep, forLoop_zero_toNat, TRAP_INT_loop]

theorem TRAP_INT_bodySum_congr (sqrt : α → α) (n : Nat) (d : TRAP_INT.Data α) (s : α) :
    TRAP_INT.bodySum sqrt n { d with m_sumx := s } = TRAP_INT.bodySum sqrt n d := rfl

theorem TRAP_INT_iterate (sqrt : α → α) (iend : Int) (N : Nat) (d : TRAP_INT.Data α) :
    (TRAP_INT.sweep sqrt iend)^[N] d
      = { d with
          m_sumx :=
            d.m_sumx
              + (N : α) * ((d.m_sumx_init + TRAP_INT.bodySum sqrt iend.toNat d) * d.m_h) } := by
  induction N with
  | zero => simp
  | succ N ih =>
    rw [Function.iterate_succ_apply', ih, TRAP_INT_sweep_sumx]
    simp only [TRAP_INT_bodySum_congr]
    congr 1
    push_cast
    ring

end TrapLemmas

section TrapExample

variable {α : Type} [Field α]

theorem exTRAPinit_xn (v : VariantID) : (exTRAPinit "xn" v : α) = 2 := by
  unfold exTRAPinit
  rw [if_pos rfl]

theorem exTRAPinit_x0 (v : VariantID) : (exTRAPinit "m_x0" v : α) = 1 := by
  unfold exTRAPinit
  rw [if_neg (by decide), if_pos rfl]

theorem exTRAPinit_xp (v : VariantID) : (exTRAPinit "m_xp" v : α) = 0 := by
  unfold exTRAPinit
  rw [if_neg (by decide), if_neg (by decide)]

theorem exTRAPinit_y (v : VariantID) : (exTRAPinit "m_y" v : α) = 0 := by
  unfold exTRAPinit
  rw [if_neg (by decide), if_neg (by decide)]

theorem exTRAPinit_yp (v : VariantID) : (exTRAPinit "m_yp" v : α) = 0 := by
  unfold exTRAPinit
  rw [if_neg (by decide), if_neg (by decide)]

theorem sqrt_four : Real.sqrt 4 = 2 := by
  rw [show (4 : Real) = 2 * 2 by norm_num]
  exact Real.sqrt_mul_self (by norm_num)

end TrapExample

/-- C20: starting from the state `TRAP_INT::setUp` leaves (`m_sumx = 0`, `h = xn - x0`,
`m_sumx_init = (f(x0) + f(xn))/2` when the literal `0.5` is one half), after
`runKernel` on `Base_Seq` with `N` repetitions and run size `n`,
`m_sumx = N * h * (m_sumx_init + f(x0) + f(x0 + h) + ... + f(x0 + (n-1)*h))` with
`f(x) = trap_int_func(x, y, xp, yp)`; each repetition adds
`(m_sumx_init + sum) * h` to `m_sumx` and changes no other member. -/
theorem C20_trap_int_accumulation {α C : Type} [Field α] (sqrt : α → α) (cfg : BuildConfig)
    (rt : Runtime (TRAP_INT.Data α)) (initData : String → VariantID → α) (half : α)
    (k : Kernel C (TRAP_INT.Data α)) (hhalf : half = 1 / 2) :
    (TRAP_INT.setUp sqrt initData half VariantID.Base_Seq k).data.m_sumx = 0 ∧
    (TRAP_INT.setUp sqrt initData half VariantID.Base_Seq k).data.m_h
      = initData "xn" VariantID.Base_Seq - initData "m_x0" VariantID.Base_Seq ∧
    (TRAP_INT.setUp sqrt initData half VariantID.Base_Seq k).data.m_sumx_init
      = (TRAP_INT.trap_int_func sqrt (initData "m_x0" VariantID.Base_Seq)
            (initData "m_y" VariantID.Base_Seq) (initData "m_xp" VariantID.Base_Seq)
            (initData "m_yp" VariantID.Base_Seq)
          + TRAP_INT.trap_int_func sqrt (initData "xn" VariantID.Base_Seq)
            (initData "m_y" VariantID.Base_Seq) (initData "m_xp" VariantID.Base_Seq)
            (initData "m_yp" VariantID.Base_Seq)) / 2 ∧
    (TRAP_INT.runKernel sqrt cfg rt VariantID.Base_Seq
        (TRAP_INT.setUp sqrt initData half VariantID.Base_Seq k)).data.m_sumx
      = (k.run_reps.toNat : α)
        * (initData "xn" VariantID.Base_Seq - initData "m_x0" VariantID.Base_Seq)
        * ((TRAP_INT.setUp sqrt initData half VariantID.Base_Seq k).data.m_sumx_init
            + (Finset.range k.run_size.toNat).sum fun i : Nat =>
                TRAP_INT.trap_int_func sqrt
                  (initData "m_x0" VariantID.Base_Seq
                    + (i : α)
                      * (initData "xn" VariantID.Base_Seq - initData "m_x0" VariantID.Base_Seq))
                  (initData "m_y" VariantID.Base_Seq) (initData "m_xp" VariantID.Base_Seq)
                  (initData "m_yp" VariantID.Base_Seq)) ∧
    (∀ (iend : Int) (d : TRAP_INT.Data α),
      TRAP_INT.sweep sqrt iend d
        = { d with
            m_sumx :=
              d.m_sumx
                + (d.m_sumx_init
                    + (Finset.range iend.toNat).sum fun i : Nat =>
                        TRAP_INT.trap_int_func sqrt (d.m_x0 + (i : α) * d.m_h) d.m_y d.m_xp
                          d.m_yp)
                  * d.m_h }) := by
  refine ⟨rfl, rfl, ?_, ?_, ?_⟩
  · simp only [TRAP_INT.setUp, hhalf]
    ring
  · simp only [TRAP_INT.runKernel, dispatch, timedReps_eq, TRAP_INT_iterate]
    simp only [TRAP_INT.setUp, TRAP_INT.bodySum, Int.cast_natCast]
    ring
  · intro iend d
    rw [TRAP_INT_sweep_sumx]
    simp only [TRAP_INT.bodySum, Int.cast_natCast]

/-- C20 over the real numbers with the real square root, at `x0 = 1`, `xn = 2`,
`xp = y = yp = 0`, run size 2 and 3 repetitions: `m_sumx = 3 * 1 * (3/4 + 1 + 1/2)`. -/
theorem C20_trap_int_accumulation_witness :
    ((1 : Real) / 2 = 1 / 2) ∧
    (TRAP_INT.runKernel Real.sqrt hostBuild (idRuntime _) VariantID.Base_Seq
        (TRAP_INT.setUp Real.sqrt exTRAPinit (1 / 2) VariantID.Base_Seq
          (exTRAPfresh 2 3 : Kernel Real (TRAP_INT.Data Real)))).data.m_sumx = 27 / 4 := by
  refine ⟨rfl, ?_⟩
  rw [(C20_trap_int_accumulation Real.sqrt hostBuild (idRuntime _) exTRAPinit (1 / 2)
      (exTRAPfresh 2 3 : Kernel Real (TRAP_INT.Data Real)) rfl).2.2.2.1]
  have h2 : (2 : Int).toNat = 2 := rfl
  have h3 : (3 : Int).toNat = 3 := rfl
  norm_num [exTRAPinit_xn, exTRAPinit_x0, exTRAPinit_xp, exTRAPinit_y, exTRAPinit_yp, exTRAPfresh,
    freshKernel, TRAP_INT.setUp, TRAP_INT.trap_int_func, Finset.sum_range_succ, sqrt_four, h2, h3]

theorem sqrt_nine : Real.sqrt 9 = 3 := by
  rw [show (9 : Real) = 3 * 3 by norm_num]
  exact Real.sqrt_mul_self (by norm_num)

/-- C19, counterexample: over the real numbers with `x0 = 1 < xn = 2` and
`xp = y = yp = 0` (so that `f(x) = 1/x` on `[1, 2]`), one repetition of
`TRAP_INT::runKernel` on `Base_Seq` contributes `7/4` for run size 1 and `9/4` for
run size 2, while the composite trapezoid rule with 1 and 2 subintervals gives
`3/4` and `17/24`: the contribution is not the trapezoid-rule value. -/
theorem C19_counterexample :
    (1 : Real) < 2 ∧
    (TRAP_INT.runKernel Real.sqrt hostBuild (idRuntime _) VariantID.Base_Seq
        (TRAP_INT.setUp Real.sqrt exTRAPinit (1 / 2) VariantID.Base_Seq
          (exTRAPfresh 1 1 : Kernel Real (TRAP_INT.Data Real)))).data.m_sumx = 7 / 4 ∧
    TRAP_INT.trapezoidRule (fun x : Real => TRAP_INT.trap_int_func Real.sqrt x 0 0 0) 1 2 1
      = 3 / 4 ∧
    (TRAP_INT.runKernel Real.sqrt hostBuild (idRuntime _) VariantID.Base_Seq
        (TRAP_INT.setUp Real.sqrt exTRAPinit (1 / 2) VariantID.Base_Seq
          (exTRAPfresh 1 1 : Kernel Real (TRAP_INT.Data Real)))).data.m_sumx
      ≠ TRAP_INT.trapezoidRule (fun x : Real => TRAP_INT.trap_int_func Real.sqrt x 0 0 0) 1 2 1 ∧
    (TRAP_INT.runKernel Real.sqrt hostBuild (idRuntime _) VariantID.Base_Seq
        (TRAP_INT.setUp Real.sqrt exTRAPinit (1 / 2) VariantID.Base_Seq
          (exTRAPfresh 2 1 : Kernel Real (TRAP_INT.Data Real)))).data.m_sumx = 9 / 4 ∧
    TRAP_INT.trapezoidRule (fun x : Real => TRAP_INT.trap_int_func Real.sqrt x 0 0 0) 1 2 2
      = 17 / 24 ∧
    (TRAP_INT.runKernel Real.sqrt hostBuild (idRuntime _) VariantID.Base_Seq
        (TRAP_INT.setUp Real.sqrt exTRAPinit (1 / 2) VariantID.Base_Seq
          (exTRAPfresh 2 1 : Kernel Real (TRAP_INT.Data Real)))).data.m_sumx
      ≠ TRAP_INT.trapezoidRule (fun x : Real => TRAP_INT.trap_int_func Real.sqrt x 0 0 0) 1 2 2 := by
  have h1 : (1 : Int).toNat = 1 := rfl
  have h2 : (2 : Int).toNat = 2 := rfl
  have hI : Finset.Ico 1 2 = {1} := by decide
  have c1 : (TRAP_INT.runKernel Real.sqrt hostBuild (idRuntime _) VariantID.Base_Seq
        (TRAP_INT.setUp Real.sqrt exTRAPinit (1 / 2) VariantID.Base_Seq
          (exTRAPfresh 1 1 : Kernel Real (TRAP_INT.Data Real)))).data.m_sumx = 7 / 4 := by
    simp only [TRAP_INT.runKernel, dispatch, timedReps_eq, TRAP_INT_iterate]
    norm_num [exTRAPinit_xn, exTRAPinit_x0, exTRAPinit_xp, exTRAPinit_y, exTRAPinit_yp,
      exTRAPfresh, freshKernel, TRAP_INT.setUp, TRAP_INT.trap_int_func, TRAP_INT.bodySum,
      Finset.sum_range_succ, sqrt_four, h1]
  have t1 : TRAP_INT.trapezoidRule (fun x : Real => TRAP_INT.trap_int_func Real.sqrt x 0 0 0)
      1 2 1 = 3 / 4 := by
    norm_num [TRAP_INT.trapezoidRule, TRAP_INT.trap_int_func, sqrt_four]
  have c2 : (TRAP_INT.runKernel Real.sqrt hostBuild (idRuntime _) VariantID.Base_Seq
        (TRAP_INT.setUp Real.sqrt exTRAPinit (1 / 2) VariantID.Base_Seq
          (exTRAPfresh 2 1 : Kernel Real (TRAP_INT.Data Real)))).data.m_sumx = 9 / 4 := by
    simp only [TRAP_INT.runKernel, dispatch, timedReps_eq, TRAP_INT_iterate]
    norm_num [exTRAPinit_xn, exTRAPinit_x0, exTRAPinit_xp, exTRAPinit_y, exTRAPinit_yp,
      exTRAPfresh, freshKernel, TRAP_INT.setUp, TRAP_INT.trap_int_func, TRAP_INT.bodySum,
      Finset.sum_range_succ, sqrt_four, h1, h2]
  have t2 : TRAP_INT.trapezoidRule (fun x : Real => TRAP_INT.trap_int_func Real.sqrt x 0 0 0)
      1 2 2 = 17 / 24 := by
    norm_num [TRAP_INT.trapezoidRule, TRAP_INT.trap_int_func, sqrt_four, sqrt_nine, hI]
  refine ⟨by norm_num, c1, t1, ?_, c2, t2, ?_⟩
  · rw [c1, t1]
    norm_num
  · rw [c2, t2]
    norm_num

/-- C19, amended: starting from the state `TRAP_INT::setUp` leaves, with the literal
`0.5` one half, one repetition of `runKernel` on `Base_Seq` with run size `n`
contributes `h * ((f(x0) + f(xn))/2 + f(x0) + f(x0 + h) + ... + f(x0 + (n-1)*h))`
with `h = xn - x0`, the length of the whole interval whatever `n`, and
`f(x) = trap_int_func(x, y, xp, yp)`: the trapezoid-rule value of one subinterval
`[x0, xn]` plus `h` times the sum of `f` at the `n` points `x0 + i*h`, `i = 0..n-1`. -/
theorem C19_trap_int_contribution {α C : Type} [Field α] (sqrt : α → α) (cfg : BuildConfig)
    (rt : Runtime (TRAP_INT.Data α)) (initData : String → VariantID → α) (half : α)
    (k : Kernel C (TRAP_INT.Data α)) (hhalf : half = 1 / 2) (hreps : k.run_reps = 1) :
    (TRAP_INT.runKernel sqrt cfg rt VariantID.Base_Seq
        (TRAP_INT.setUp sqrt initData half VariantID.Base_Seq k)).data.m_sumx
      = (initData "xn" VariantID.Base_Seq - initData "m_x0" VariantID.Base_Seq)
        * ((TRAP_INT.trap_int_func sqrt (initData "m_x0" VariantID.Base_Seq)
                (initData "m_y" VariantID.Base_Seq) (initData "m_xp" VariantID.Base_Seq)
                (initData "m_yp" VariantID.Base_Seq)
              + TRAP_INT.trap_int_func sqrt (initData "xn" VariantID.Base_Seq)
                (initData "m_y" VariantID.Base_Seq) (initData "m_xp" VariantID.Base_Seq)
                (initData "m_yp" VariantID.Base_Seq)) / 2
            + (Finset.range k.run_size.toNat).sum fun i : Nat =>
                TRAP_INT.trap_int_func sqrt
                  (initData "m_x0" VariantID.Base_Seq
                    + (i : α)
                      * (initData "xn" VariantID.Base_Seq - initData "m_x0" VariantID.Base_Seq))
                  (initData "m_y" VariantID.Base_Seq) (initData "m_xp" VariantID.Base_Seq)
                  (initData "m_yp" VariantID.Base_Seq)) ∧
    (TRAP_INT.runKernel sqrt cfg rt VariantID.Base_Seq
        (TRAP_INT.setUp sqrt initData half VariantID.Base_Seq k)).data.m_sumx
      = TRAP_INT.trapezoidRule
          (fun x => TRAP_INT.trap_int_func sqrt x (initData "m_y" VariantID.Base_Seq)
            (initData "m_xp" VariantID.Base_Seq) (initData "m_yp" VariantID.Base_Seq))
          (initData "m_x0" VariantID.Base_Seq) (initData "xn" VariantID.Base_Seq) 1
        + (initData "xn" VariantID.Base_Seq - initData "m_x0" VariantID.Base_Seq)
          * (Finset.range k.run_size.toNat).sum fun i : Nat =>
              TRAP_INT.trap_int_func sqrt
                (initData "m_x0" VariantID.Base_Seq
                  + (i : α)
                    * (initData "xn" VariantID.Base_Seq - initData "m_x0" VariantID.Base_Seq))
                (initData "m_y" VariantID.Base_Seq) (initData "m_xp" VariantID.Base_Seq)
                (initData "m_yp" VariantID.Base_Seq) := by
  have h1 : (1 : Int).toNat = 1 := rfl
  have hrun : (TRAP_INT.runKernel sqrt cfg rt VariantID.Base_Seq
        (TRAP_INT.setUp sqrt initData half VariantID.Base_Seq k)).data.m_sumx
      = (initData "xn" VariantID.Base_Seq - initData "m_x0" VariantID.Base_Seq)
        * ((TRAP_INT.trap_int_func sqrt (initData "m_x0" VariantID.Base_Seq)
                (initData "m_y" VariantID.Base_Seq) (initData "m_xp" VariantID.Base_Seq)
                (initData "m_yp" VariantID.Base_Seq)
              + TRAP_INT.trap_int_func sqrt (initData "xn" VariantID.Base_Seq)
                (initData "m_y" VariantID.Base_Seq) (initData "m_xp" VariantID.Base_Seq)
                (initData "m_yp" VariantID.Base_Seq)) / 2
            + (Finset.range k.run_size.toNat).sum fun i : Nat =>
                TRAP_INT.trap_int_func sqrt
                  (initData "m_x0" VariantID.Base_Seq
                    + (i : α)
                      * (initData "xn" VariantID.Base_Seq - initData "m_x0" VariantID.Base_Seq))
                  (initData "m_y" VariantID.Base_Seq) (initData "m_xp" VariantID.Base_Seq)
                  (initData "m_yp" VariantID.Base_Seq)) := by
    simp only [TRAP_INT.runKernel, dispatch, timedReps_eq, TRAP_INT_iterate]
    simp only [TRAP_INT.setUp, TRAP_INT.bodySum, Int.cast_natCast, hreps, h1, hhalf,
      Nat.cast_one]
    ring
  refine ⟨hrun, ?_⟩
  rw [hrun]
  simp only [TRAP_INT.trapezoidRule, Nat.cast_one, div_one, Finset.Ico_self, Finset.sum_empty,
    add_zero]
  ring

/-- C19, amended, over the real numbers with the real square root, at `x0 = 1`,
`xn = 2`, `xp = y = yp = 0` and run size 2: the contribution is
`1 * ((1 + 1/2)/2 + 1 + 1/2) = 9/4`. -/
theorem C19_trap_int_contribution_witness :
    ((1 : Real) / 2 = 1 / 2) ∧
    (exTRAPfresh 2 1 : Kernel Real (TRAP_INT.Data Real)).run_reps = 1 ∧
    (TRAP_INT.runKernel Real.sqrt hostBuild (idRuntime _) VariantID.Base_Seq
        (TRAP_INT.setUp Real.sqrt exTRAPinit (1 / 2) VariantID.Base_Seq
          (exTRAPfresh 2 1 : Kernel Real (TRAP_INT.Data Real)))).data.m_sumx = 9 / 4 := by
  refine ⟨rfl, rfl, ?_⟩
  rw [(C19_trap_int_contribution Real.sqrt hostBuild (idRuntime _) exTRAPinit (1 / 2)
      (exTRAPfresh 2 1 : Kernel Real (TRAP_INT.Data Real)) rfl rfl).1]
  have h2 : (2 : Int).toNat = 2 := rfl
  norm_num [exTRAPinit_xn, exTRAPinit_x0, exTRAPinit_xp, exTRAPinit_y, exTRAPinit_yp, exTRAPfresh,
    freshKernel, TRAP_INT.trap_int_func, Finset.sum_range_succ, sqrt_four, h2]

/-! ## DEL_DOT_VEC_2D: the divisions (C21) -/

section DelDotDivisions

variable {α : Type} [Field α] [DecidableEq α]

theorem divChecked_eq_none (a b : α) : divChecked a b = none ↔ b = 0 := by
  unfold divChecked
  split <;> simp_all

theorem divChecked_of_ne (a b : α) (hb : b ≠ 0) : divChecked a b = some (a / b) := by
  unfold divChecked
  rw [if_neg hb]

theorem divValueChecked_eq_none (v : DEL_DOT_VEC_2D.Views) (x y xdot ydot : List α)
    (ptiny half : α) (i : Int) :
    DEL_DOT_VEC_2D.divValueChecked v x y xdot ydot ptiny half i = none
      ↔ DEL_DOT_VEC_2D.areaDivisor v x y ptiny half i = 0
        ∨ DEL_DOT_VEC_2D.affineDivisor v y i = 0 := by
  simp only [DEL_DOT_VEC_2D.divValueChecked, DEL_DOT_VEC_2D.areaDivisor,
    DEL_DOT_VEC_2D.affineDivisor, DEL_DOT_VEC_2D.jacobian]
  by_cases h1 : half * (load x (v.o1 + i) + load x (v.o2 + i) - load x (v.o3 + i)
        - load x (v.o4 + i))
      * (half * (load y (v.o2 + i) + load y (v.o3 + i) - load y (v.o4 + i) - load y (v.o1 + i)))
      - half * (load x (v.o2 + i) + load x (v.o3 + i) - load x (v.o4 + i) - load x (v.o1 + i))
        * (half * (load y (v.o1 + i) + load y (v.o2 + i) - load y (v.o3 + i)
          - load y (v.o4 + i))) + ptiny = 0
  · simp [divChecked, h1]
  · by_cases h2 : load y (v.o1 + i) + load y (v.o2 + i) + load y (v.o3 + i)
        + load y (v.o4 + i) = 0
    · simp [divChecked, h1, h2]
    · simp [divChecked, h1, h2]

theorem divValueChecked_of_ne (v : DEL_DOT_VEC_2D.Views) (x y xdot ydot : List α)
    (ptiny half : α) (i : Int)
    (h1 : DEL_DOT_VEC_2D.areaDivisor v x y ptiny half i ≠ 0)
    (h2 : DEL_DOT_VEC_2D.affineDivisor v y i ≠ 0) :
    DEL_DOT_VEC_2D.divValueChecked v x y xdot ydot ptiny half i
      = some (DEL_DOT_VEC_2D.divValue v x y xdot ydot ptiny half i) := by
  simp only [DEL_DOT_VEC_2D.areaDivisor, DEL_DOT_VEC_2D.affineDivisor,
    DEL_DOT_VEC_2D.jacobian] at h1 h2
  simp only [DEL_DOT_VEC_2D.divValueChecked, DEL_DOT_VEC_2D.divValue, divChecked_of_ne _ _ h1,
    divChecked_of_ne _ _ h2, Option.some_bind]

end DelDotDivisions

/-- C21: `DEL_DOT_VEC_2D_BODY` with its two divisions guarded takes the error branch
exactly when one of the two divisors is zero; in particular it takes it for every
zone whose four `y` values sum to zero (the divisor of `affine`), whatever the
other values are.  The divisor of `rarea` is `xi * yj - xj * yi + ptiny`, with no
other test.  Off the error branch the guarded body stores what the body stores. -/
theorem C21_affine_division_unguarded {α : Type} [Field α] [DecidableEq α]
    (v : DEL_DOT_VEC_2D.Views) (x y xdot ydot : List α) (real_zones : List Int)
    (ptiny half : α) (ii : Int) (div : List α) :
    (DEL_DOT_VEC_2D.DEL_DOT_VEC_2D_BODY_checked v x y xdot ydot real_zones ptiny half ii div
        = none
      ↔ DEL_DOT_VEC_2D.areaDivisor v x y ptiny half (load real_zones ii) = 0
        ∨ DEL_DOT_VEC_2D.affineDivisor v y (load real_zones ii) = 0) ∧
    (DEL_DOT_VEC_2D.affineDivisor v y (load real_zones ii) = 0 →
      DEL_DOT_VEC_2D.DEL_DOT_VEC_2D_BODY_checked v x y xdot ydot real_zones ptiny half ii div
        = none) ∧
    (DEL_DOT_VEC_2D.areaDivisor v x y ptiny half (load real_zones ii) ≠ 0 →
      DEL_DOT_VEC_2D.affineDivisor v y (load real_zones ii) ≠ 0 →
      DEL_DOT_VEC_2D.DEL_DOT_VEC_2D_BODY_checked v x y xdot ydot real_zones ptiny half ii div
        = some (DEL_DOT_VEC_2D.DEL_DOT_VEC_2D_BODY v x y xdot ydot real_zones ptiny half ii
            div)) ∧
    (∀ i : Int, DEL_DOT_VEC_2D.areaDivisor v x y ptiny half i
      = half * (load x (v.o1 + i) + load x (v.o2 + i) - load x (v.o3 + i) - load x (v.o4 + i))
          * (half * (load y (v.o2 + i) + load y (v.o3 + i) - load y (v.o4 + i)
              - load y (v.o1 + i)))
        - half * (load x (v.o2 + i) + load x (v.o3 + i) - load x (v.o4 + i) - load x (v.o1 + i))
          * (half * (load y (v.o1 + i) + load y (v.o2 + i) - load y (v.o3 + i)
              - load y (v.o4 + i)))
        + ptiny) := by
  have hiff : DEL_DOT_VEC_2D.DEL_DOT_VEC_2D_BODY_checked v x y xdot ydot real_zones ptiny half
        ii div = none
      ↔ DEL_DOT_VEC_2D.areaDivisor v x y ptiny half (load real_zones ii) = 0
        ∨ DEL_DOT_VEC_2D.affineDivisor v y (load real_zones ii) = 0 := by
    simp only [DEL_DOT_VEC_2D.DEL_DOT_VEC_2D_BODY_checked, Option.map_eq_none']
    exact divValueChecked_eq_none v x y xdot ydot ptiny half _
  refine ⟨hiff, fun h => hiff.2 (Or.inr h), ?_, fun i => rfl⟩
  intro h1 h2
  simp only [DEL_DOT_VEC_2D.DEL_DOT_VEC_2D_BODY_checked, DEL_DOT_VEC_2D.DEL_DOT_VEC_2D_BODY,
    divValueChecked_of_ne v x y xdot ydot ptiny half _ h1 h2, Option.map_some']

/-- C21 at the object `exDELDOTcentred`: the zone is a unit-width square of height 2
centred on the line `y = 0`; its `y` values sum to zero and the guarded body fails. -/
theorem C21_affine_division_unguarded_witness :
    DEL_DOT_VEC_2D.affineDivisor (exViews 2) exDELDOTcentred.data.m_y
      (load exDELDOTcentred.data.m_domain.real_zones 0) = 0 ∧
    DEL_DOT_VEC_2D.DEL_DOT_VEC_2D_BODY_checked (exViews 2) exDELDOTcentred.data.m_x
      exDELDOTcentred.data.m_y exDELDOTcentred.data.m_xdot exDELDOTcentred.data.m_ydot
      exDELDOTcentred.data.m_domain.real_zones exDELDOTcentred.data.m_ptiny
      exDELDOTcentred.data.m_half 0 exDELDOTcentred.data.m_div = none := by
  have h : DEL_DOT_VEC_2D.affineDivisor (exViews 2) exDELDOTcentred.data.m_y
      (load exDELDOTcentred.data.m_domain.real_zones 0) = 0 := by
    have h2 : (2 : Int).toNat = 2 := rfl
    have h3 : (3 : Int).toNat = 3 := rfl
    norm_num [DEL_DOT_VEC_2D.affineDivisor, exViews, exDELDOTcentred, freshKernel, load, h2, h3]
  exact ⟨h, (C21_affine_division_unguarded (exViews 2) exDELDOTcentred.data.m_x
      exDELDOTcentred.data.m_y exDELDOTcentred.data.m_xdot exDELDOTcentred.data.m_ydot
      exDELDOTcentred.data.m_domain.real_zones exDELDOTcentred.data.m_ptiny
      exDELDOTcentred.data.m_half 0 exDELDOTcentred.data.m_div).2.1 h⟩

/-! ## DEL_DOT_VEC_2D: the reference divergence (C22) -/

section ScatterLoop

variable {α : Type} [Zero α]

/-- A loop whose iteration `ii` stores into `buf[z ii]` a value computed from `z ii`
alone: the cells it reaches hold that value, every other cell is unchanged. -/
theorem forLoopAux_scatter (z : Int → Int) (g : Int → α) (body : Int → List α → List α)
    (hbody : ∀ ii b, body ii b = store b (z ii) (g (z ii))) (n : Nat) (b : List α) :
    (forLoopAux body n 0 b).length = b.length ∧
    (∀ ii : Int, 0 ≤ ii → ii < n → 0 ≤ z ii → z ii < b.length →
      load (forLoopAux body n 0 b) (z ii) = g (z ii)) ∧
    (∀ q : Int, (∀ ii : Int, 0 ≤ ii → ii < n → z ii ≠ q) →
      load (forLoopAux body n 0 b) q = load b q) := by
  induction n with
  | zero =>
    refine ⟨rfl, ?_, fun q _ => rfl⟩
    intro ii h0 h1
    simp at h1
    omega
  | succ n ih =>
    obtain ⟨hlen, hhit, hmiss⟩ := ih
    rw [forLoopAux_succ_right, hbody, zero_add]
    refine ⟨by rw [store_length, hlen], ?_, ?_⟩
    · intro ii h0 h1 hz0 hz1
      rw [load_store, hlen]
      by_cases hq : z ii = z n
      · rw [if_pos ⟨hq, by rw [← hq]; exact hz0, by rw [← hq]; exact hz1⟩, hq]
      · rw [if_neg (fun h => hq h.1)]
        have hlt : ii < n := by
          rcases (show ii < n ∨ ii = n by push_cast at h1; omega) with h | h
          · exact h
          · exact absurd (by rw [h]) hq
        exact hhit ii h0 hlt hz0 hz1
    · intro q hq
      rw [load_store, if_neg]
      · exact hmiss q (fun ii h0 h1 => hq ii h0 (by push_cast; omega))
      · intro h
        exact hq n (by omega) (by push_cast; omega) h.1.symm

theorem forLoopAux_scatter_idempotent (z : Int → Int) (g : Int → α)
    (body : Int → List α → List α)
    (hbody : ∀ ii b, body ii b = store b (z ii) (g (z ii))) (n : Nat) (b : List α) :
    forLoopAux body n 0 (forLoopAux body n 0 b) = forLoopAux body n 0 b := by
  have h1 := forLoopAux_scatter z g body hbody n b
  have h2 := forLoopAux_scatter z g body hbody n (forLoopAux body n 0 b)
  apply list_ext_load
  · exact h2.1
  · intro q
    by_cases hq : ∃ ii : Int, 0 ≤ ii ∧ ii < n ∧ z ii = q
    · obtain ⟨ii, h0, hn, rfl⟩ := hq
      by_cases hin : 0 ≤ z ii ∧ z ii < b.length
      · rw [h2.2.1 ii h0 hn hin.1 (by rw [h1.1]; exact hin.2), h1.2.1 ii h0 hn hin.1 hin.2]
      · have hout : ∀ l : List α, l.length = b.length → load l (z ii) = 0 := by
          intro l hl
          by_cases hneg : z ii < 0
          · exact load_of_neg l _ hneg
          · exact load_of_length_le l _ (by rw [hl]; omega)
        rw [hout _ (h2.1.trans h1.1), hout _ h1.1]
    · have hmiss : ∀ ii : Int, 0 ≤ ii → ii < n → z ii ≠ q :=
        fun ii h0 hn hz => hq ⟨ii, h0, hn, hz⟩
      rw [h2.2.2 q hmiss]

end ScatterLoop

section DelDotReference

variable {α C : Type} [Field α]

theorem divValue_eq_divRef (v : DEL_DOT_VEC_2D.Views) (x y xdot ydot : List α) (ptiny half : α)
    (i : Int) :
    DEL_DOT_VEC_2D.divValue v x y xdot ydot ptiny half i
      = DEL_DOT_VEC_2D.divRef half ptiny
          (load x (v.o1 + i)) (load x (v.o2 + i)) (load x (v.o3 + i)) (load x (v.o4 + i))
          (load y (v.o1 + i)) (load y (v.o2 + i)) (load y (v.o3 + i)) (load y (v.o4 + i))
          (load xdot (v.o1 + i)) (load xdot (v.o2 + i)) (load xdot (v.o3 + i))
          (load xdot (v.o4 + i))
          (load ydot (v.o1 + i)) (load ydot (v.o2 + i)) (load ydot (v.o3 + i))
          (load ydot (v.o4 + i)) := rfl

theorem DEL_DOT_sweep_idempotent (NDSET2D : Int → DEL_DOT_VEC_2D.Views) (iend : Int)
    (d : DEL_DOT_VEC_2D.Data α) :
    DEL_DOT_VEC_2D.sweep NDSET2D iend (DEL_DOT_VEC_2D.sweep NDSET2D iend d)
      = DEL_DOT_VEC_2D.sweep NDSET2D iend d := by
  simp only [DEL_DOT_VEC_2D.sweep, forLoop_zero_toNat]
  congr 1
  exact forLoopAux_scatter_idempotent (fun ii => load d.m_domain.real_zones ii)
    (fun i => DEL_DOT_VEC_2D.divValue (NDSET2D d.m_domain.jp) d.m_x d.m_y d.m_xdot d.m_ydot
      d.m_ptiny d.m_half i)
    _ (fun _ _ => rfl) _ _

theorem DEL_DOT_runKernel_Base_Seq (NDSET2D : Int → DEL_DOT_VEC_2D.Views) (cfg : BuildConfig)
    (rt : Runtime (DEL_DOT_VEC_2D.Data α)) (k : Kernel C (DEL_DOT_VEC_2D.Data α))
    (hreps : 1 ≤ k.run_reps) :
    (DEL_DOT_VEC_2D.runKernel NDSET2D cfg rt VariantID.Base_Seq k).data
      = DEL_DOT_VEC_2D.sweep NDSET2D k.data.m_domain.n_real_zones k.data := by
  simp only [DEL_DOT_VEC_2D.runKernel, dispatch, timedReps_eq]
  rw [iterate_of_idempotent _ (DEL_DOT_sweep_idempotent NDSET2D _) _ (by omega)]

theorem DEL_DOT_sweep_div (NDSET2D : Int → DEL_DOT_VEC_2D.Views) (iend : Int)
    (d : DEL_DOT_VEC_2D.Data α) :
    (DEL_DOT_VEC_2D.sweep NDSET2D iend d).m_div.length = d.m_div.length ∧
    (∀ ii : Int, 0 ≤ ii → ii < iend.toNat → 0 ≤ load d.m_domain.real_zones ii →
      load d.m_domain.real_zones ii < d.m_div.length →
      load (DEL_DOT_VEC_2D.sweep NDSET2D iend d).m_div (load d.m_domain.real_zones ii)
        = DEL_DOT_VEC_2D.divValue (NDSET2D d.m_domain.jp) d.m_x d.m_y d.m_xdot d.m_ydot
            d.m_ptiny d.m_half (load d.m_domain.real_zones ii)) ∧
    (∀ q : Int, (∀ ii : Int, 0 ≤ ii → ii < iend.toNat → load d.m_domain.real_zones ii ≠ q) →
      load (DEL_DOT_VEC_2D.sweep NDSET2D iend d).m_div q = load d.m_div q) := by
  simp only [DEL_DOT_VEC_2D.sweep, forLoop_zero_toNat]
  exact forLoopAux_scatter (fun ii => load d.m_domain.real_zones ii)
    (fun i => DEL_DOT_VEC_2D.divValue (NDSET2D d.m_domain.jp) d.m_x d.m_y d.m_xdot d.m_ydot
      d.m_ptiny d.m_half i)
    _ (fun _ _ => rfl) _ _

end DelDotReference

/-- C22: for a domain whose `real_zones` entries lie in `[0, nnalls)`, `div` of `nnalls`
elements and at least one repetition, after `DEL_DOT_VEC_2D::runKernel` on
`Base_Seq`: for every `ii` in `[0, n_real_zones)` with `i = real_zones[ii]`, `div[i]`
is the value of the reference implementation at the sixteen corner values of zone
`i` (and, when both divisors are non-zero, the value the guarded body computes);
every entry of `div` whose index is not among `real_zones[0 .. n_real_zones)` is
unchanged; `div` keeps its length; `x`, `y`, `xdot`, `ydot`, the scalars and the
domain are unchanged; and the members are those one repetition leaves. -/
theorem C22_deldot_reference {α C : Type} [Field α] [DecidableEq α]
    (NDSET2D : Int → DEL_DOT_VEC_2D.Views) (cfg : BuildConfig)
    (rt : Runtime (DEL_DOT_VEC_2D.Data α)) (k : Kernel C (DEL_DOT_VEC_2D.Data α))
    (hdiv : (k.data.m_div.length : Int) = k.data.m_domain.nnalls)
    (hzones : ∀ ii : Int, 0 ≤ ii → ii < k.data.m_domain.n_real_zones →
      0 ≤ load k.data.m_domain.real_zones ii ∧
      load k.data.m_domain.real_zones ii < k.data.m_domain.nnalls)
    (hreps : 1 ≤ k.run_reps) :
    (∀ ii : Int, 0 ≤ ii → ii < k.data.m_domain.n_real_zones →
      load (DEL_DOT_VEC_2D.runKernel NDSET2D cfg rt VariantID.Base_Seq k).data.m_div
          (load k.data.m_domain.real_zones ii)
        = DEL_DOT_VEC_2D.divRef k.data.m_half k.data.m_ptiny
            (load k.data.m_x ((NDSET2D k.data.m_domain.jp).o1 + load k.data.m_domain.real_zones ii))
            (load k.data.m_x ((NDSET2D k.data.m_domain.jp).o2 + load k.data.m_domain.real_zones ii))
            (load k.data.m_x ((NDSET2D k.data.m_domain.jp).o3 + load k.data.m_domain.real_zones ii))
            (load k.data.m_x ((NDSET2D k.data.m_domain.jp).o4 + load k.data.m_domain.real_zones ii))
            (load k.data.m_y ((NDSET2D k.data.m_domain.jp).o1 + load k.data.m_domain.real_zones ii))
            (load k.data.m_y ((NDSET2D k.data.m_domain.jp).o2 + load k.data.m_domain.real_zones ii))
            (load k.data.m_y ((NDSET2D k.data.m_domain.jp).o3 + load k.data.m_domain.real_zones ii))
            (load k.data.m_y ((NDSET2D k.data.m_domain.jp).o4 + load k.data.m_domain.real_zones ii))
            (load k.data.m_xdot
              ((NDSET2D k.data.m_domain.jp).o1 + load k.data.m_domain.real_zones ii))
            (load k.data.m_xdot
              ((NDSET2D k.data.m_domain.jp).o2 + load k.data.m_domain.real_zones ii))
            (load k.data.m_xdot
              ((NDSET2D k.data.m_domain.jp).o3 + load k.data.m_domain.real_zones ii))
            (load k.data.m_xdot
              ((NDSET2D k.data.m_domain.jp).o4 + load k.data.m_domain.real_zones ii))
            (load k.data.m_ydot
              ((NDSET2D k.data.m_domain.jp).o1 + load k.data.m_domain.real_zones ii))
            (load k.data.m_ydot
              ((NDSET2D k.data.m_domain.jp).o2 + load k.data.m_domain.real_zones ii))
            (load k.data.m_ydot
              ((NDSET2D k.data.m_domain.jp).o3 + load k.data.m_domain.real_zones ii))
            (load k.data.m_ydot
              ((NDSET2D k.data.m_domain.jp).o4 + load k.data.m_domain.real_zones ii)) ∧
      (DEL_DOT_VEC_2D.areaDivisor (NDSET2D k.data.m_domain.jp) k.data.m_x k.data.m_y
          k.data.m_ptiny k.data.m_half (load k.data.m_domain.real_zones ii) ≠ 0 →
        DEL_DOT_VEC_2D.affineDivisor (NDSET2D k.data.m_domain.jp) k.data.m_y
          (load k.data.m_domain.real_zones ii) ≠ 0 →
        DEL_DOT_VEC_2D.divValueChecked (NDSET2D k.data.m_domain.jp) k.data.m_x k.data.m_y
            k.data.m_xdot k.data.m_ydot k.data.m_ptiny k.data.m_half
            (load k.data.m_domain.real_zones ii)
          = some (load (DEL_DOT_VEC_2D.runKernel NDSET2D cfg rt VariantID.Base_Seq k).data.m_div
              (load k.data.m_domain.real_zones ii)))) ∧
    (∀ q : Int,
      (∀ ii : Int, 0 ≤ ii → ii < k.data.m_domain.n_real_zones →
        load k.data.m_domain.real_zones ii ≠ q) →
      load (DEL_DOT_VEC_2D.runKernel NDSET2D cfg rt VariantID.Base_Seq k).data.m_div q
        = load k.data.m_div q) ∧
    (DEL_DOT_VEC_2D.runKernel NDSET2D cfg rt VariantID.Base_Seq k).data.m_div.length
      = k.data.m_div.length ∧
    (DEL_DOT_VEC_2D.runKernel NDSET2D cfg rt VariantID.Base_Seq k).data
      = { k.data with
          m_div := (DEL_DOT_VEC_2D.runKernel NDSET2D cfg rt VariantID.Base_Seq k).data.m_div } ∧
    (DEL_DOT_VEC_2D.runKernel NDSET2D cfg rt VariantID.Base_Seq k).data
      = DEL_DOT_VEC_2D.sweep NDSET2D k.data.m_domain.n_real_zones k.data := by
  have hrun := DEL_DOT_runKernel_Base_Seq NDSET2D cfg rt k hreps
  obtain ⟨hlen, hhit, hmiss⟩ :=
    DEL_DOT_sweep_div NDSET2D k.data.m_domain.n_real_zones k.data
  rw [hrun]
  refine ⟨?_, ?_, hlen, rfl, rfl⟩
  · intro ii h0 h1
    have hz := hzones ii h0 h1
    have hval := hhit ii h0 (by omega) hz.1 (by omega)
    refine ⟨by rw [hval, divValue_eq_divRef], ?_⟩
    intro ha hb
    rw [hval]
    exact divValueChecked_of_ne _ _ _ _ _ _ _ _ ha hb
  · intro q hq
    exact hmiss q (fun ii h0 h1 => hq ii h0 (by omega))

/-- C22 at the object `exDELDOT` (one real zone, zone 0, on a 2 x 2 node grid). -/
theorem C22_deldot_reference_witness :
    ((exDELDOT.data.m_div.length : Int) = exDELDOT.data.m_domain.nnalls) ∧
    (∀ q : Int,
      (∀ ii : Int, 0 ≤ ii → ii < exDELDOT.data.m_domain.n_real_zones →
        load exDELDOT.data.m_domain.real_zones ii ≠ q) →
      load (DEL_DOT_VEC_2D.runKernel exViews hostBuild (idRuntime _) VariantID.Base_Seq
          exDELDOT).data.m_div q
        = load exDELDOT.data.m_div q) :=
  ⟨by decide,
    (C22_deldot_reference exViews hostBuild (idRuntime _) exDELDOT (by decide)
      (by
        intro ii h0 h1
        have h : ii = 0 := by
          have : exDELDOT.data.m_domain.n_real_zones = 1 := rfl
          omega
        subst h
        decide)
      (by decide)).2.1⟩

/-! ## ADD: the case with an empty block (C23) -/

section AddEmptyCase

variable {α C D : Type} [Zero α] [Add α]

/-- In a build with `_OPENMP` the block of `case RAJALike_OpenMP` is empty: `runKernel`
returns the object as it was given. -/
theorem ADD_empty_case (cfg : BuildConfig) (rt : Runtime (ADD.Data α))
    (k : Kernel C (ADD.Data α)) (h : cfg.OPENMP = true) :
    ADD.runKernel cfg rt VariantID.RAJALike_OpenMP k = k := by
  simp [ADD.runKernel, h]

/-- The empty block is the only way `ADD::runKernel` leaves the record as it was. -/
theorem ADD_silent_only_empty_case (cfg : BuildConfig) (rt : Runtime (ADD.Data α))
    (vid : VariantID) (k : Kernel C (ADD.Data α))
    (h : (ADD.runKernel cfg rt vid k).trace = k.trace) :
    vid = VariantID.RAJALike_OpenMP ∧ cfg.OPENMP = true := by
  cases vid <;> simp only [ADD.runKernel] at h <;> (try split at h) <;>
    simp_all [timedReps_eq, stagedReps, unknownVariant, Kernel.log, Kernel.logs]

theorem timerCalls_append (a b : List Event) :
    timerCalls (a ++ b) = timerCalls a + timerCalls b := by
  simp [timerCalls]

theorem coutCalls_append (a b : List Event) :
    coutCalls (a ++ b) = coutCalls a + coutCalls b := by
  simp [coutCalls]

theorem timerCalls_map_sweep (l : List Int) : timerCalls (l.map Event.sweep) = 0 := by
  induction l with
  | nil => rfl
  | cons e a ih =>
    simp only [timerCalls] at ih
    simp [timerCalls, List.filter_cons, ih]

theorem coutCalls_map_sweep (l : List Int) : coutCalls (l.map Event.sweep) = 0 := by
  induction l with
  | nil => rfl
  | cons e a ih =>
    simp only [coutCalls] at ih
    simp [coutCalls, List.filter_cons, ih]

theorem timerCalls_timedReps (R : Int) (sw : D → D) (k : Kernel C D) :
    timerCalls (timedReps R sw k).trace = timerCalls k.trace + 2 := by
  rw [timedReps_eq]
  have h := timerCalls_map_sweep (repIndices R)
  rw [show (Event.startTimer :: ((repIndices R).map Event.sweep ++ [Event.stopTimer]))
      = [Event.startTimer] ++ ((repIndices R).map Event.sweep ++ [Event.stopTimer]) from rfl]
  simp only [timerCalls_append, h]
  rfl

theorem coutCalls_timedReps (R : Int) (sw : D → D) (k : Kernel C D) :
    coutCalls (timedReps R sw k).trace = coutCalls k.trace := by
  rw [timedReps_eq]
  have h := coutCalls_map_sweep (repIndices R)
  rw [show (Event.startTimer :: ((repIndices R).map Event.sweep ++ [Event.stopTimer]))
      = [Event.startTimer] ++ ((repIndices R).map Event.sweep ++ [Event.stopTimer]) from rfl]
  simp only [coutCalls_append, h]
  rfl

theorem timerCalls_stagedReps (rt : Runtime D) (vid : VariantID) (R : Int) (k : Kernel C D) :
    timerCalls (stagedReps rt vid R k).trace = timerCalls k.trace + 2 := by
  simp only [stagedReps]
  rw [timerCalls_timedReps]

theorem coutCalls_stagedReps (rt : Runtime D) (vid : VariantID) (R : Int) (k : Kernel C D) :
    coutCalls (stagedReps rt vid R k).trace = coutCalls k.trace := by
  simp only [stagedReps]
  rw [coutCalls_timedReps]

/-- A case label of `ADD::runKernel` whose block runs the timed sample loop starts and
stops the timer once and prints no diagnostic. -/
theorem ADD_supported_calls (cfg : BuildConfig) (rt : Runtime (ADD.Data α)) (vid : VariantID)
    (k : Kernel C (ADD.Data α)) (h : ADD.supported cfg vid = true) :
    timerCalls (ADD.runKernel cfg rt vid k).trace = timerCalls k.trace + 2 ∧
    coutCalls (ADD.runKernel cfg rt vid k).trace = coutCalls k.trace := by
  have ha : timerCalls (["a", "b", "c"].map Event.allocAndInitCudaDeviceData) = 0 := by decide
  have hd : timerCalls (["a", "b", "c"].map Event.deallocCudaDeviceData) = 0 := by decide
  have ca : coutCalls (["a", "b", "c"].map Event.allocAndInitCudaDeviceData) = 0 := by decide
  have cd : coutCalls (["a", "b", "c"].map Event.deallocCudaDeviceData) = 0 := by decide
  cases vid <;>
    simp_all [-List.map_cons, ADD.runKernel, ADD.supported, ADD.caseLabel, timerCalls_timedReps,
      coutCalls_timedReps, timerCalls_stagedReps, coutCalls_stagedReps, Kernel.logs,
      timerCalls_append, coutCalls_append]

/-- The `default` block prints one diagnostic and calls no timer. -/
theorem unknownVariant_calls (msg : String) (vid : VariantID) (k : Kernel C D) :
    (unknownVariant msg vid k).trace = k.trace ++ [Event.cout msg vid] ∧
    (unknownVariant msg vid k).data = k.data ∧
    timerCalls (unknownVariant msg vid k).trace = timerCalls k.trace ∧
    sweepsOf (unknownVariant msg vid k).trace = sweepsOf k.trace ∧
    coutCalls (unknownVariant msg vid k).trace = coutCalls k.trace + 1 := by
  simp [unknownVariant, Kernel.log, sweepsOf_append, sweepsOf, timerCalls, coutCalls]

end AddEmptyCase

set_option maxRecDepth 100000 in
/-- C23, counterexample: in a build with `_OPENMP`, `ADD::runKernel` on
`RAJALike_OpenMP` matches a case label whose block is empty: it runs no sample
loop, starts no timer and prints no diagnostic, so the record and the members of
the object are what they were and the number of diagnostics is 0, not 1; in a
build without `_OPENMP` the same identifier reaches the `default` block and is
reported once. -/
theorem C23_counterexample :
    ADD.caseLabel fullBuild VariantID.RAJALike_OpenMP = true ∧
    (ADD.runKernel fullBuild (idRuntime _) VariantID.RAJALike_OpenMP exADD).trace
      = exADD.trace ∧
    (ADD.runKernel fullBuild (idRuntime _) VariantID.RAJALike_OpenMP exADD).data
      = exADD.data ∧
    timerCalls (ADD.runKernel fullBuild (idRuntime _) VariantID.RAJALike_OpenMP exADD).trace
      = 0 ∧
    sweepsOf (ADD.runKernel fullBuild (idRuntime _) VariantID.RAJALike_OpenMP exADD).trace
      = [] ∧
    coutCalls (ADD.runKernel fullBuild (idRuntime _) VariantID.RAJALike_OpenMP exADD).trace
      = 0 ∧
    coutCalls (ADD.runKernel fullBuild (idRuntime _) VariantID.RAJALike_OpenMP exADD).trace
      ≠ 1 ∧
    coutCalls (ADD.runKernel hostBuild (idRuntime _) VariantID.RAJALike_OpenMP exADD).trace
      = 1 ∧
    coutCalls (ADD.runKernel fullBuild (idRuntime _) (VariantID.other 7) exADD).trace = 1 := by
  decide

/-- C23, amended: for every variant identifier with no case label kept by the build,
`ADD::runKernel` performs no computation (the members are unchanged, no repetition
is recorded, no timer is called) and appends the "Unknown variant id" diagnostic
exactly once.  The label `RAJALike_OpenMP`, kept under `_OPENMP` with an empty
block, performs no computation and prints nothing: the object is returned as it
was.  Every other kept label starts and stops the timer once, records the
repetitions `0, ..., run_samples - 1` and prints no diagnostic.  Every identifier
falls under one of the three cases, so a run that leaves the number of timer
calls unchanged either is reported exactly once or is the empty block of
`RAJALike_OpenMP`. -/
theorem C23_noop_reporting {α C : Type} [Zero α] [Add α] (cfg : BuildConfig)
    (rt : Runtime (ADD.Data α)) (vid : VariantID) (k : Kernel C (ADD.Data α)) :
    (ADD.caseLabel cfg vid = false →
      (ADD.runKernel cfg rt vid k).trace
        = k.trace ++ [Event.cout "\n  Unknown variant id = " vid] ∧
      (ADD.runKernel cfg rt vid k).data = k.data ∧
      timerCalls (ADD.runKernel cfg rt vid k).trace = timerCalls k.trace ∧
      sweepsOf (ADD.runKernel cfg rt vid k).trace = sweepsOf k.trace ∧
      coutCalls (ADD.runKernel cfg rt vid k).trace = coutCalls k.trace + 1) ∧
    (cfg.OPENMP = true → vid = VariantID.RAJALike_OpenMP →
      ADD.runKernel cfg rt vid k = k) ∧
    (ADD.supported cfg vid = true →
      timerCalls (ADD.runKernel cfg rt vid k).trace = timerCalls k.trace + 2 ∧
      sweepsOf (ADD.runKernel cfg rt vid k).trace = sweepsOf k.trace ++ repIndices k.run_reps ∧
      coutCalls (ADD.runKernel cfg rt vid k).trace = coutCalls k.trace) ∧
    (ADD.caseLabel cfg vid = false ∨ (vid = VariantID.RAJALike_OpenMP ∧ cfg.OPENMP = true) ∨
      ADD.supported cfg vid = true) ∧
    (timerCalls (ADD.runKernel cfg rt vid k).trace = timerCalls k.trace →
      coutCalls (ADD.runKernel cfg rt vid k).trace = coutCalls k.trace + 1 ∨
      (vid = VariantID.RAJALike_OpenMP ∧ cfg.OPENMP = true ∧ ADD.runKernel cfg rt vid k = k)) := by
  have hcases : ADD.caseLabel cfg vid = false ∨
      (vid = VariantID.RAJALike_OpenMP ∧ cfg.OPENMP = true) ∨ ADD.supported cfg vid = true := by
    cases vid <;> cases hc : cfg.OPENMP <;> cases hq : cfg.RAJA_ENABLE_CUDA <;>
      simp [ADD.caseLabel, ADD.supported, hc, hq]
  have hdflt : ADD.caseLabel cfg vid = false →
      (ADD.runKernel cfg rt vid k).trace
        = k.trace ++ [Event.cout "\n  Unknown variant id = " vid] ∧
      (ADD.runKernel cfg rt vid k).data = k.data ∧
      timerCalls (ADD.runKernel cfg rt vid k).trace = timerCalls k.trace ∧
      sweepsOf (ADD.runKernel cfg rt vid k).trace = sweepsOf k.trace ∧
      coutCalls (ADD.runKernel cfg rt vid k).trace = coutCalls k.trace + 1 := by
    intro h
    rw [ADD_default cfg rt vid k h]
    exact unknownVariant_calls _ vid k
  refine ⟨hdflt, ?_, ?_, hcases, ?_⟩
  · intro h hv
    rw [hv]
    exact ADD_empty_case cfg rt k h
  · intro h
    exact ⟨(ADD_supported_calls cfg rt vid k h).1, ADD_sweeps cfg rt vid k h,
      (ADD_supported_calls cfg rt vid k h).2⟩
  · intro ht
    rcases hcases with h | ⟨hv, ho⟩ | h
    · exact Or.inl (hdflt h).2.2.2.2
    · refine Or.inr ⟨hv, ho, ?_⟩
      rw [hv]
      exact ADD_empty_case cfg rt k ho
    · have := (ADD_supported_calls cfg rt vid k h).1
      omega

set_option maxRecDepth 100000 in
/-- C23, amended, at the object `exADD`: an identifier outside the labels of the host
build is reported once, and `RAJALike_OpenMP` in the full build returns the object
as it was. -/
theorem C23_noop_reporting_witness :
    ADD.caseLabel hostBuild (VariantID.other 7) = false ∧
    coutCalls (ADD.runKernel hostBuild (idRuntime _) (VariantID.other 7) exADD).trace
      = coutCalls exADD.trace + 1 ∧
    fullBuild.OPENMP = true ∧
    ADD.runKernel fullBuild (idRuntime _) VariantID.RAJALike_OpenMP exADD = exADD :=
  ⟨rfl, ((C23_noop_reporting hostBuild (idRuntime _) (VariantID.other 7) exADD).1 rfl).2.2.2.2,
    rfl, (C23_noop_reporting fullBuild (idRuntime _) VariantID.RAJALike_OpenMP exADD).2.1 rfl rfl⟩

/-! ## POLYBENCH_2MM: independence of the previous contents (C25) -/

section TwoMMIndependence

open POLYBENCH_2MM

variable {α C : Type} [CommSemiring α]

/-- Two row-major buffers of `m * n` elements that agree at every `(i, j)` are equal. -/
theorem ext_row_major (l1 l2 : List α) (m n : Int) (hn : 0 ≤ n)
    (h1 : (l1.length : Int) = m * n) (h2 : (l2.length : Int) = m * n)
    (h : ∀ i j : Int, 0 ≤ i → i < m → 0 ≤ j → j < n →
      load l1 (i * n + j) = load l2 (i * n + j)) : l1 = l2 := by
  apply list_ext_load
  · omega
  · intro q
    by_cases hq0 : q < 0
    · rw [load_of_neg _ _ hq0, load_of_neg _ _ hq0]
    · by_cases hq1 : m * n ≤ q
      · rw [load_of_length_le _ _ (by omega), load_of_length_le _ _ (by omega)]
      · have hq0' : 0 ≤ q := by omega
        have hqlt : q < m * n := by omega
        have hnpos : 0 < n := by
          by_contra hneg
          have h0 : n = 0 := by omega
          rw [h0, mul_zero] at hqlt
          omega
        have hd := Int.ediv_add_emod' q n
        have hr0 := Int.emod_nonneg q (show n ≠ 0 by omega)
        have hr1 := Int.emod_lt_of_pos q hnpos
        have hi0 : 0 ≤ q / n := Int.ediv_nonneg hq0' (by omega)
        have hi1 : q / n < m := Int.ediv_lt_of_lt_mul hnpos hqlt
        have := h (q / n) (q % n) hi0 hi1 hr0 hr1
        rwa [hd] at this

/-- One repetition leaves in `m_tmp` and `m_D` values that do not depend on what the
two buffers held. -/
theorem sweep_determined (d1 d2 : Data α) (hagree : sameInputs d1 d2)
    (hnj : 0 ≤ d1.m_nj) (hnl : 0 ≤ d1.m_nl)
    (htmp1 : (d1.m_tmp.length : Int) = d1.m_ni * d1.m_nj)
    (htmp2 : (d2.m_tmp.length : Int) = d1.m_ni * d1.m_nj)
    (hD1 : (d1.m_D.length : Int) = d1.m_ni * d1.m_nl)
    (hD2 : (d2.m_D.length : Int) = d1.m_ni * d1.m_nl)
    (hDD : (d1.m_DD.length : Int) = d1.m_ni * d1.m_nl) :
    (sweep d1).m_tmp = (sweep d2).m_tmp ∧ (sweep d1).m_D = (sweep d2).m_D := by
  obtain ⟨e_ni, e_nj, e_nk, e_nl, e_al, e_be, e_A, e_B, e_C, e_DD⟩ := hagree
  obtain ⟨_, l1, m1, t1, c1⟩ := sweep_spec d1 hnj hnl htmp1 hD1 hDD
  obtain ⟨_, l2, m2, t2, c2⟩ := sweep_spec d2 (by rw [e_nj]; exact hnj) (by rw [e_nl]; exact hnl)
    (by rw [e_ni, e_nj]; exact htmp2) (by rw [e_ni, e_nl]; exact hD2)
    (by rw [e_ni, e_nl, e_DD]; exact hDD)
  rw [e_ni, e_nj, e_nk, e_al, e_A, e_B] at t2
  rw [e_ni, e_nl, e_nj, e_be, e_DD, e_C] at c2
  have htmp : (sweep d1).m_tmp = (sweep d2).m_tmp := by
    apply ext_row_major _ _ d1.m_ni d1.m_nj hnj (by rw [l1]; exact htmp1)
      (by rw [l2]; exact htmp2)
    intro i j hi0 hi1 hj0 hj1
    rw [t1 i j hi0 hi1 hj0 hj1, t2 i j hi0 hi1 hj0 hj1]
  refine ⟨htmp, ?_⟩
  apply ext_row_major _ _ d1.m_ni d1.m_nl hnl (by rw [m1]; exact hD1) (by rw [m2]; exact hD2)
  intro i l hi0 hi1 hl0 hl1
  rw [c1 i l hi0 hi1 hl0 hl1, c2 i l hi0 hi1 hl0 hl1, htmp]

theorem sameInputs_iterate (d : Data α) (n : Nat) : sameInputs d (sweep^[n] d) := by
  induction n with
  | zero => exact ⟨rfl, rfl, rfl, rfl, rfl, rfl, rfl, rfl, rfl, rfl⟩
  | succ n ih =>
    rw [Function.iterate_succ_apply']
    exact ih

omit [CommSemiring α] in
theorem sameInputs_trans (d1 d2 d3 : Data α) (h12 : sameInputs d1 d2) (h23 : sameInputs d2 d3) :
    sameInputs d1 d3 := by
  obtain ⟨a1, a2, a3, a4, a5, a6, a7, a8, a9, a10⟩ := h12
  obtain ⟨b1, b2, b3, b4, b5, b6, b7, b8, b9, b10⟩ := h23
  exact ⟨b1.trans a1, b2.trans a2, b3.trans a3, b4.trans a4, b5.trans a5, b6.trans a6,
    b7.trans a7, b8.trans a8, b9.trans a9, b10.trans a10⟩

omit [CommSemiring α] in
theorem sameInputs_symm (d1 d2 : Data α) (h : sameInputs d1 d2) : sameInputs d2 d1 := by
  obtain ⟨a1, a2, a3, a4, a5, a6, a7, a8, a9, a10⟩ := h
  exact ⟨a1.symm, a2.symm, a3.symm, a4.symm, a5.symm, a6.symm, a7.symm, a8.symm, a9.symm,
    a10.symm⟩

/-- Runs of at least one repetition from two states that agree on the inputs leave the
same `m_tmp` and `m_D`. -/
theorem iterate_determined (d1 d2 : Data α) (hagree : sameInputs d1 d2)
    (hnj : 0 ≤ d1.m_nj) (hnl : 0 ≤ d1.m_nl)
    (htmp1 : (d1.m_tmp.length : Int) = d1.m_ni * d1.m_nj)
    (htmp2 : (d2.m_tmp.length : Int) = d1.m_ni * d1.m_nj)
    (hD1 : (d1.m_D.length : Int) = d1.m_ni * d1.m_nl)
    (hD2 : (d2.m_D.length : Int) = d1.m_ni * d1.m_nl)
    (hDD : (d1.m_DD.length : Int) = d1.m_ni * d1.m_nl) (n1 n2 : Nat) :
    (sweep^[n1 + 1] d1).m_tmp = (sweep^[n2 + 1] d2).m_tmp ∧
    (sweep^[n1 + 1] d1).m_D = (sweep^[n2 + 1] d2).m_D := by
  obtain ⟨e_ni, e_nj, e_nk, e_nl, e_al, e_be, e_A, e_B, e_C, e_DD⟩ := id hagree
  have s1 := sameInputs_iterate d1 n1
  have s2 := sameInputs_iterate d2 n2
  obtain ⟨_, lt1, lD1⟩ := sweep_iterate_frame d1 hnj hnl htmp1 hD1 hDD n1
  obtain ⟨_, lt2, lD2⟩ := sweep_iterate_frame d2 (by rw [e_nj]; exact hnj)
    (by rw [e_nl]; exact hnl) (by rw [e_ni, e_nj]; exact htmp2)
    (by rw [e_ni, e_nl]; exact hD2) (by rw [e_ni, e_nl, e_DD]; exact hDD) n2
  have s12 : sameInputs (sweep^[n1] d1) (sweep^[n2] d2) :=
    sameInputs_trans _ _ _ (sameInputs_trans _ _ _ (sameInputs_symm _ _ s1) hagree) s2
  rw [Function.iterate_succ_apply', Function.iterate_succ_apply']
  obtain ⟨i1, i2, _, i4, _, _, _, _, _, i10⟩ := s1
  exact sweep_determined _ _ s12 (by rw [i2]; exact hnj) (by rw [i4]; exact hnl)
    (by rw [lt1, i1, i2]; exact htmp1) (by rw [lt2, i1, i2]; exact htmp2)
    (by rw [lD1, i1, i4]; exact hD1) (by rw [lD2, i1, i4]; exact hD2)
    (by rw [i10, i1, i4]; exact hDD)

end TwoMMIndependence

/-- C25: two `POLYBENCH_2MM` objects that agree on the extents, `alpha`, `beta`, `m_A`,
`m_B`, `m_C` and `m_DD`, with `m_tmp` of `ni * nj` and `m_D`, `m_DD` of `ni * nl`
elements of arbitrary content, hold the same `m_tmp` and the same `m_D` after
`runKernel` on `Base_Seq` with at least one repetition each.  So the result of
`N >= 1` repetitions is that of one repetition, and a run that follows an earlier
`Base_Seq` run on the same object leaves what a run on the fresh object leaves. -/
theorem C25_2mm_prior_contents {α C : Type} [CommSemiring α] (cfg : BuildConfig)
    (rt : Runtime (POLYBENCH_2MM.Data α)) (k1 k2 : Kernel C (POLYBENCH_2MM.Data α))
    (hagree : POLYBENCH_2MM.sameInputs k1.data k2.data)
    (hnj : 0 ≤ k1.data.m_nj) (hnl : 0 ≤ k1.data.m_nl)
    (htmp1 : (k1.data.m_tmp.length : Int) = k1.data.m_ni * k1.data.m_nj)
    (htmp2 : (k2.data.m_tmp.length : Int) = k1.data.m_ni * k1.data.m_nj)
    (hD1 : (k1.data.m_D.length : Int) = k1.data.m_ni * k1.data.m_nl)
    (hD2 : (k2.data.m_D.length : Int) = k1.data.m_ni * k1.data.m_nl)
    (hDD : (k1.data.m_DD.length : Int) = k1.data.m_ni * k1.data.m_nl)
    (hreps1 : 1 ≤ k1.run_reps) (hreps2 : 1 ≤ k2.run_reps) :
    (POLYBENCH_2MM.runKernel cfg rt VariantID.Base_Seq k1).data.m_tmp
      = (POLYBENCH_2MM.runKernel cfg rt VariantID.Base_Seq k2).data.m_tmp ∧
    (POLYBENCH_2MM.runKernel cfg rt VariantID.Base_Seq k1).data.m_D
      = (POLYBENCH_2MM.runKernel cfg rt VariantID.Base_Seq k2).data.m_D ∧
    (POLYBENCH_2MM.runKernel cfg rt VariantID.Base_Seq k1).data.m_tmp
      = (POLYBENCH_2MM.sweep k1.data).m_tmp ∧
    (POLYBENCH_2MM.runKernel cfg rt VariantID.Base_Seq k1).data.m_D
      = (POLYBENCH_2MM.sweep k1.data).m_D ∧
    (POLYBENCH_2MM.runKernel cfg rt VariantID.Base_Seq
        (POLYBENCH_2MM.runKernel cfg rt VariantID.Base_Seq k1)).data.m_tmp
      = (POLYBENCH_2MM.runKernel cfg rt VariantID.Base_Seq k1).data.m_tmp ∧
    (POLYBENCH_2MM.runKernel cfg rt VariantID.Base_Seq
        (POLYBENCH_2MM.runKernel cfg rt VariantID.Base_Seq k1)).data.m_D
      = (POLYBENCH_2MM.runKernel cfg rt VariantID.Base_Seq k1).data.m_D := by
  have hrun : ∀ k : Kernel C (POLYBENCH_2MM.Data α),
      (POLYBENCH_2MM.runKernel cfg rt VariantID.Base_Seq k).data
        = POLYBENCH_2MM.sweep^[k.run_reps.toNat] k.data ∧
      (POLYBENCH_2MM.runKernel cfg rt VariantID.Base_Seq k).run_reps = k.run_reps := by
    intro k
    simp only [POLYBENCH_2MM.runKernel, dispatch, timedReps_eq, and_self]
  obtain ⟨n1, hn1⟩ : ∃ n : Nat, k1.run_reps.toNat = n + 1 := ⟨k1.run_reps.toNat - 1, by omega⟩
  obtain ⟨n2, hn2⟩ : ∃ n : Nat, k2.run_reps.toNat = n + 1 := ⟨k2.run_reps.toNat - 1, by omega⟩
  have h12 := iterate_determined k1.data k2.data hagree hnj hnl htmp1 htmp2 hD1 hD2 hDD n1 n2
  have h11 := iterate_determined k1.data k1.data
    ⟨rfl, rfl, rfl, rfl, rfl, rfl, rfl, rfl, rfl, rfl⟩ hnj hnl htmp1 htmp1 hD1 hD1 hDD n1 0
  obtain ⟨_, lt1, lD1⟩ := sweep_iterate_frame k1.data hnj hnl htmp1 hD1 hDD (n1 + 1)
  have hagain := iterate_determined k1.data (POLYBENCH_2MM.sweep^[n1 + 1] k1.data)
    (sameInputs_iterate k1.data (n1 + 1)) hnj hnl htmp1 (by rw [lt1]; exact htmp1) hD1
    (by rw [lD1]; exact hD1) hDD n1 n1
  rw [(hrun (POLYBENCH_2MM.runKernel cfg rt VariantID.Base_Seq k1)).1,
    (hrun k1).2, (hrun k1).1, (hrun k2).1,
    hn1, hn2]
  exact ⟨h12.1, h12.2, h11.1, h11.2, hagain.1.symm, hagain.2.symm⟩

set_option maxRecDepth 100000 in
/-- C25 at the object `ex2MM` and a copy whose `m_tmp` and `m_D` hold other values. -/
theorem C25_2mm_prior_contents_witness :
    POLYBENCH_2MM.sameInputs ex2MM.data
      { ex2MM.data with m_tmp := [0, -1, 7, 3], m_D := [8, 8, 8, 8] } ∧
    (POLYBENCH_2MM.runKernel hostBuild (idRuntime _) VariantID.Base_Seq ex2MM).data.m_D
      = (POLYBENCH_2MM.runKernel hostBuild (idRuntime _) VariantID.Base_Seq
          { ex2MM with
            data := { ex2MM.data with m_tmp := [0, -1, 7, 3], m_D := [8, 8, 8, 8] } }).data.m_D :=
  ⟨⟨rfl, rfl, rfl, rfl, rfl, rfl, rfl, rfl, rfl, rfl⟩,
    (C25_2mm_prior_contents hostBuild (idRuntime _) ex2MM
      { ex2MM with data := { ex2MM.data with m_tmp := [0, -1, 7, 3], m_D := [8, 8, 8, 8] } }
      ⟨rfl, rfl, rfl, rfl, rfl, rfl, rfl, rfl, rfl, rfl⟩ (by decide) (by decide) (by decide)
      (by decide) (by decide) (by decide) (by decide) (by decide) (by decide)).2.1⟩

/-! ## PRESSURE: the order of the checks (C26) -/

section PressureOrder

variable {α : Type} [LinearOrderedField α]

theorem PRESSURE_BODY2_swapped_eq (bvc e_old vnewc : List α) (p_cut eosvmax pmin : α) (i : Int)
    (p_new : List α) :
    PRESSURE.PRESSURE_BODY2_swapped bvc e_old vnewc p_cut eosvmax pmin i p_new
      = store p_new i
          (PRESSURE.pRef (load bvc i) (load e_old i) (load vnewc i) p_cut eosvmax pmin) := by
  by_cases hin : 0 ≤ i ∧ i < p_new.length
  · simp only [PRESSURE.PRESSURE_BODY2_swapped, PRESSURE.pRef]
    by_cases h1 : abs (load bvc i * load e_old i) < p_cut <;>
      by_cases h2 : load vnewc i ≥ eosvmax <;>
      by_cases h3 : (0 : α) < pmin <;>
      by_cases h4 : load bvc i * load e_old i < pmin <;>
      by_cases h5 : (0 : α) < p_cut <;>
      simp [load_store_self _ _ _ hin, store_store, h1, h2, h3, h4, h5]
  · have hs : ∀ v : α, store p_new i v = p_new := fun v => store_of_not_inBounds _ _ _ hin
    simp only [PRESSURE.PRESSURE_BODY2_swapped, hs]
    split_ifs <;> simp only [hs]

end PressureOrder

/-- C26: over any linear ordered field, `PRESSURE_BODY2` with its two zeroing checks
exchanged (the `eosvmax` check before the `p_cut` check, the `pmin` clamp last in
both) leaves the same buffer, for every index and every content; both store the
reference value.  With the `pmin` clamp moved before the zeroing checks the
result differs for `bvc[0]*e_old[0] = 5`, `vnewc[0] = eosvmax = 1`, `p_cut = 1`,
`pmin = 2`: the body leaves `2`, the rearranged statements leave `0`. -/
theorem C26_pressure_checks_commute :
    (∀ (α : Type) [LinearOrderedField α] (bvc e_old vnewc : List α) (p_cut eosvmax pmin : α)
        (i : Int) (p_new : List α),
      PRESSURE.PRESSURE_BODY2_swapped bvc e_old vnewc p_cut eosvmax pmin i p_new
        = PRESSURE.PRESSURE_BODY2 bvc e_old vnewc p_cut eosvmax pmin i p_new ∧
      PRESSURE.PRESSURE_BODY2 bvc e_old vnewc p_cut eosvmax pmin i p_new
        = store p_new i
            (PRESSURE.pRef (load bvc i) (load e_old i) (load vnewc i) p_cut eosvmax pmin)) ∧
    PRESSURE.PRESSURE_BODY2 [(5 : Rat)] [1] [1] 1 1 2 0 [0] = [2] ∧
    PRESSURE.PRESSURE_BODY2_clampFirst [(5 : Rat)] [1] [1] 1 1 2 0 [0] = [0] ∧
    PRESSURE.PRESSURE_BODY2_clampFirst [(5 : Rat)] [1] [1] 1 1 2 0 [0]
      ≠ PRESSURE.PRESSURE_BODY2 [(5 : Rat)] [1] [1] 1 1 2 0 [0] := by
  have hb : PRESSURE.PRESSURE_BODY2 [(5 : Rat)] [1] [1] 1 1 2 0 [0] = [2] := by
    norm_num [PRESSURE.PRESSURE_BODY2, load, store]
  have hc : PRESSURE.PRESSURE_BODY2_clampFirst [(5 : Rat)] [1] [1] 1 1 2 0 [0] = [0] := by
    norm_num [PRESSURE.PRESSURE_BODY2_clampFirst, load, store]
  refine ⟨?_, hb, hc, ?_⟩
  · intro α _ bvc e_old vnewc p_cut eosvmax pmin i p_new
    exact ⟨by rw [PRESSURE_BODY2_swapped_eq, PRESSURE_BODY2_eq], PRESSURE_BODY2_eq _ _ _ _ _ _ _ _⟩
  · rw [hb, hc]
    decide

/-! ## DEL_DOT_VEC_2D: the area term (C27) -/

/-- C27: over any commutative ring and for any value of `half`, the term
`xi * yj - xj * yi` of `DEL_DOT_VEC_2D_BODY` is
`2 * half^2 * ((x1 - x3) * (y2 - y4) - (x2 - x4) * (y1 - y3))`; with `half = 1/2`
(the value `setUp` stores in `m_half` is the literal `0.5`) it is half the cross
product of the two diagonals, and the divisor of `rarea` for a zone is that
quantity plus `ptiny`; the body's value is built on `1 / (that divisor)`. -/
theorem C27_jacobian_signed_area :
    (∀ (R : Type) [CommRing R] (half x1 x2 x3 x4 y1 y2 y3 y4 : R),
      DEL_DOT_VEC_2D.jacobian half x1 x2 x3 x4 y1 y2 y3 y4
        = 2 * half ^ 2 * ((x1 - x3) * (y2 - y4) - (x2 - x4) * (y1 - y3))) ∧
    (∀ (α : Type) [Field α] (x1 x2 x3 x4 y1 y2 y3 y4 : α),
      DEL_DOT_VEC_2D.jacobian (1 / 2) x1 x2 x3 x4 y1 y2 y3 y4
        = ((x1 - x3) * (y2 - y4) - (x2 - x4) * (y1 - y3)) / 2) ∧
    (∀ (α : Type) [Field α] (v : DEL_DOT_VEC_2D.Views) (x y : List α) (ptiny : α) (i : Int),
      DEL_DOT_VEC_2D.areaDivisor v x y ptiny (1 / 2) i
        = ((load x (v.o1 + i) - load x (v.o3 + i)) * (load y (v.o2 + i) - load y (v.o4 + i))
            - (load x (v.o2 + i) - load x (v.o4 + i))
              * (load y (v.o1 + i) - load y (v.o3 + i))) / 2
          + ptiny) ∧
    (∀ (α C : Type) (allocAndInitData : String → Int → VariantID → List α) (ptiny half : α)
        (vid : VariantID) (k : Kernel C (DEL_DOT_VEC_2D.Data α)),
      (DEL_DOT_VEC_2D.setUp allocAndInitData ptiny half vid k).data.m_half = half ∧
      (DEL_DOT_VEC_2D.setUp allocAndInitData ptiny half vid k).data.m_ptiny = ptiny) ∧
    (∀ (α : Type) [Field α] (v : DEL_DOT_VEC_2D.Views) (x y xdot ydot : List α)
        (ptiny half : α) (i : Int),
      DEL_DOT_VEC_2D.divValue v x y xdot ydot ptiny half i
        = 1 / DEL_DOT_VEC_2D.areaDivisor v x y ptiny half i
            * (half * (load xdot (v.o1 + i) + load xdot (v.o2 + i) - load xdot (v.o3 + i)
                  - load xdot (v.o4 + i))
                * (half * (load y (v.o2 + i) + load y (v.o3 + i) - load y (v.o4 + i)
                  - load y (v.o1 + i)))
              - half * (load xdot (v.o2 + i) + load xdot (v.o3 + i) - load xdot (v.o4 + i)
                  - load xdot (v.o1 + i))
                * (half * (load y (v.o1 + i) + load y (v.o2 + i) - load y (v.o3 + i)
                  - load y (v.o4 + i))))
          + 1 / DEL_DOT_VEC_2D.areaDivisor v x y ptiny half i
            * (half * (load ydot (v.o2 + i) + load ydot (v.o3 + i) - load ydot (v.o4 + i)
                  - load ydot (v.o1 + i))
                * (half * (load x (v.o1 + i) + load x (v.o2 + i) - load x (v.o3 + i)
                  - load x (v.o4 + i)))
              - half * (load ydot (v.o1 + i) + load ydot (v.o2 + i) - load ydot (v.o3 + i)
                  - load ydot (v.o4 + i))
                * (half * (load x (v.o2 + i) + load x (v.o3 + i) - load x (v.o4 + i)
                  - load x (v.o1 + i))))
          + (load ydot (v.o1 + i) + load ydot (v.o2 + i) + load ydot (v.o3 + i)
              + load ydot (v.o4 + i))
            / DEL_DOT_VEC_2D.affineDivisor v y i) := by
  have hring : ∀ (R : Type) [CommRing R] (half x1 x2 x3 x4 y1 y2 y3 y4 : R),
      DEL_DOT_VEC_2D.jacobian half x1 x2 x3 x4 y1 y2 y3 y4
        = 2 * half ^ 2 * ((x1 - x3) * (y2 - y4) - (x2 - x4) * (y1 - y3)) := by
    intro R _ half x1 x2 x3 x4 y1 y2 y3 y4
    simp only [DEL_DOT_VEC_2D.jacobian]
    ring
  have hhalf : ∀ (α : Type) [Field α] (x1 x2 x3 x4 y1 y2 y3 y4 : α),
      DEL_DOT_VEC_2D.jacobian (1 / 2) x1 x2 x3 x4 y1 y2 y3 y4
        = ((x1 - x3) * (y2 - y4) - (x2 - x4) * (y1 - y3)) / 2 := by
    intro α _ x1 x2 x3 x4 y1 y2 y3 y4
    rw [hring]
    by_cases h2 : (2 : α) = 0
    · simp [h2]
    · field_simp
      ring
  refine ⟨hring, hhalf, ?_, fun _ _ _ _ _ _ _ => ⟨rfl, rfl⟩, fun _ _ _ _ _ _ _ _ _ _ => rfl⟩
  intro α _ v x y ptiny i
  rw [DEL_DOT_VEC_2D.areaDivisor, hhalf]

/-! ## FIR: the sum of the coefficients (C28) -/

section FirGain

variable {α C : Type} [Ring α]

theorem FIR_outRef_sum (in_ : List α) (i : Int) :
    FIR.outRef in_ i
      = (Finset.range 16).sum fun j : Nat => FIR.coeffRef j * load in_ (i + (j : Int)) := by
  simp only [FIR.outRef]
  rw [foldl_range_sum (fun j : Nat => FIR.coeffRef j * load in_ (i + (j : Int))), zero_add]

theorem FIR_coeffRef_sum : (Finset.range 16).sum (fun j : Nat => (FIR.coeffRef j : α)) = 0 := by
  simp only [Finset.sum_range_succ, Finset.sum_range_zero, FIR.coeffRef]
  norm_num

theorem FIR_coeff_array_sum : (FIR.coeff_array : List α).sum = 0 := by
  simp only [FIR.coeff_array, List.sum_cons, List.sum_nil]
  norm_num

theorem load_map (f : α → α) (l : List α) (q : Int) (h0 : 0 ≤ q) (h1 : q < l.length) :
    load (l.map f) q = f (load l q) := by
  unfold load
  simp only [h0, if_true, List.getD_eq_getElem?_getD]
  rw [List.getElem?_map, List.getElem?_eq_getElem (by omega)]
  rfl

theorem load_replicate (n : Nat) (c : α) (q : Int) (h0 : 0 ≤ q) (h1 : q < n) :
    load (List.replicate n c) q = c := by
  unfold load
  simp only [h0, if_true, List.getD_eq_getElem?_getD]
  rw [List.getElem?_replicate, if_pos (by omega)]
  rfl

theorem FIR_outRef_shift (in_ : List α) (c : α) (i : Int) (h0 : 0 ≤ i)
    (h1 : i + 16 ≤ in_.length) :
    FIR.outRef (in_.map fun x => x + c) i = FIR.outRef in_ i := by
  rw [FIR_outRef_sum, FIR_outRef_sum]
  have hterm : ∀ j ∈ Finset.range 16,
      FIR.coeffRef j * load (in_.map fun x => x + c) (i + (j : Int))
        = FIR.coeffRef j * load in_ (i + (j : Int)) + FIR.coeffRef j * c := by
    intro j hj
    have hj16 : j < 16 := Finset.mem_range.mp hj
    rw [load_map (fun x => x + c) in_ _ (by omega) (by omega), mul_add]
  rw [Finset.sum_congr rfl hterm, Finset.sum_add_distrib, ← Finset.sum_mul, FIR_coeffRef_sum,
    zero_mul, add_zero]

theorem FIR_outRef_const (n : Nat) (c : α) (i : Int) (h0 : 0 ≤ i) (h1 : i + 16 ≤ n) :
    FIR.outRef (List.replicate n c) i = 0 := by
  rw [FIR_outRef_sum]
  have hterm : ∀ j ∈ Finset.range 16,
      FIR.coeffRef j * load (List.replicate n c) (i + (j : Int)) = FIR.coeffRef j * c := by
    intro j hj
    have hj16 : j < 16 := Finset.mem_range.mp hj
    rw [load_replicate n c _ (by omega) (by omega)]
  rw [Finset.sum_congr rfl hterm, ← Finset.sum_mul, FIR_coeffRef_sum, zero_mul]

/-- After the `Base_Seq` block with at least one repetition, `out[i]` at a valid index
is the reference value. -/
theorem FIR_runKernel_out (cfg : BuildConfig) (rt : Runtime (FIR.Data α))
    (k : Kernel C (FIR.Data α)) (hL : k.data.m_coefflen = FIR.COEFFLEN)
    (hout : k.data.m_out.length = k.run_size.toNat) (hreps : 1 ≤ k.run_reps) (i : Int)
    (h0 : 0 ≤ i) (h1 : i < k.run_size - 16) :
    load (FIR.runKernel cfg rt VariantID.Base_Seq k).data.m_out i = FIR.outRef k.data.m_in i := by
  have hC : FIR.COEFFLEN = 16 := rfl
  rw [FIR_runKernel_Base_Seq cfg rt k hreps, FIR_sweep_load, if_pos, hL, FIR_firSum_ref]
  rw [hL, hC]
  exact ⟨h0, h1, by omega⟩

end FirGain

/-- C28: the sixteen coefficients of `FIR` sum to zero.  Hence, with `m_coefflen = 16`,
buffers of `N` = run size elements and at least one repetition, over exact
arithmetic: for every constant `c`, `runKernel` on `Base_Seq` computes from the
input `in[k] + c` the same `out[i]` as from `in`, at every `i` in `[0, N - 16)`;
and from the constant input `in[k] = c` it computes `out[i] = 0` there. -/
theorem C28_fir_zero_dc_gain {α C : Type} [Ring α] (cfg : BuildConfig)
    (rt : Runtime (FIR.Data α)) (k : Kernel C (FIR.Data α)) (c : α)
    (hL : k.data.m_coefflen = FIR.COEFFLEN)
    (hin : k.data.m_in.length = k.run_size.toNat)
    (hout : k.data.m_out.length = k.run_size.toNat) (hreps : 1 ≤ k.run_reps) :
    (FIR.coeff_array : List α).sum = 0 ∧
    (∀ i : Int, 0 ≤ i → i < k.run_size - 16 →
      load (FIR.runKernel cfg rt VariantID.Base_Seq
          { k with data := { k.data with m_in := k.data.m_in.map fun x => x + c } }).data.m_out i
        = load (FIR.runKernel cfg rt VariantID.Base_Seq k).data.m_out i) ∧
    (∀ i : Int, 0 ≤ i → i < k.run_size - 16 →
      load (FIR.runKernel cfg rt VariantID.Base_Seq
          { k with
            data := { k.data with m_in := List.replicate k.run_size.toNat c } }).data.m_out i
        = 0) := by
  refine ⟨FIR_coeff_array_sum, ?_, ?_⟩
  · intro i h0 h1
    have h := FIR_runKernel_out cfg rt
      { k with data := { k.data with m_in := k.data.m_in.map fun x => x + c } }
      hL hout hreps i h0 h1
    rw [h, FIR_runKernel_out cfg rt k hL hout hreps i h0 h1]
    exact FIR_outRef_shift _ c i h0 (by omega)
  · intro i h0 h1
    have h := FIR_runKernel_out cfg rt
      { k with data := { k.data with m_in := List.replicate k.run_size.toNat c } }
      hL hout hreps i h0 h1
    rw [h]
    exact FIR_outRef_const _ c i h0 (by omega)

/-- C28 at the object `exFIR` (run size 18) with the constant `c = 100`. -/
theorem C28_fir_zero_dc_gain_witness :
    exFIR.data.m_in.length = exFIR.run_size.toNat ∧
    load (FIR.runKernel hostBuild (idRuntime _) VariantID.Base_Seq
        { exFIR with
          data := { exFIR.data with m_in := exFIR.data.m_in.map fun x => x + 100 } }).data.m_out 1
      = load (FIR.runKernel hostBuild (idRuntime _) VariantID.Base_Seq exFIR).data.m_out 1 :=
  ⟨by decide,
    (C28_fir_zero_dc_gain hostBuild (idRuntime _) exFIR 100 (by decide) (by decide) (by decide)
      (by decide)).2.1 1 (by decide) (by decide)⟩

/-! ## REDUCE3_INT: one launch of the device function (C24) -/

section CombineLemmas

variable (op : Int → Int → Int)

theorem combineUpTo_congr (f g : Nat → Int) (m : Nat) (h : ∀ t, t ≤ m → f t = g t) :
    combineUpTo op f m = combineUpTo op g m := by
  induction m with
  | zero => exact h 0 (le_refl _)
  | succ m ih =>
    simp only [combineUpTo]
    rw [ih (fun t ht => h t (by omega)), h (m + 1) (le_refl _)]

theorem combineUpTo_zip (hassoc : ∀ a b c, op (op a b) c = op a (op b c))
    (hcomm : ∀ a b, op a b = op b a) (f1 f2 : Nat → Int) (m : Nat) :
    combineUpTo op (fun t => op (f1 t) (f2 t)) m
      = op (combineUpTo op f1 m) (combineUpTo op f2 m) := by
  induction m with
  | zero => rfl
  | succ m ih =>
    simp only [combineUpTo]
    rw [ih, hassoc, hassoc]
    congr 1
    rw [← hassoc, ← hassoc, hcomm (combineUpTo op f2 m)]

theorem combineUpTo_split (hassoc : ∀ a b c, op (op a b) c = op a (op b c)) (f : Nat → Int)
    (a b : Nat) :
    combineUpTo op f (a + b + 1)
      = op (combineUpTo op f a) (combineUpTo op (fun t => f (t + a + 1)) b) := by
  induction b with
  | zero => simp [combineUpTo]
  | succ b ih =>
    have h : a + (b + 1) + 1 = (a + b + 1) + 1 := by omega
    have e1 : combineUpTo op f (a + b + 1 + 1)
        = op (combineUpTo op f (a + b + 1)) (f (a + b + 1 + 1)) := rfl
    have e2 : combineUpTo op (fun t => f (t + a + 1)) (b + 1)
        = op (combineUpTo op (fun t => f (t + a + 1)) b) (f (b + 1 + a + 1)) := rfl
    have e3 : a + b + 1 + 1 = b + 1 + a + 1 := by omega
    rw [h, e1, e2, ih, hassoc, e3]

/-- One round of the halving loop on one shared array: slot `t < s` receives
`op p[t] p[t + s]`, every other slot is unchanged. -/
theorem combineSlot_loop (s : Int) (n : Nat) (p : List Int) :
    (forLoopAux (REDUCE3_INT.combineSlot op s) n 0 p).length = p.length ∧
    ∀ q : Int,
      load (forLoopAux (REDUCE3_INT.combineSlot op s) n 0 p) q
        = if 0 ≤ q ∧ q < n ∧ q < s ∧ q < p.length then op (load p q) (load p (q + s))
          else load p q := by
  induction n with
  | zero =>
    refine ⟨rfl, fun q => ?_⟩
    rw [if_neg]
    · rfl
    · intro h
      have := h.2.1
      simp at this
      omega
  | succ n ih =>
    obtain ⟨hlen, hload⟩ := ih
    rw [forLoopAux_succ_right, zero_add]
    generalize forLoopAux (REDUCE3_INT.combineSlot op s) n 0 p = P at hlen hload ⊢
    unfold REDUCE3_INT.combineSlot
    by_cases hns : (n : Int) < s
    · rw [if_pos hns]
      refine ⟨by rw [store_length, hlen], fun q => ?_⟩
      have hPn : load P (n : Int) = load p (n : Int) := by
        rw [hload, if_neg (by omega)]
      have hPns : load P ((n : Int) + s) = load p ((n : Int) + s) := by
        rw [hload, if_neg (by omega)]
      rw [load_store, hlen, hPn, hPns]
      by_cases hq : q = n
      · subst hq
        by_cases hin : (n : Int) < p.length
        · rw [if_pos ⟨rfl, by omega, hin⟩, if_pos ⟨by omega, by push_cast; omega, hns, hin⟩]
        · rw [if_neg (fun h => hin h.2.2), if_neg (fun h => hin h.2.2.2), hPn]
      · rw [if_neg (fun h => hq h.1), hload q]
        by_cases hc : 0 ≤ q ∧ q < n ∧ q < s ∧ q < p.length
        · rw [if_pos hc, if_pos ⟨hc.1, by push_cast; omega, hc.2.2.1, hc.2.2.2⟩]
        · rw [if_neg hc, if_neg]
          intro h
          exact hc ⟨h.1, by have := h.2.1; push_cast at this; omega, h.2.2.1, h.2.2.2⟩
    · rw [if_neg hns]
      refine ⟨hlen, fun q => ?_⟩
      rw [hload q]
      by_cases hc : 0 ≤ q ∧ q < n ∧ q < s ∧ q < p.length
      · rw [if_pos hc, if_pos ⟨hc.1, by push_cast; omega, hc.2.2.1, hc.2.2.2⟩]
      · rw [if_neg hc, if_neg]
        intro h
        exact hc ⟨h.1, by omega, h.2.2.1, h.2.2.2⟩

/-- One round with stride `s` and `2 * s` slots in play keeps the combination of the
slots in play. -/
theorem combineSlot_round (hassoc : ∀ a b c, op (op a b) c = op a (op b c))
    (hcomm : ∀ a b, op a b = op b a) (s n : Nat) (p : List Int) (hs : 1 ≤ s) (hn : s ≤ n)
    (hp : 2 * s ≤ p.length) :
    combineUpTo op (fun t => load (forLoopAux (REDUCE3_INT.combineSlot op s) n 0 p) (t : Int))
        (s - 1)
      = combineUpTo op (fun t => load p (t : Int)) (2 * s - 1) := by
  obtain ⟨_, hload⟩ := combineSlot_loop op (s : Int) n p
  have h1 : combineUpTo op
      (fun t => load (forLoopAux (REDUCE3_INT.combineSlot op s) n 0 p) (t : Int)) (s - 1)
      = combineUpTo op (fun t => op (load p (t : Int)) (load p ((t + (s - 1) + 1 : Nat) : Int)))
          (s - 1) := by
    apply combineUpTo_congr
    intro t ht
    rw [hload t, if_pos ⟨by omega, by omega, by omega, by omega⟩]
    congr 2
    push_cast
    omega
  have h2 : 2 * s - 1 = (s - 1) + (s - 1) + 1 := by omega
  rw [h1, h2, combineUpTo_split op hassoc, combineUpTo_zip op hassoc hcomm]

end CombineLemmas

section HalvingLemmas

open REDUCE3_INT

theorem forLoopAux_shared (f1 f2 f3 : Int → List Int → List Int) (n : Nat) (i : Int)
    (sh : Shared) :
    forLoopAux (fun j sh => Shared.mk (f1 j sh.psum) (f2 j sh.pmin) (f3 j sh.pmax)) n i sh
      = Shared.mk (forLoopAux f1 n i sh.psum) (forLoopAux f2 n i sh.pmin)
          (forLoopAux f3 n i sh.pmax) := by
  induction n generalizing i sh with
  | zero => rfl
  | succ n ih => simp only [forLoopAux, ih]

theorem combinePartials_eq (i threadIdx : Int) (sh : Shared) :
    combinePartials i threadIdx sh
      = Shared.mk (combineSlot (fun a b => wrapInt (a + b)) i threadIdx sh.psum)
          (combineSlot RAJA_MIN i threadIdx sh.pmin)
          (combineSlot RAJA_MAX i threadIdx sh.pmax) := by
  unfold combinePartials combineSlot
  split <;> rfl

theorem combineRound_eq (blockDim i : Int) (sh : Shared) :
    forLoop 0 blockDim (combinePartials i) sh
      = Shared.mk
          (forLoopAux (combineSlot (fun a b => wrapInt (a + b)) i) blockDim.toNat 0 sh.psum)
          (forLoopAux (combineSlot RAJA_MIN i) blockDim.toNat 0 sh.pmin)
          (forLoopAux (combineSlot RAJA_MAX i) blockDim.toNat 0 sh.pmax) := by
  rw [forLoop_zero_toNat, ← forLoopAux_shared]
  congr 1
  funext t sh
  exact combinePartials_eq i t sh

/-- With a budget of at least eight iterations the halving loop of a block of 256
threads runs its eight rounds, strides 128, 64, ..., 1. -/
theorem halvingLoop_256 (fuel : Nat) (hfuel : 8 ≤ fuel) (sh : Shared) :
    halvingLoop 256 fuel sh
      = some (forLoop 0 256 (combinePartials 1)
          (forLoop 0 256 (combinePartials 2)
            (forLoop 0 256 (combinePartials 4)
              (forLoop 0 256 (combinePartials 8)
                (forLoop 0 256 (combinePartials 16)
                  (forLoop 0 256 (combinePartials 32)
                    (forLoop 0 256 (combinePartials 64)
                      (forLoop 0 256 (combinePartials 128) sh)))))))) := by
  obtain ⟨f, rfl⟩ : ∃ f, fuel = f + 8 := ⟨fuel - 8, by omega⟩
  have e128 : Int.tdiv 256 2 = 128 := by decide
  have e64 : Int.tdiv 128 2 = 64 := by decide
  have e32 : Int.tdiv 64 2 = 32 := by decide
  have e16 : Int.tdiv 32 2 = 16 := by decide
  have e8 : Int.tdiv 16 2 = 8 := by decide
  have e4 : Int.tdiv 8 2 = 4 := by decide
  have e2 : Int.tdiv 4 2 = 2 := by decide
  have e1 : Int.tdiv 2 2 = 1 := by decide
  have e0 : Int.tdiv 1 2 = 0 := by decide
  simp only [halvingLoop, whileLoop, e128, e64, e32, e16, e8, e4, e2, e1, e0]
  cases f <;> simp [whileLoop]

/-- Eight rounds on one shared array of 256 slots leave in slot 0 the combination of
the 256 slots. -/
theorem combineSlot_rounds (op : Int → Int → Int)
    (hassoc : ∀ a b c, op (op a b) c = op a (op b c)) (hcomm : ∀ a b, op a b = op b a)
    (p : List Int) (hp : p.length = 256) :
    load
      (forLoopAux (combineSlot op 1) 256 0
        (forLoopAux (combineSlot op 2) 256 0
          (forLoopAux (combineSlot op 4) 256 0
            (forLoopAux (combineSlot op 8) 256 0
              (forLoopAux (combineSlot op 16) 256 0
                (forLoopAux (combineSlot op 32) 256 0
                  (forLoopAux (combineSlot op 64) 256 0
                    (forLoopAux (combineSlot op 128) 256 0 p)))))))) 0
      = combineUpTo op (fun t => load p (t : Int)) 255 := by
  have step : ∀ (s : Nat) (q : List Int), 1 ≤ s → s ≤ 256 → 2 * s ≤ 256 → q.length = 256 →
      (forLoopAux (combineSlot op (s : Int)) 256 0 q).length = 256 ∧
      combineUpTo op (fun t => load (forLoopAux (combineSlot op (s : Int)) 256 0 q) (t : Int))
          (s - 1)
        = combineUpTo op (fun t => load q (t : Int)) (2 * s - 1) := by
    intro s q h1 h2 h3 hq
    exact ⟨by rw [(combineSlot_loop op (s : Int) 256 q).1, hq],
      combineSlot_round op hassoc hcomm s 256 q h1 h2 (by omega)⟩
  obtain ⟨l1, c1⟩ := step 128 p (by omega) (by omega) (by omega) hp
  obtain ⟨l2, c2⟩ := step 64 _ (by omega) (by omega) (by omega) l1
  obtain ⟨l3, c3⟩ := step 32 _ (by omega) (by omega) (by omega) l2
  obtain ⟨l4, c4⟩ := step 16 _ (by omega) (by omega) (by omega) l3
  obtain ⟨l5, c5⟩ := step 8 _ (by omega) (by omega) (by omega) l4
  obtain ⟨l6, c6⟩ := step 4 _ (by omega) (by omega) (by omega) l5
  obtain ⟨l7, c7⟩ := step 2 _ (by omega) (by omega) (by omega) l6
  obtain ⟨_, c8⟩ := step 1 _ (by omega) (by omega) (by omega) l7
  simp only [Nat.cast_ofNat, Nat.cast_one] at c1 c2 c3 c4 c5 c6 c7 c8
  have c8' := c8
  simp only [Nat.sub_self, combineUpTo, Nat.cast_zero] at c8'
  rw [c8']
  exact c7.trans (c6.trans (c5.trans (c4.trans (c3.trans (c2.trans c1)))))

end HalvingLemmas

section AccumulateLemmas

open REDUCE3_INT

variable {σ : Type}

/-- A loop `for ( ; i < iend ; i += stride )` whose stride carries the first index past
`iend` executes its body at most once. -/
theorem whileLoop_stride (body : Int → σ → σ) (iend stride i0 : Int) (fuel : Nat) (s : σ)
    (hstride : iend ≤ i0 + stride) (hfuel : 1 ≤ fuel) :
    whileLoop (fun i => decide (i < iend)) (fun i => i + stride) body fuel i0 s
      = some (if i0 < iend then body i0 s else s) := by
  obtain ⟨f, rfl⟩ : ∃ f, fuel = f + 1 := ⟨fuel - 1, by omega⟩
  by_cases h : i0 < iend
  · have h2 : ¬ (i0 + stride < iend) := by omega
    cases f <;> simp [whileLoop, h, h2]
  · simp [whileLoop, h]

theorem store_store_op (op : Int → Int → Int) (p : List Int) (t e x : Int) :
    store (store p t e) t (op (load (store p t e) t) x) = store p t (op e x) := by
  by_cases hin : 0 ≤ t ∧ t < p.length
  · rw [load_store, if_pos ⟨rfl, hin⟩, store_store]
  · rw [store_of_not_inBounds p t e hin, store_of_not_inBounds p t _ hin,
      store_of_not_inBounds p t _ hin]

/-- What a thread leaves in its three slots before the first barrier. -/
theorem accumulatePartials_eq (vec : List Int) (vsum_init vmin_init vmax_init : Int)
    (iend gridDim blockDim blockIdx threadIdx : Int) (fuel : Nat) (sh : Shared)
    (hgrid : iend ≤ gridDim * blockDim) (hidx : 0 ≤ blockIdx * blockDim + threadIdx)
    (hfuel : 1 ≤ fuel) :
    accumulatePartials vec vsum_init vmin_init vmax_init iend gridDim blockDim blockIdx
        threadIdx fuel sh
      = some (Shared.mk
          (store sh.psum threadIdx
            (partialOf (fun a b => wrapInt (a + b)) vsum_init vec iend (blockIdx * blockDim + threadIdx)))
          (store sh.pmin threadIdx
            (partialOf RAJA_MIN vmin_init vec iend (blockIdx * blockDim + threadIdx)))
          (store sh.pmax threadIdx
            (partialOf RAJA_MAX vmax_init vec iend (blockIdx * blockDim + threadIdx)))) := by
  unfold accumulatePartials
  simp only []
  rw [whileLoop_stride _ iend (gridDim * blockDim) _ fuel _ (by omega) hfuel]
  unfold partialOf
  by_cases h : blockIdx * blockDim + threadIdx < iend
  · simp only [h, if_true]
    rw [store_store_op (fun a b => wrapInt (a + b)), store_store_op RAJA_MIN, store_store_op RAJA_MAX]
  · simp only [h, if_false]

/-- The indices a thread visits: its own index if that is below `iend`, nothing else. -/
theorem threadIndices_eq (iend gridDim blockDim blockIdx threadIdx : Int) (fuel : Nat)
    (hgrid : iend ≤ gridDim * blockDim) (hidx : 0 ≤ blockIdx * blockDim + threadIdx)
    (hfuel : 1 ≤ fuel) :
    threadIndices iend gridDim blockDim blockIdx threadIdx fuel
      = some (if blockIdx * blockDim + threadIdx < iend then [blockIdx * blockDim + threadIdx]
          else []) := by
  unfold threadIndices
  rw [whileLoop_stride _ iend (gridDim * blockDim) _ fuel _ (by omega) hfuel]
  split <;> rfl

/-- All threads of a block before the first barrier. -/
theorem accumulate_block (vec : List Int) (vsum_init vmin_init vmax_init : Int)
    (iend gridDim blockDim blockIdx : Int) (fuel : Nat) (sh : Shared)
    (hgrid : iend ≤ gridDim * blockDim) (hb : 0 ≤ blockIdx) (hB : 0 ≤ blockDim)
    (hfuel : 1 ≤ fuel) :
    forLoopChecked 0 blockDim
        (fun threadIdx sh =>
          accumulatePartials vec vsum_init vmin_init vmax_init iend gridDim blockDim blockIdx
            threadIdx fuel sh) sh
      = some (Shared.mk
          (forLoopAux
            (fun t p => store p t
              (partialOf (fun a b => wrapInt (a + b)) vsum_init vec iend (blockIdx * blockDim + t)))
            blockDim.toNat 0 sh.psum)
          (forLoopAux
            (fun t p => store p t (partialOf RAJA_MIN vmin_init vec iend (blockIdx * blockDim + t)))
            blockDim.toNat 0 sh.pmin)
          (forLoopAux
            (fun t p => store p t (partialOf RAJA_MAX vmax_init vec iend (blockIdx * blockDim + t)))
            blockDim.toNat 0 sh.pmax)) := by
  have h := forLoopAuxChecked_eq (fun _ : Shared => True)
    (fun threadIdx sh =>
      accumulatePartials vec vsum_init vmin_init vmax_init iend gridDim blockDim blockIdx
        threadIdx fuel sh)
    (fun t sh => Shared.mk
      (store sh.psum t
        (partialOf (fun a b => wrapInt (a + b)) vsum_init vec iend (blockIdx * blockDim + t)))
      (store sh.pmin t (partialOf RAJA_MIN vmin_init vec iend (blockIdx * blockDim + t)))
      (store sh.pmax t (partialOf RAJA_MAX vmax_init vec iend (blockIdx * blockDim + t))))
    blockDim.toNat 0 sh trivial
    (fun j s hj0 _ _ =>
      ⟨accumulatePartials_eq vec vsum_init vmin_init vmax_init iend gridDim blockDim blockIdx j
        fuel s hgrid (by have := Int.mul_nonneg hb hB; omega) hfuel, trivial⟩)
  unfold forLoopChecked
  rw [sub_zero, h.1]
  exact congrArg some (forLoopAux_shared
    (fun t p => store p t
      (partialOf (fun a b => wrapInt (a + b)) vsum_init vec iend (blockIdx * blockDim + t)))
    (fun t p => store p t (partialOf RAJA_MIN vmin_init vec iend (blockIdx * blockDim + t)))
    (fun t p => store p t (partialOf RAJA_MAX vmax_init vec iend (blockIdx * blockDim + t)))
    blockDim.toNat 0 sh)

end AccumulateLemmas

section BlockLemmas

open REDUCE3_INT

theorem add_op_assoc : ∀ a b c : Int,
    (fun a b => wrapInt (a + b)) ((fun a b => wrapInt (a + b)) a b) c
      = (fun a b => wrapInt (a + b)) a ((fun a b => wrapInt (a + b)) b c) := by
  intro a b c
  simp only [wrapInt, Int_type_min]
  omega

theorem add_op_comm : ∀ a b : Int,
    (fun a b => wrapInt (a + b)) a b = (fun a b => wrapInt (a + b)) b a := by
  intro a b
  simp only [add_comm]

theorem RAJA_MIN_assoc (a b c : Int) : RAJA_MIN (RAJA_MIN a b) c = RAJA_MIN a (RAJA_MIN b c) := by
  simp only [RAJA_MIN_eq_min, min_assoc]

theorem RAJA_MIN_comm (a b : Int) : RAJA_MIN a b = RAJA_MIN b a := by
  simp only [RAJA_MIN_eq_min, min_comm]

theorem RAJA_MAX_assoc (a b c : Int) : RAJA_MAX (RAJA_MAX a b) c = RAJA_MAX a (RAJA_MAX b c) := by
  simp only [RAJA_MAX_eq_max, max_assoc]

theorem RAJA_MAX_comm (a b : Int) : RAJA_MAX a b = RAJA_MAX b a := by
  simp only [RAJA_MAX_eq_max, max_comm]

/-- One shared array of 256 slots from the first barrier to the end of the halving
loop: slot 0 ends with the combination of the 256 partials. -/
theorem block_slot (op : Int → Int → Int) (hassoc : ∀ a b c, op (op a b) c = op a (op b c))
    (hcomm : ∀ a b, op a b = op b a) (f : Int → Int) (p : List Int) (hp : p.length = 256) :
    load
      (forLoopAux (combineSlot op 1) 256 0
        (forLoopAux (combineSlot op 2) 256 0
          (forLoopAux (combineSlot op 4) 256 0
            (forLoopAux (combineSlot op 8) 256 0
              (forLoopAux (combineSlot op 16) 256 0
                (forLoopAux (combineSlot op 32) 256 0
                  (forLoopAux (combineSlot op 64) 256 0
                    (forLoopAux (combineSlot op 128) 256 0
                      (forLoopAux (fun t p => store p t (f t)) 256 0 p))))))))) 0
      = combineUpTo op (fun t => f (t : Int)) 255 := by
  have hlen := forLoopAux_overwrite_length (fun t p => store p t (f t)) f (fun _ _ => rfl) 256 p
  rw [combineSlot_rounds op hassoc hcomm _ (by rw [hlen, hp])]
  apply combineUpTo_congr
  intro t ht
  rw [forLoopAux_overwrite_load (fun t p => store p t (f t)) f (fun _ _ => rfl) 256 p,
    if_pos ⟨by omega, by push_cast; omega, by rw [hp]; push_cast; omega⟩]

/-- One block of 256 threads: the device cells receive the combination of the block's
256 partials. -/
theorem reduce3int_eq (vec : List Int) (vsum_init vmin_init vmax_init : Int)
    (iend gridDim blockIdx : Int) (fuel : Nat) (sh : Shared) (cells : Acc)
    (hgrid : iend ≤ gridDim * 256) (hb : 0 ≤ blockIdx) (hfuel : 8 ≤ fuel)
    (h1 : sh.psum.length = 256) (h2 : sh.pmin.length = 256) (h3 : sh.pmax.length = 256) :
    reduce3int vec vsum_init vmin_init vmax_init iend gridDim 256 blockIdx fuel sh cells
      = some
        { vsum := wrapInt (cells.vsum +
            combineUpTo (fun a b => wrapInt (a + b))
              (fun t =>
                partialOf (fun a b => wrapInt (a + b)) vsum_init vec iend
                  (blockIdx * 256 + (t : Int)))
              255)
          vmin := RAJA_MIN cells.vmin
            (combineUpTo RAJA_MIN
              (fun t => partialOf RAJA_MIN vmin_init vec iend (blockIdx * 256 + (t : Int))) 255)
          vmax := RAJA_MAX cells.vmax
            (combineUpTo RAJA_MAX
              (fun t => partialOf RAJA_MAX vmax_init vec iend (blockIdx * 256 + (t : Int)))
              255) } := by
  have e256 : (256 : Int).toNat = 256 := rfl
  unfold reduce3int
  rw [accumulate_block vec vsum_init vmin_init vmax_init iend gridDim 256 blockIdx fuel sh hgrid
    hb (by omega) (by omega), Option.some_bind, halvingLoop_256 fuel hfuel, Option.some_bind]
  simp only [combineRound_eq, e256]
  rw [block_slot (fun a b => wrapInt (a + b)) add_op_assoc add_op_comm _ sh.psum h1,
    block_slot RAJA_MIN RAJA_MIN_assoc RAJA_MIN_comm _ sh.pmin h2,
    block_slot RAJA_MAX RAJA_MAX_assoc RAJA_MAX_comm _ sh.pmax h3,
    RAJA_MIN_eq_min cells.vmin, RAJA_MAX_eq_max cells.vmax]

end BlockLemmas

section GridLemmas

open REDUCE3_INT

variable (op : Int → Int → Int)

/-- Blocks `0, ..., G - 1` add to a device cell the combination of all `G * 256`
partials. -/
theorem grid_cell (hassoc : ∀ a b c, op (op a b) c = op a (op b c)) (pf : Int → Int) (G : Nat)
    (g0 : Int) :
    forLoopAux
        (fun (b : Int) (g : Int) => op g (combineUpTo op (fun t => pf (b * 256 + (t : Int))) 255))
        (G + 1) 0 g0
      = op g0 (combineUpTo op (fun i => pf (i : Int)) ((G + 1) * 256 - 1)) := by
  induction G with
  | zero =>
    simp only [forLoopAux, zero_mul, zero_add, Nat.zero_add, Nat.one_mul]
  | succ G ih =>
    have h : (G + 1 + 1) * 256 - 1 = ((G + 1) * 256 - 1) + 255 + 1 := by omega
    have hf : (fun t : Nat => pf (((0 : Int) + ((G + 1 : Nat) : Int)) * 256 + (t : Int)))
        = fun t : Nat => pf (((t + ((G + 1) * 256 - 1) + 1 : Nat)) : Int) := by
      funext t
      congr 1
      have h1 : 1 ≤ (G + 1) * 256 := by omega
      have h2 : t + ((G + 1) * 256 - 1) + 1 = t + (G + 1) * 256 := by omega
      rw [h2]
      push_cast
      ring
    rw [forLoopAux_succ_right, ih, hassoc, h, combineUpTo_split op hassoc, hf]

theorem foldl_absorb (hassoc : ∀ a b c, op (op a b) c = op a (op b c))
    (hcomm : ∀ a b, op a b = op b a) (e : Int) (l : List Int) (acc : Int)
    (hacc : op acc e = acc) : op (l.foldl op acc) e = l.foldl op acc := by
  induction l generalizing acc with
  | nil => exact hacc
  | cons x l ih =>
    apply ih
    rw [hassoc, hcomm x e, ← hassoc, hacc]

/-- The combination of the partials of the indices `0, ..., m`, joined to the initial
value, is the fold of the first `m + 1` elements of the vector. -/
theorem partials_fold (hassoc : ∀ a b c, op (op a b) c = op a (op b c))
    (hcomm : ∀ a b, op a b = op b a) (e : Int) (he : op e e = e) (vec : List Int)
    (hvec : 1 ≤ vec.length) (m : Nat) :
    op e (combineUpTo op (fun i => partialOf op e vec vec.length (i : Int)) m)
      = (vec.take (m + 1)).foldl op e := by
  induction m with
  | zero =>
    have h0 : (0 : Nat) < vec.length := by omega
    have htake : vec.take 1 = [vec[0]] := by
      rw [show (1 : Nat) = 0 + 1 from rfl, List.take_succ, List.getElem?_eq_getElem h0]
      rfl
    simp only [combineUpTo, partialOf, Nat.cast_zero]
    have hl := load_eq_getElem vec 0 h0
    simp only [Nat.cast_zero] at hl
    rw [if_pos (by omega), ← hassoc, he, htake, hl]
    rfl
  | succ m ih =>
    have e1 : combineUpTo op (fun i => partialOf op e vec vec.length (i : Int)) (m + 1)
        = op (combineUpTo op (fun i => partialOf op e vec vec.length (i : Int)) m)
            (partialOf op e vec vec.length ((m + 1 : Nat) : Int)) := rfl
    rw [e1, ← hassoc, ih]
    have habs := foldl_absorb op hassoc hcomm e (vec.take (m + 1)) e he
    unfold partialOf
    by_cases hlt : m + 1 < vec.length
    · have htake : vec.take (m + 1 + 1) = vec.take (m + 1) ++ [vec[m + 1]] := by
        rw [List.take_succ, List.getElem?_eq_getElem hlt]
        rfl
      rw [if_pos (by push_cast; omega), ← hassoc, habs, htake, List.foldl_append,
        load_eq_getElem vec (m + 1) hlt]
      rfl
    · rw [if_neg (by push_cast; omega), habs, List.take_of_length_le (by omega),
        List.take_of_length_le (by omega)]

end GridLemmas

section LaunchLemmas

open REDUCE3_INT

theorem forLoopAux_acc (f1 f2 f3 : Int → Int → Int) (n : Nat) (i : Int) (g : Acc) :
    forLoopAux (fun j g => Acc.mk (f1 j g.vsum) (f2 j g.vmin) (f3 j g.vmax)) n i g
      = Acc.mk (forLoopAux f1 n i g.vsum) (forLoopAux f2 n i g.vmin)
          (forLoopAux f3 n i g.vmax) := by
  induction n generalizing i g with
  | zero => rfl
  | succ n ih => simp only [forLoopAux, ih]

theorem foldl_wrap_add (l : List Int) (acc : Int) :
    l.foldl (fun a b => wrapInt (a + b)) (wrapInt acc) = wrapInt (acc + l.sum) := by
  induction l generalizing acc with
  | nil => simp
  | cons x l ih =>
    rw [List.foldl_cons, List.sum_cons, ← add_assoc, ← ih]
    simp only [wrapInt_add_wrapInt]

theorem wrapInt_zero : wrapInt 0 = 0 := by decide

theorem wrapInt_of_range (a : Int) (h1 : Int_type_min ≤ a) (h2 : a ≤ Int_type_max) :
    wrapInt a = a := by
  simp only [wrapInt, Int_type_min, Int_type_max] at *
  omega

theorem foldl_acc (f1 f2 f3 : Int → Int → Int) (l : List Int) (g : Acc) :
    l.foldl (fun (r : Acc) (v : Int) => Acc.mk (f1 r.vsum v) (f2 r.vmin v) (f3 r.vmax v)) g
      = Acc.mk (l.foldl f1 g.vsum) (l.foldl f2 g.vmin) (l.foldl f3 g.vmax) := by
  induction l generalizing g with
  | nil => rfl
  | cons x l ih => simp only [List.foldl_cons, ih]

/-- One wrapping `Base_Seq` repetition as three folds over the vector. -/
theorem reduceWrap_eq (iend : Int) (d : Data) (hlen : d.m_vec.length = iend.toNat) :
    reduceWrap iend d
      = { vsum := d.m_vec.foldl (fun a b => wrapInt (a + b)) d.m_vsum_init
          vmin := d.m_vec.foldl RAJA_MIN d.m_vmin_init
          vmax := d.m_vec.foldl RAJA_MAX d.m_vmax_init } := by
  rw [reduceWrap_foldl iend d hlen]
  exact foldl_acc (fun a b => wrapInt (a + b)) RAJA_MIN RAJA_MAX d.m_vec _

theorem foldl_RAJA_MIN (l : List Int) (acc : Int) : l.foldl RAJA_MIN acc = l.foldl min acc := by
  induction l generalizing acc with
  | nil => rfl
  | cons x l ih => rw [List.foldl_cons, List.foldl_cons, ih, RAJA_MIN_eq_min]

theorem foldl_RAJA_MAX (l : List Int) (acc : Int) : l.foldl RAJA_MAX acc = l.foldl max acc := by
  induction l generalizing acc with
  | nil => rfl
  | cons x l ih => rw [List.foldl_cons, List.foldl_cons, ih, RAJA_MAX_eq_max]

theorem combineUpTo_add_eq_sum (f : Nat → Int) (m : Nat) :
    combineUpTo (fun a b => wrapInt (a + b)) f (m + 1)
      = wrapInt ((Finset.range (m + 2)).sum f) := by
  induction m with
  | zero => simp [combineUpTo, Finset.sum_range_succ]
  | succ m ih =>
    have e : combineUpTo (fun a b => wrapInt (a + b)) f (m + 1 + 1)
        = wrapInt (combineUpTo (fun a b => wrapInt (a + b)) f (m + 1) + f (m + 1 + 1)) := rfl
    rw [e, ih, wrapInt_add_wrapInt, Finset.sum_range_succ _ (m + 2)]

theorem combineUpTo_min (f : Nat → Int) (m : Nat) :
    (∀ t, t ≤ m → combineUpTo RAJA_MIN f m ≤ f t) ∧
    ∃ t, t ≤ m ∧ combineUpTo RAJA_MIN f m = f t := by
  induction m with
  | zero =>
    refine ⟨fun t ht => ?_, 0, le_refl _, rfl⟩
    have h0 : t = 0 := by omega
    subst h0
    exact le_refl _
  | succ m ih =>
    obtain ⟨hle, u, hu, hval⟩ := ih
    have e : combineUpTo RAJA_MIN f (m + 1) = min (combineUpTo RAJA_MIN f m) (f (m + 1)) :=
      RAJA_MIN_eq_min _ _
    rw [e]
    constructor
    · intro t ht
      rcases Nat.lt_or_ge t (m + 1) with h | h
      · exact le_trans (min_le_left _ _) (hle t (by omega))
      · have h1 : t = m + 1 := by omega
        subst h1
        exact min_le_right _ _
    · rcases le_total (combineUpTo RAJA_MIN f m) (f (m + 1)) with h | h
      · exact ⟨u, by omega, by rw [min_eq_left h, hval]⟩
      · exact ⟨m + 1, le_refl _, by rw [min_eq_right h]⟩

theorem combineUpTo_max (f : Nat → Int) (m : Nat) :
    (∀ t, t ≤ m → f t ≤ combineUpTo RAJA_MAX f m) ∧
    ∃ t, t ≤ m ∧ combineUpTo RAJA_MAX f m = f t := by
  induction m with
  | zero =>
    refine ⟨fun t ht => ?_, 0, le_refl _, rfl⟩
    have h0 : t = 0 := by omega
    subst h0
    exact le_refl _
  | succ m ih =>
    obtain ⟨hle, u, hu, hval⟩ := ih
    have e : combineUpTo RAJA_MAX f (m + 1) = max (combineUpTo RAJA_MAX f m) (f (m + 1)) :=
      RAJA_MAX_eq_max _ _
    rw [e]
    constructor
    · intro t ht
      rcases Nat.lt_or_ge t (m + 1) with h | h
      · exact le_trans (hle t (by omega)) (le_max_left _ _)
      · have h1 : t = m + 1 := by omega
        subst h1
        exact le_max_right _ _
    · rcases le_total (combineUpTo RAJA_MAX f m) (f (m + 1)) with h | h
      · exact ⟨m + 1, le_refl _, by rw [max_eq_right h]⟩
      · exact ⟨u, by omega, by rw [max_eq_left h, hval]⟩

theorem grid_size_bounds (iend : Int) (hiend : 1 ≤ iend) :
    1 ≤ RAJA_DIVIDE_CEILING_INT iend block_size ∧
    iend ≤ RAJA_DIVIDE_CEILING_INT iend block_size * 256 ∧
    (RAJA_DIVIDE_CEILING_INT iend block_size - 1) * 256 < iend := by
  have hb : block_size = 256 := rfl
  unfold RAJA_DIVIDE_CEILING_INT
  rw [hb, Int.tdiv_eq_ediv (by omega) (by omega)]
  omega

/-- The halving loop of a block of 256 threads: slot 0 of each shared array ends with
the combination of the array's 256 slots. -/
theorem halvingLoop_slot0 (fuel : Nat) (hfuel : 8 ≤ fuel) (sh : Shared)
    (h1 : sh.psum.length = 256) (h2 : sh.pmin.length = 256) (h3 : sh.pmax.length = 256) :
    ∃ sh2, halvingLoop block_size fuel sh = some sh2 ∧
      load sh2.psum 0 = combineUpTo (fun a b => wrapInt (a + b)) (fun t => load sh.psum (t : Int)) 255 ∧
      load sh2.pmin 0 = combineUpTo RAJA_MIN (fun t => load sh.pmin (t : Int)) 255 ∧
      load sh2.pmax 0 = combineUpTo RAJA_MAX (fun t => load sh.pmax (t : Int)) 255 := by
  have hb : block_size = 256 := rfl
  have e256 : (256 : Int).toNat = 256 := rfl
  rw [hb, halvingLoop_256 fuel hfuel]
  refine ⟨_, rfl, ?_, ?_, ?_⟩
  · simp only [combineRound_eq, e256]
    exact combineSlot_rounds _ add_op_assoc add_op_comm _ h1
  · simp only [combineRound_eq, e256]
    exact combineSlot_rounds _ RAJA_MIN_assoc RAJA_MIN_comm _ h2
  · simp only [combineRound_eq, e256]
    exact combineSlot_rounds _ RAJA_MAX_assoc RAJA_MAX_comm _ h3

/-- One launch leaves in the device cells what one sequential repetition computes,
the additions of both wrapping modulo `2^32`. -/
theorem launch_eq_reduceWrap (d : Data) (iend : Int) (fuel : Nat) (sh : Shared)
    (hlen : d.m_vec.length = iend.toNat) (hiend : 1 ≤ iend) (hsum : d.m_vsum_init = 0)
    (h1 : sh.psum.length = 256) (h2 : sh.pmin.length = 256) (h3 : sh.pmax.length = 256)
    (hfuel : 8 ≤ fuel) :
    launch iend fuel sh d (deviceCells d) = some (reduceWrap iend d) := by
  have hb : block_size = 256 := rfl
  obtain ⟨hG1, hG2, _⟩ := grid_size_bounds iend hiend
  have hvec : allocAndInitCudaDeviceData d.m_vec iend = d.m_vec := by
    rw [allocAndInitCudaDeviceData, ← hlen, List.take_length]
  have hiendlen : iend = (d.m_vec.length : Int) := by omega
  obtain ⟨G, hG⟩ : ∃ G : Nat, (RAJA_DIVIDE_CEILING_INT iend block_size).toNat = G + 1 :=
    ⟨(RAJA_DIVIDE_CEILING_INT iend block_size).toNat - 1, by omega⟩
  have hloop := forLoopAuxChecked_eq (fun _ : Acc => True)
    (fun blockIdx cells =>
      reduce3int d.m_vec d.m_vsum_init d.m_vmin_init d.m_vmax_init iend
        (RAJA_DIVIDE_CEILING_INT iend block_size) block_size blockIdx fuel sh cells)
    (fun b g => Acc.mk
      ((fun (b : Int) (g : Int) => (fun a b => wrapInt (a + b)) g
        (combineUpTo (fun a b => wrapInt (a + b))
          (fun t => partialOf (fun a b => wrapInt (a + b)) d.m_vsum_init d.m_vec iend (b * 256 + (t : Int)))
          255)) b g.vsum)
      ((fun (b : Int) (g : Int) => RAJA_MIN g
        (combineUpTo RAJA_MIN
          (fun t => partialOf RAJA_MIN d.m_vmin_init d.m_vec iend (b * 256 + (t : Int))) 255))
        b g.vmin)
      ((fun (b : Int) (g : Int) => RAJA_MAX g
        (combineUpTo RAJA_MAX
          (fun t => partialOf RAJA_MAX d.m_vmax_init d.m_vec iend (b * 256 + (t : Int))) 255))
        b g.vmax))
    (G + 1) 0 { vsum := d.m_vsum_init, vmin := d.m_vmin_init, vmax := d.m_vmax_init } trivial
    (fun j s hj0 _ _ =>
      ⟨reduce3int_eq d.m_vec d.m_vsum_init d.m_vmin_init d.m_vmax_init iend _ j fuel sh s hG2 hj0
        hfuel h1 h2 h3, trivial⟩)
  have hM : d.m_vec.length ≤ (G + 1) * 256 - 1 + 1 := by
    have : (d.m_vec.length : Int) ≤ ((G + 1 : Nat) : Int) * 256 := by
      rw [← hG, ← hiendlen, Int.toNat_of_nonneg (by omega)]
      exact hG2
    have h4 : d.m_vec.length ≤ (G + 1) * 256 := by exact_mod_cast this
    omega
  unfold launch
  simp only [hvec, forLoopChecked, sub_zero, hG, deviceCells]
  rw [hloop.1, forLoopAux_acc
      (fun (b : Int) (g : Int) => (fun a b => wrapInt (a + b)) g
        (combineUpTo (fun a b => wrapInt (a + b))
          (fun t => partialOf (fun a b => wrapInt (a + b)) d.m_vsum_init d.m_vec iend (b * 256 + (t : Int)))
          255))
      (fun (b : Int) (g : Int) => RAJA_MIN g
        (combineUpTo RAJA_MIN
          (fun t => partialOf RAJA_MIN d.m_vmin_init d.m_vec iend (b * 256 + (t : Int))) 255))
      (fun (b : Int) (g : Int) => RAJA_MAX g
        (combineUpTo RAJA_MAX
          (fun t => partialOf RAJA_MAX d.m_vmax_init d.m_vec iend (b * 256 + (t : Int))) 255)),
    grid_cell (fun a b => wrapInt (a + b)) add_op_assoc, grid_cell RAJA_MIN RAJA_MIN_assoc,
    grid_cell RAJA_MAX RAJA_MAX_assoc, hiendlen,
    partials_fold _ add_op_assoc add_op_comm d.m_vsum_init (by rw [hsum]; rfl) d.m_vec
      (by omega),
    partials_fold _ RAJA_MIN_assoc RAJA_MIN_comm d.m_vmin_init
      (by rw [RAJA_MIN_eq_min, min_self]) d.m_vec (by omega),
    partials_fold _ RAJA_MAX_assoc RAJA_MAX_comm d.m_vmax_init
      (by rw [RAJA_MAX_eq_max, max_self]) d.m_vec (by omega),
    List.take_of_length_le hM, reduceWrap_eq _ d (by rw [Int.toNat_ofNat])]

/-- The sum cell after one wrapping repetition, and the relation of the wrapping
repetition to the exact one. -/
theorem reduceWrap_values (d : Data) (iend : Int) (hlen : d.m_vec.length = iend.toNat)
    (hsum : d.m_vsum_init = 0) :
    reduceWrap iend d
        = { vsum := wrapInt d.m_vec.sum
            vmin := d.m_vec.foldl min d.m_vmin_init
            vmax := d.m_vec.foldl max d.m_vmax_init } ∧
    (Int_type_min ≤ d.m_vec.sum → d.m_vec.sum ≤ Int_type_max →
      reduceWrap iend d = reduce iend d) := by
  have h : reduceWrap iend d
      = { vsum := wrapInt d.m_vec.sum
          vmin := d.m_vec.foldl min d.m_vmin_init
          vmax := d.m_vec.foldl max d.m_vmax_init } := by
    rw [reduceWrap_eq iend d hlen, hsum, foldl_RAJA_MIN, foldl_RAJA_MAX]
    have h0 := foldl_wrap_add d.m_vec 0
    rw [wrapInt_zero, zero_add] at h0
    rw [h0]
  refine ⟨h, fun h1 h2 => ?_⟩
  rw [h, reduce_eq iend d hlen, hsum, zero_add, wrapInt_of_range _ h1 h2]

end LaunchLemmas

/-- At `vec = [2147483647, 1]` the launch leaves in `*vsum` the wrapped sum
`-2147483648`, and in `*vmin`, `*vmax` the values 1 and 2147483647. -/
theorem launch_at_overflow :
    REDUCE3_INT.launch 2 8 exShared exREDUCEwrap (REDUCE3_INT.deviceCells exREDUCEwrap)
      = some { vsum := -2147483648, vmin := 1, vmax := 2147483647 } := by
  rw [launch_eq_reduceWrap exREDUCEwrap 2 8 exShared rfl (by decide) rfl
    (List.length_replicate _ _) (List.length_replicate _ _) (List.length_replicate _ _)
    (by decide)]
  decide

/-- C24: one launch of `reduce3int` with block size 256 and grid size
`ceil(iend / 256)`, modelled as rounds separated by the barriers, the `Int_type`
additions wrapping modulo `2^32`, on a vector of `iend >= 1` elements with
`vsum_init = 0` and shared arrays of 256 slots of any content, given a budget of at
least eight loop iterations.  Every thread's loop visits its own index
`blockIdx * 256 + threadIdx` if that is below `iend` and no other, and every index
below `iend` belongs to exactly one thread of the grid.  The halving loop ends and
leaves in `psum[0]` the sum of the block's 256 partials as an `Int_type` value, in
`pmin[0]` their least and in `pmax[0]` their greatest value.  After the launch the
device cells hold what one wrapping `Base_Seq` repetition computes: the sum of
`vec` as an `Int_type` value and the folds of `min` and `max` over `vec` from
`vmin_init` and `vmax_init`.  When the sum of `vec` lies between `Int_type_min` and
`Int_type_max` the cells hold what the exact repetition computes, `*vsum` being the
sum of `vec`, whatever the partial sums on the way. -/
theorem C24_device_reduction (d : REDUCE3_INT.Data) (iend : Int) (fuel : Nat)
    (sh : REDUCE3_INT.Shared) (hlen : d.m_vec.length = iend.toNat) (hiend : 1 ≤ iend)
    (hsum : d.m_vsum_init = 0) (h1 : sh.psum.length = 256) (h2 : sh.pmin.length = 256)
    (h3 : sh.pmax.length = 256) (hfuel : 8 ≤ fuel) :
    (∀ b t : Int, 0 ≤ b → 0 ≤ t →
      REDUCE3_INT.threadIndices iend (RAJA_DIVIDE_CEILING_INT iend REDUCE3_INT.block_size)
          REDUCE3_INT.block_size b t fuel
        = some (if b * 256 + t < iend then [b * 256 + t] else [])) ∧
    (∀ i : Int, 0 ≤ i → i < iend →
      ∃ b t : Int, (0 ≤ b ∧ b < RAJA_DIVIDE_CEILING_INT iend REDUCE3_INT.block_size ∧
          0 ≤ t ∧ t < 256 ∧ b * 256 + t = i) ∧
        ∀ b2 t2 : Int, 0 ≤ t2 → t2 < 256 → b2 * 256 + t2 = i → b2 = b ∧ t2 = t) ∧
    (∀ sh0 : REDUCE3_INT.Shared, sh0.psum.length = 256 → sh0.pmin.length = 256 →
      sh0.pmax.length = 256 →
      ∃ sh2, REDUCE3_INT.halvingLoop REDUCE3_INT.block_size fuel sh0 = some sh2 ∧
        load sh2.psum 0
          = wrapInt ((Finset.range 256).sum (fun t : Nat => load sh0.psum (t : Int))) ∧
        (∀ t : Nat, t < 256 → load sh2.pmin 0 ≤ load sh0.pmin (t : Int)) ∧
        (∃ t : Nat, t < 256 ∧ load sh2.pmin 0 = load sh0.pmin (t : Int)) ∧
        (∀ t : Nat, t < 256 → load sh0.pmax (t : Int) ≤ load sh2.pmax 0) ∧
        (∃ t : Nat, t < 256 ∧ load sh2.pmax 0 = load sh0.pmax (t : Int))) ∧
    REDUCE3_INT.launch iend fuel sh d (REDUCE3_INT.deviceCells d)
      = some (REDUCE3_INT.reduceWrap iend d) ∧
    REDUCE3_INT.reduceWrap iend d
      = { vsum := wrapInt d.m_vec.sum
          vmin := d.m_vec.foldl min d.m_vmin_init
          vmax := d.m_vec.foldl max d.m_vmax_init } ∧
    (Int_type_min ≤ d.m_vec.sum → d.m_vec.sum ≤ Int_type_max →
      REDUCE3_INT.launch iend fuel sh d (REDUCE3_INT.deviceCells d)
        = some (REDUCE3_INT.reduce iend d) ∧
      REDUCE3_INT.reduce iend d
        = { vsum := d.m_vec.sum
            vmin := d.m_vec.foldl min d.m_vmin_init
            vmax := d.m_vec.foldl max d.m_vmax_init }) := by
  have hb : REDUCE3_INT.block_size = 256 := rfl
  obtain ⟨hG1, hG2, _⟩ := grid_size_bounds iend hiend
  have hlaunch := launch_eq_reduceWrap d iend fuel sh hlen hiend hsum h1 h2 h3 hfuel
  obtain ⟨hval, hexact⟩ := reduceWrap_values d iend hlen hsum
  refine ⟨?_, ?_, ?_, hlaunch, hval, ?_⟩
  · intro b t hb0 ht0
    have h := threadIndices_eq iend (RAJA_DIVIDE_CEILING_INT iend REDUCE3_INT.block_size)
      REDUCE3_INT.block_size b t fuel (by rw [hb]; exact hG2)
      (by rw [hb]; omega) (by omega)
    rw [h, hb]
  · intro i hi0 hi1
    refine ⟨i / 256, i % 256, ⟨by omega, by omega, by omega, by omega, by omega⟩, ?_⟩
    intro b2 t2 h20 h21 h22
    omega
  · intro sh0 g1 g2 g3
    obtain ⟨sh2, hs, hsumv, hminv, hmaxv⟩ := halvingLoop_slot0 fuel hfuel sh0 g1 g2 g3
    obtain ⟨mn1, u, hu, mn2⟩ := combineUpTo_min (fun t => load sh0.pmin (t : Int)) 255
    obtain ⟨mx1, w, hw, mx2⟩ := combineUpTo_max (fun t => load sh0.pmax (t : Int)) 255
    refine ⟨sh2, hs, ?_, ?_, ⟨u, by omega, ?_⟩, ?_, ⟨w, by omega, ?_⟩⟩
    · rw [hsumv, combineUpTo_add_eq_sum (fun t => load sh0.psum (t : Int)) 254]
    · intro t ht
      rw [hminv]
      exact mn1 t (by omega)
    · rw [hminv, mn2]
    · intro t ht
      rw [hmaxv]
      exact mx1 t (by omega)
    · rw [hmaxv, mx2]
  · intro r1 r2
    refine ⟨?_, ?_⟩
    · rw [hlaunch, hexact r1 r2]
    · rw [reduce_eq iend d hlen, hsum, zero_add]

set_option maxRecDepth 100000 in
/-- C24 at the object `exREDUCE600`: 600 elements, a grid of three blocks, the sum of
the vector within the `Int_type` range. -/
theorem C24_device_reduction_witness :
    exREDUCE600.data.m_vec.length = (600 : Int).toNat ∧
    Int_type_min ≤ exREDUCE600.data.m_vec.sum ∧ exREDUCE600.data.m_vec.sum ≤ Int_type_max ∧
    REDUCE3_INT.launch 600 8 exShared exREDUCE600.data
        (REDUCE3_INT.deviceCells exREDUCE600.data)
      = some (REDUCE3_INT.reduceWrap 600 exREDUCE600.data) ∧
    REDUCE3_INT.launch 600 8 exShared exREDUCE600.data
        (REDUCE3_INT.deviceCells exREDUCE600.data)
      = some (REDUCE3_INT.reduce 600 exREDUCE600.data) :=
  ⟨by simp [exREDUCE600, freshKernel], by decide, by decide,
    (C24_device_reduction exREDUCE600.data 600 8 exShared (by simp [exREDUCE600, freshKernel])
      (by decide) rfl (List.length_replicate _ _) (List.length_replicate _ _)
      (List.length_replicate _ _)
      (by decide)).2.2.2.1,
    ((C24_device_reduction exREDUCE600.data 600 8 exShared (by simp [exREDUCE600, freshKernel])
      (by decide) rfl (List.length_replicate _ _) (List.length_replicate _ _)
      (List.length_replicate _ _)
      (by decide)).2.2.2.2.2 (by decide) (by decide)).1⟩

end rajaperf
